import Mathlib

/-!
NAT64: the IPv4 transport-address pool (`mod/pool4.c`).

A shallow embedding of `pool4.c`.  The kernel lists become Lean lists (head first), a
pointer to a list element becomes the element together with the nodes before and after it,
a pointer to a member of a `pool_node` becomes a path to that member, and the functions
that mutate the global `pool` take the pool and give back the new one.

Machine integers are natural numbers; the places where the source narrows or wraps them
(`__u32 next_port`, the `__u16` out-parameter of `extract_any_port`) carry the reduction
explicitly.  `kmalloc` is an input of the operations that call it: `true` when it hands
back memory, `false` when it gives NULL.  The spin lock is not part of the model.
-/

namespace NAT64

/-! ## Data model -/

/-- Values of `enum error_code` that pool4.c returns. -/
inductive error_code where
  | ERR_SUCCESS
  | ERR_NULL
  | ERR_ALLOC_FAILED
  | ERR_POOL4_REINSERT
  | ERR_POOL4_NOT_FOUND
  deriving DecidableEq, Repr

/-- Protocol number of ICMP (linux/in.h). -/
def IPPROTO_ICMP : Nat := 1

/-- Protocol number of TCP (linux/in.h). -/
def IPPROTO_TCP : Nat := 6

/-- Protocol number of UDP (linux/in.h). -/
def IPPROTO_UDP : Nat := 17

/-- Protocol number of ICMPv6 (linux/in6.h). -/
def IPPROTO_ICMPV6 : Nat := 58

/-- A range of ports within an address (`struct addr_section`): `next_port` and `max_port`
are `__u32`, `free_ports` is the list of `struct free_port`, first node first. -/
structure addr_section where
  next_port : Nat
  max_port : Nat
  free_ports : List Nat
  deriving DecidableEq, Repr

/-- The four sections of one protocol (`struct protocol_ids`). -/
structure protocol_ids where
  odd_low : addr_section
  even_low : addr_section
  odd_high : addr_section
  even_high : addr_section
  deriving DecidableEq, Repr

/-- An address within the pool, along with its ports (`struct pool_node`). -/
structure pool_node where
  address : Nat
  udp : protocol_ids
  tcp : protocol_ids
  icmp : protocol_ids
  deriving DecidableEq, Repr

/-- An address and a port or ICMP id (`struct ipv4_tuple_address`). -/
structure ipv4_tuple_address where
  address : Nat
  l4_id : Nat
  deriving DecidableEq, Repr

/-- A pointer to one of the `protocol_ids` members of a node. -/
inductive ids_ptr where
  | udp
  | tcp
  | icmp
  deriving DecidableEq, Repr

/-- A pointer to one of the `addr_section` members of a `protocol_ids`. -/
inductive section_ptr where
  | odd_low
  | even_low
  | odd_high
  | even_high
  deriving DecidableEq, Repr

/-- Reads the `protocol_ids` an `ids_ptr` points to. -/
def pool_node.ids (node : pool_node) : ids_ptr → protocol_ids
  | .udp => node.udp
  | .tcp => node.tcp
  | .icmp => node.icmp

/-- Writes through an `ids_ptr`. -/
def pool_node.set_ids (node : pool_node) (p : ids_ptr) (ids : protocol_ids) : pool_node :=
  match p with
  | .udp => { node with udp := ids }
  | .tcp => { node with tcp := ids }
  | .icmp => { node with icmp := ids }

/-- Reads the section a `section_ptr` points to. -/
def protocol_ids.sec (ids : protocol_ids) : section_ptr → addr_section
  | .odd_low => ids.odd_low
  | .even_low => ids.even_low
  | .odd_high => ids.odd_high
  | .even_high => ids.even_high

/-- Writes through a `section_ptr`. -/
def protocol_ids.set_sec (ids : protocol_ids) (p : section_ptr) (s : addr_section) :
    protocol_ids :=
  match p with
  | .odd_low => { ids with odd_low := s }
  | .even_low => { ids with even_low := s }
  | .odd_high => { ids with odd_high := s }
  | .even_high => { ids with even_high := s }

/-- The section of `node` a pointer pair designates. -/
def pool_node.sec (node : pool_node) (r : ids_ptr × section_ptr) : addr_section :=
  (node.ids r.1).sec r.2

/-- The node after the section a pointer pair designates has been overwritten. -/
def pool_node.set_sec (node : pool_node) (r : ids_ptr × section_ptr) (s : addr_section) :
    pool_node :=
  node.set_ids r.1 ((node.ids r.1).set_sec r.2 s)

/-! ## Byte order -/

/-- Swaps the two bytes of a 16-bit value. -/
def swab16 (x : Nat) : Nat :=
  (x % 256) * 256 + (x / 256) % 256

/-- The kernel's `be16_to_cpu`: the identity on a big-endian host, a byte swap on a
little-endian one. -/
def be16_to_cpu (big_endian : Bool) (x : Nat) : Nat :=
  if big_endian then x % 65536 else swab16 x

/-- The kernel's `cpu_to_be16`. -/
def cpu_to_be16 (big_endian : Bool) (x : Nat) : Nat :=
  if big_endian then x % 65536 else swab16 x

/-! ## The static helpers -/

/-- Source `get_pool_node` (pool4.c:73-87): the first node holding `address`, as the nodes
before it, the node, and the nodes after it; `none` is NULL.  The empty pool is the first
equation. -/
def get_pool_node : List pool_node → Nat → Option (List pool_node × pool_node × List pool_node)
  | [], _ => none
  | node :: rest, address =>
    if node.address = address then some ([], node, rest)
    else
      match get_pool_node rest address with
      | some (before, found, after) => some (node :: before, found, after)
      | none => none

/-- Source `get_ids` (pool4.c:89-103); `none` is NULL. -/
def get_ids (_node : pool_node) (l4protocol : Nat) : Option ids_ptr :=
  if l4protocol = IPPROTO_UDP then some .udp
  else if l4protocol = IPPROTO_TCP then some .tcp
  else if l4protocol = IPPROTO_ICMP then some .icmp
  else if l4protocol = IPPROTO_ICMPV6 then some .icmp
  else none

/-- Source `get_section` (pool4.c:108-117); `none` is NULL. -/
def get_section (ids : Option ids_ptr) (l4_id : Nat) : Option (ids_ptr × section_ptr) :=
  match ids with
  | none => none
  | some p =>
    if l4_id < 1024 then
      some (p, if l4_id % 2 = 0 then .even_low else .odd_low)
    else
      some (p, if l4_id % 2 = 0 then .even_high else .odd_high)

/-- Source `extract_any_port` (pool4.c:122-144).  `none` as argument is the NULL section,
`none` as result is `false`; on `true` the result holds `*port` (a `__u16`) and the section
as the call leaves it (`next_port` is a `__u32`). -/
def extract_any_port : Option addr_section → Option (Nat × addr_section)
  | none => none
  | some sec =>
    match sec.free_ports with
    | port :: rest => some (port, { sec with free_ports := rest })
    | [] =>
      if sec.next_port > sec.max_port then none
      else some (sec.next_port % 65536,
                 { sec with next_port := (sec.next_port + 2) % 4294967296 })

/-- The call `extract_any_port(get_section(get_ids(node, l4protocol), l4_id), &port)` of
`pool4_get_any` and `pool4_get_similar`: the port and the node as the call leaves it. -/
def extract_from_node (node : pool_node) (l4protocol l4_id : Nat) : Option (Nat × pool_node) :=
  match get_section (get_ids node l4protocol) l4_id with
  | none =>
    match extract_any_port none with
    | some (port, _) => some (port, node)
    | none => none
  | some r =>
    match extract_any_port (some (node.sec r)) with
    | some (port, sec) => some (port, node.set_sec r sec)
    | none => none

/-- Source `init_section` (pool4.c:226-231). -/
def init_section (next_port max_port : Nat) : addr_section :=
  { next_port := next_port, max_port := max_port, free_ports := [] }

/-- Source `init_protocol_ids` (pool4.c:233-239). -/
def init_protocol_ids : protocol_ids :=
  { odd_low := init_section 1 1023
    even_low := init_section 0 1022
    odd_high := init_section 1025 65535
    even_high := init_section 1024 65534 }

/-- The node `pool4_register` builds before it takes the lock (pool4.c:256-259). -/
def init_pool_node (address : Nat) : pool_node :=
  { address := address, udp := init_protocol_ids, tcp := init_protocol_ids,
    icmp := init_protocol_ids }

/-- The section after `pool4_return` has linked a new `free_port` holding `port` behind the
last node of its free list (pool4.c:393-394). -/
def add_free_port (sec : addr_section) (port : Nat) : addr_section :=
  { sec with free_ports := sec.free_ports ++ [port] }

/-- Source `destroy_pool_node` (pool4.c:197-210): unlinks the node; its free lists and the
node itself are released. -/
def destroy_pool_node (at_node : List pool_node × pool_node × List pool_node) : List pool_node :=
  at_node.1 ++ at_node.2.2

/-! ## The public operations -/

/-- Source `pool4_register` (pool4.c:241-277).  `address = none` is the NULL pointer. -/
def pool4_register (kmalloc_ok : Bool) (address : Option Nat) (pool : List pool_node) :
    error_code × List pool_node :=
  match address with
  | none => (.ERR_NULL, pool)
  | some addr =>
    if !kmalloc_ok then (.ERR_ALLOC_FAILED, pool)
    else
      let new_node : pool_node := init_pool_node addr
      if pool.any (fun old_node => decide (old_node.address = addr)) then
        (.ERR_POOL4_REINSERT, pool)
      else (.ERR_SUCCESS, pool ++ [new_node])

/-- Source `pool4_remove` (pool4.c:279-301). -/
def pool4_remove (address : Option Nat) (pool : List pool_node) :
    error_code × List pool_node :=
  match address with
  | none => (.ERR_NULL, pool)
  | some addr =>
    match get_pool_node pool addr with
    | none => (.ERR_POOL4_NOT_FOUND, pool)
    | some at_node => (.ERR_SUCCESS, destroy_pool_node at_node)

/-- The `list_for_each_entry` loop of `pool4_get_any` (pool4.c:318-324). -/
def pool4_get_any_loop (l4protocol cpu_port : Nat) :
    List pool_node → Option ipv4_tuple_address × List pool_node
  | [] => (none, [])
  | node :: rest =>
    match extract_from_node node l4protocol cpu_port with
    | some (l4_id, node1) => (some { address := node.address, l4_id := l4_id }, node1 :: rest)
    | none =>
      let r := pool4_get_any_loop l4protocol cpu_port rest
      (r.1, node :: r.2)

/-- Source `pool4_get_any` (pool4.c:303-329).  `port` is the `__be16` argument; the result is
`*result` when the function returns true and `none` when it returns false. -/
def pool4_get_any (big_endian : Bool) (l4protocol port : Nat) (pool : List pool_node) :
    Option ipv4_tuple_address × List pool_node :=
  if pool.isEmpty then (none, pool)
  else pool4_get_any_loop l4protocol (be16_to_cpu big_endian port) pool

/-- Source `pool4_get_similar` (pool4.c:331-361). -/
def pool4_get_similar (l4protocol : Nat) (address : Option ipv4_tuple_address)
    (pool : List pool_node) : Option ipv4_tuple_address × List pool_node :=
  match address with
  | none => (none, pool)
  | some a =>
    match get_pool_node pool a.address with
    | none => (none, pool)
    | some (before, node, after) =>
      match extract_from_node node l4protocol a.l4_id with
      | some (l4_id, node1) =>
        (some { address := a.address, l4_id := l4_id }, before ++ node1 :: after)
      | none => (none, pool)

/-- Source `pool4_return` (pool4.c:363-402). -/
def pool4_return (kmalloc_ok : Bool) (l4protocol : Nat) (address : Option ipv4_tuple_address)
    (pool : List pool_node) : Bool × List pool_node :=
  match address with
  | none => (false, pool)
  | some a =>
    match get_pool_node pool a.address with
    | none => (false, pool)
    | some (before, node, after) =>
      match get_section (get_ids node l4protocol) a.l4_id with
      | none => (false, pool)
      | some r =>
        if !kmalloc_ok then (false, pool)
        else
          (true, before ++ node.set_sec r (add_free_port (node.sec r) a.l4_id) :: after)

/-- Source `pool4_contains` (pool4.c:404-413). -/
def pool4_contains (address : Nat) (pool : List pool_node) : Bool :=
  (get_pool_node pool address).isSome

/-- Source `pool4_to_array` (pool4.c:415-445): the error code and, on success, `*array_out`
with `*size_out`.  The counter is a `__u32`; a pool of 2^32 nodes or more would overrun the
array and is outside the model. -/
def pool4_to_array (kmalloc_ok : Bool) (pool : List pool_node) :
    error_code × Option (List Nat × Nat) :=
  if !kmalloc_ok then (.ERR_ALLOC_FAILED, none)
  else (.ERR_SUCCESS, some (pool.map (fun node => node.address), pool.length))

/-! ## Sequences of calls -/

/-- The section handed to `extract_any_port` for `node`, `l4protocol` and `l4_id`; `none` is
the NULL that an unsupported protocol gives. -/
def selected_section (node : pool_node) (l4protocol l4_id : Nat) : Option addr_section :=
  match get_section (get_ids node l4protocol) l4_id with
  | none => none
  | some r => some (node.sec r)

/-- Calls `extract_any_port` on one section up to `n` times, stopping at the first failure:
the ports it yields, in order, and the section afterwards. -/
def extract_ports : Nat → addr_section → List Nat × addr_section
  | 0, sec => ([], sec)
  | n + 1, sec =>
    match extract_any_port (some sec) with
    | some (port, sec1) => (port :: (extract_ports n sec1).1, (extract_ports n sec1).2)
    | none => ([], sec)

/-- Calls `pool4_get_any` with the same arguments `n` times: the results in order and the
pool afterwards. -/
def pool4_get_any_times (big_endian : Bool) (l4protocol port : Nat) :
    Nat → List pool_node → List (Option ipv4_tuple_address) × List pool_node
  | 0, pool => ([], pool)
  | n + 1, pool =>
    let r := pool4_get_any big_endian l4protocol port pool
    (r.1 :: (pool4_get_any_times big_endian l4protocol port n r.2).1,
     (pool4_get_any_times big_endian l4protocol port n r.2).2)

/-- One call of a public operation: its arguments and, where the operation allocates,
whether `kmalloc` hands back memory. -/
inductive pool4_call where
  | register (kmalloc_ok : Bool) (address : Option Nat)
  | remove (address : Option Nat)
  | get_any (l4protocol port : Nat)
  | get_similar (l4protocol : Nat) (address : Option ipv4_tuple_address)
  | give_back (kmalloc_ok : Bool) (l4protocol : Nat) (address : Option ipv4_tuple_address)
  deriving DecidableEq, Repr

/-- The arguments of a call fit their C types: `u_int8_t` protocol, `__be16` port, `__u16`
`l4_id`. -/
def pool4_call.typed : pool4_call → Bool
  | .register _ _ => true
  | .remove _ => true
  | .get_any l4protocol port => decide (l4protocol < 256) && decide (port < 65536)
  | .get_similar l4protocol none => decide (l4protocol < 256)
  | .get_similar l4protocol (some a) => decide (l4protocol < 256) && decide (a.l4_id < 65536)
  | .give_back _ l4protocol none => decide (l4protocol < 256)
  | .give_back _ l4protocol (some a) => decide (l4protocol < 256) && decide (a.l4_id < 65536)

/-- The pool after one call. -/
def pool4_call.run (big_endian : Bool) (pool : List pool_node) : pool4_call → List pool_node
  | .register kmalloc_ok address => (pool4_register kmalloc_ok address pool).2
  | .remove address => (pool4_remove address pool).2
  | .get_any l4protocol port => (pool4_get_any big_endian l4protocol port pool).2
  | .get_similar l4protocol address => (pool4_get_similar l4protocol address pool).2
  | .give_back kmalloc_ok l4protocol address =>
    (pool4_return kmalloc_ok l4protocol address pool).2

/-- The pool after a sequence of calls, first call first. -/
def pool4_run (big_endian : Bool) (calls : List pool4_call) (pool : List pool_node) :
    List pool_node :=
  calls.foldl (pool4_call.run big_endian) pool

/-- A pool state the public operations can produce from the empty pool (`pool4_init(false)`)
with arguments that fit their C types. -/
def reachable (big_endian : Bool) (pool : List pool_node) : Prop :=
  ∃ calls : List pool4_call,
    (∀ c ∈ calls, pool4_call.typed c = true) ∧ pool4_run big_endian calls [] = pool

/-- The lowest port of a section, as `init_protocol_ids` seeds `next_port`. -/
def section_ptr.low (p : section_ptr) : Nat :=
  (init_protocol_ids.sec p).next_port

/-- The highest port of a section, as `init_protocol_ids` sets `max_port`. -/
def section_ptr.high (p : section_ptr) : Nat :=
  (init_protocol_ids.sec p).max_port

/-- The number of ports in the band of a section. -/
def section_ptr.size (p : section_ptr) : Nat :=
  (p.high - p.low) / 2 + 1

/-- Port `port` belongs to the band of section `p`: in its range and of its parity. -/
def in_band (p : section_ptr) (port : Nat) : Prop :=
  p.low ≤ port ∧ port ≤ p.high ∧ port % 2 = p.low % 2

/-- Well-formedness of the section `p` points to. -/
def section_ok (p : section_ptr) (sec : addr_section) : Prop :=
  sec.max_port = p.high ∧ p.low ≤ sec.next_port ∧ sec.next_port ≤ p.high + 2 ∧
    sec.next_port % 2 = p.low % 2 ∧ ∀ port ∈ sec.free_ports, in_band p port

/-- Every section of every protocol of the node is well formed. -/
def node_ok (node : pool_node) : Prop :=
  ∀ r : ids_ptr × section_ptr, section_ok r.2 (node.sec r)

/-- Every node of the pool is well formed. -/
def pool_ok (pool : List pool_node) : Prop :=
  ∀ node ∈ pool, node_ok node

/-- Scenario on the address 192.0.2.1: register it, take the UDP even_low ports 0 and 2
(the hint 1000 is even and below 1024), give 2 back. -/
def fifo_calls : List pool4_call :=
  [pool4_call.register true (some 3221225985),
   pool4_call.get_similar IPPROTO_UDP (some { address := 3221225985, l4_id := 1000 }),
   pool4_call.get_similar IPPROTO_UDP (some { address := 3221225985, l4_id := 1000 }),
   pool4_call.give_back true IPPROTO_UDP (some { address := 3221225985, l4_id := 2 })]

/-- The registered addresses after one more call, written from the contract of
`register` and `unregister` and not from the code: a registration that gets its memory
appends an address that is not yet registered, an unregistration takes the address out, and
no other call changes the registered addresses. -/
def registered_step (registered : List Nat) : pool4_call → List Nat
  | .register true (some address) =>
    if address ∈ registered then registered else registered ++ [address]
  | .remove (some address) => registered.erase address
  | _ => registered

/-- The registered addresses after a sequence of calls on the empty pool, oldest
registration first. -/
def registered_spec (calls : List pool4_call) : List Nat :=
  calls.foldl registered_step []

/-! ## The Netlink attribute codec (`mod/common/nl/attribute.c`)

The kernel's attribute library is modelled at the level of attributes. An attribute is its
two header fields, its payload bytes, and the attributes its payload holds when it is read
as a container. A socket buffer is the attributes written so far, the containers that
`nla_nest_start` opened and nobody closed yet, and the room left; every attribute takes
its aligned size out of that room. A getter that reads past the payload of an attribute has
no defined result: `none`. -/

/-- Linux errno EINVAL. -/
def EINVAL : Int := 22

/-- Linux errno EMSGSIZE. -/
def EMSGSIZE : Int := 90

/-- Modelled from the spec: `jnls_err` (mod/common/nl/nl_core.c) records a diagnostic and
hands back the error code of the failure, a negative value (section 6: zero is success,
negative values categorize failures); the code is taken to be -EINVAL. -/
def jnls_err : Int := -EINVAL

/-- Modelled from the spec: `MAX_U32` (common/types.h), the cap of section 4.3, 2^32 - 1. -/
def MAX_U32 : Nat := 4294967295

/-- The `k` bytes of `x` in network order, most significant first (`x` modulo 256^k). -/
def be_bytes : Nat → Nat → List Nat
  | 0, _ => []
  | k + 1, x => (x / 256 ^ k) % 256 :: be_bytes k x

/-- The number that bytes in network order stand for. -/
def be_value (bytes : List Nat) : Nat :=
  bytes.foldl (fun acc b => acc * 256 + b) 0

/-- The `k` bytes of `x` as the host keeps them in memory. -/
def host_bytes (big_endian : Bool) (k x : Nat) : List Nat :=
  if big_endian then be_bytes k x else (be_bytes k x).reverse

/-- The number that bytes in the host's order stand for. -/
def host_value (big_endian : Bool) (bytes : List Nat) : Nat :=
  if big_endian then be_value bytes else be_value bytes.reverse

/-- An attribute as a getter sees it through a `struct nlattr *`: the header fields
`nla_len` and `nla_type`, the payload bytes, and the attributes in the payload when it is
read as a container. -/
inductive nlattr where
  | mk (nla_len : Nat) (nla_type : Nat) (data : List Nat) (nested : List nlattr)

/-- Header field `nla_len`: header plus payload, in bytes. -/
def nlattr.nla_len : nlattr → Nat
  | .mk len _ _ _ => len

/-- Header field `nla_type`. -/
def nlattr.nla_type : nlattr → Nat
  | .mk _ type _ _ => type

/-- The payload bytes (`nla_data`). -/
def nlattr.data : nlattr → List Nat
  | .mk _ _ data _ => data

/-- The attributes of the payload of a container. -/
def nlattr.nested : nlattr → List nlattr
  | .mk _ _ _ nested => nested

/-- The kernel's NLA_HDRLEN. -/
def NLA_HDRLEN : Nat := 4

/-- The kernel's NLA_ALIGN: the next multiple of 4. -/
def NLA_ALIGN (len : Nat) : Nat :=
  (len + 3) / 4 * 4

/-- The kernel's `nla_total_size`: header, payload and padding. -/
def nla_total_size (payload : Nat) : Nat :=
  NLA_ALIGN (NLA_HDRLEN + payload)

/-- An IPv6 prefix (`struct ipv6_prefix`); the address is the number its 16 bytes stand for
in network order. -/
structure ipv6_prefix where
  addr : Nat
  len : Nat
  deriving DecidableEq, Repr

/-- An IPv4 prefix (`struct ipv4_prefix`). -/
structure ipv4_prefix where
  addr : Nat
  len : Nat
  deriving DecidableEq, Repr

/-- An optional IPv6 prefix (`struct config_prefix6`). -/
structure config_prefix6 where
  set : Bool
  prefix_ : ipv6_prefix
  deriving DecidableEq, Repr

/-- An optional IPv4 prefix (`struct config_prefix4`). -/
structure config_prefix4 where
  set : Bool
  prefix_ : ipv4_prefix
  deriving DecidableEq, Repr

/-- An IPv6 transport address (`struct ipv6_transport_addr`). -/
structure ipv6_transport_addr where
  l3 : Nat
  l4 : Nat
  deriving DecidableEq, Repr

/-- An IPv4 transport address (`struct ipv4_transport_addr`). -/
structure ipv4_transport_addr where
  l3 : Nat
  l4 : Nat
  deriving DecidableEq, Repr

/-- A MAP rule (`struct mapping_rule`). -/
structure mapping_rule where
  prefix6 : ipv6_prefix
  prefix4 : ipv4_prefix
  o : Nat
  a : Nat
  deriving DecidableEq, Repr

/-- An optional MAP rule (`struct config_mapping_rule`). -/
structure config_mapping_rule where
  set : Bool
  rule : mapping_rule
  deriving DecidableEq, Repr

/-- What attribute.c takes from headers and modules that are not among the sources: the
byte order and word size of the host, the jiffies conversions, the values of the enums, the
attribute policies (the error code a policy gives for a child, 0 when it accepts it), and
the functions of other modules it calls. -/
structure jool_headers where
  big_endian : Bool
  BITS_PER_LONG : Nat
  msecs_to_jiffies : Nat → Nat
  jiffies_to_msecs : Nat → Nat
  L4PROTO_TCP : Nat
  L4PROTO_UDP : Nat
  L4PROTO_ICMP : Nat
  SESSION_TIMER_EST : Nat
  SESSION_TIMER_TRANS : Nat
  SESSION_TIMER_SYN4 : Nat
  TCP_INCOMING_SYN : Nat
  PLATEAUS_MAX : Nat
  JNLAP_ADDR : Nat
  JNLAP_LEN : Nat
  JNLAP_MAX : Nat
  JNLAT_ADDR : Nat
  JNLAT_PORT : Nat
  JNLAT_MAX : Nat
  JNLAE_PREFIX6 : Nat
  JNLAE_PREFIX4 : Nat
  JNLAE_MAX : Nat
  JNLAP4_MARK : Nat
  JNLAP4_ITERATIONS : Nat
  JNLAP4_FLAGS : Nat
  JNLAP4_PROTO : Nat
  JNLAP4_PREFIX : Nat
  JNLAP4_PORT_MIN : Nat
  JNLAP4_PORT_MAX : Nat
  JNLAP4_MAX : Nat
  JNLAB_SRC6 : Nat
  JNLAB_SRC4 : Nat
  JNLAB_PROTO : Nat
  JNLAB_STATIC : Nat
  JNLAB_MAX : Nat
  JNLASE_SRC6 : Nat
  JNLASE_DST6 : Nat
  JNLASE_SRC4 : Nat
  JNLASE_DST4 : Nat
  JNLASE_PROTO : Nat
  JNLASE_STATE : Nat
  JNLASE_TIMER : Nat
  JNLASE_EXPIRATION : Nat
  JNLAMR_PREFIX6 : Nat
  JNLAMR_PREFIX4 : Nat
  JNLAMR_EA_BITS_LENGTH : Nat
  JNLAMR_a : Nat
  JNLAMR_MAX : Nat
  JNLAL_ENTRY : Nat
  JNLAL_MAX : Nat
  joolnl_prefix6_policy : nlattr → Int
  joolnl_prefix4_policy : nlattr → Int
  joolnl_taddr6_policy : nlattr → Int
  joolnl_taddr4_policy : nlattr → Int
  joolnl_eam_policy : nlattr → Int
  joolnl_pool4_entry_policy : nlattr → Int
  joolnl_bib_entry_policy : nlattr → Int
  joolnl_mr_policy : nlattr → Int
  joolnl_plateau_list_policy : nlattr → Int
  prefix6_validate : ipv6_prefix → Int
  prefix4_validate : ipv4_prefix → Int
  rfc6052_4to6 : ipv6_prefix → Nat → Int × Nat
  maprule_get_k : mapping_rule → Nat

/-- A value stored in an `unsigned long`. -/
def jool_headers.ulong (K : jool_headers) (x : Int) : Nat :=
  (x % (2 : Int) ^ K.BITS_PER_LONG).toNat

/-! ### Reading attributes -/

/-- The first `n` payload bytes of an attribute; `none` when the payload is shorter. -/
def nla_read (attr : nlattr) (n : Nat) : Option (List Nat) :=
  if n ≤ attr.data.length then some (attr.data.take n) else none

/-- The kernel's `nla_len`: the payload length the header announces, an `int`. -/
def nla_len (attr : nlattr) : Int :=
  (attr.nla_len : Int) - (NLA_HDRLEN : Int)

/-- The kernel's `nla_get_u8`. -/
def nla_get_u8 (attr : nlattr) : Option Nat :=
  (nla_read attr 1).map be_value

/-- The kernel's `nla_get_u16`. -/
def nla_get_u16 (K : jool_headers) (attr : nlattr) : Option Nat :=
  (nla_read attr 2).map (host_value K.big_endian)

/-- The kernel's `nla_get_u32`. -/
def nla_get_u32 (K : jool_headers) (attr : nlattr) : Option Nat :=
  (nla_read attr 4).map (host_value K.big_endian)

/-- The first error a policy gives for the children of a container, in their order. -/
def nla_validate (policy : nlattr → Int) : List nlattr → Int
  | [] => 0
  | child :: rest => if policy child ≠ 0 then policy child else nla_validate policy rest

/-- The table `tb` that `nla_parse_nested` fills: for a type from 1 to `maxtype` the last
child of that type, NULL for a type no child has. -/
def nla_table (maxtype : Nat) (children : List nlattr) (type : Nat) : Option nlattr :=
  if 0 < type ∧ type ≤ maxtype then
    (children.filter (fun child => child.nla_type == type)).getLast?
  else none

/-- Source `jnla_parse_nested` (attribute.c:968-980) over the kernel's `nla_parse_nested`:
the error code and the table. -/
def jnla_parse_nested (maxtype : Nat) (nla : nlattr) (policy : nlattr → Int) :
    Int × (Nat → Option nlattr) :=
  (nla_validate policy nla.nested, nla_table maxtype nla.nested)

/-! ### Writing attributes -/

/-- A container that `nla_nest_start` opened and that is not closed yet: its type, the
attributes written into it, and the bytes it takes so far, header included. -/
structure nla_frame where
  nla_type : Nat
  children : List nlattr
  used : Nat

/-- A socket buffer under construction (`struct sk_buff`): the finished attributes, the open
containers (innermost first) and the bytes of room left behind the write position. -/
structure sk_buff where
  attrs : List nlattr
  frames : List nla_frame
  tailroom : Nat

/-- Appends a finished attribute of `size` bytes at the write position: into the innermost
open container, or behind the finished attributes when no container is open. -/
def sk_buff.append (skb : sk_buff) (attr : nlattr) (size : Nat) : sk_buff :=
  match skb.frames with
  | [] => { skb with attrs := skb.attrs ++ [attr] }
  | frame :: rest =>
    { skb with frames :=
        { frame with children := frame.children ++ [attr], used := frame.used + size }
          :: rest }

/-- The kernel's `nla_put`: -EMSGSIZE when the room is less than the aligned size of the
attribute, else the attribute is appended. -/
def nla_put (skb : sk_buff) (attrtype : Nat) (data : List Nat) : Int × sk_buff :=
  if skb.tailroom < nla_total_size data.length then (-EMSGSIZE, skb)
  else
    (0, { skb with tailroom := skb.tailroom - nla_total_size data.length }.append
      (nlattr.mk (NLA_HDRLEN + data.length) attrtype data [])
      (nla_total_size data.length))

/-- The kernel's `nla_put_u8`. -/
def nla_put_u8 (skb : sk_buff) (attrtype value : Nat) : Int × sk_buff :=
  nla_put skb attrtype [value % 256]

/-- The kernel's `nla_put_u16`. -/
def nla_put_u16 (K : jool_headers) (skb : sk_buff) (attrtype value : Nat) : Int × sk_buff :=
  nla_put skb attrtype (host_bytes K.big_endian 2 value)

/-- The kernel's `nla_put_u32`. -/
def nla_put_u32 (K : jool_headers) (skb : sk_buff) (attrtype value : Nat) : Int × sk_buff :=
  nla_put skb attrtype (host_bytes K.big_endian 4 value)

/-- The kernel's `nla_nest_start`: puts the header of a container and opens it; `none` is
the NULL it returns when there is no room for the header. -/
def nla_nest_start (skb : sk_buff) (attrtype : Nat) : Option sk_buff :=
  if skb.tailroom < nla_total_size 0 then none
  else
    some { skb with
      frames := { nla_type := attrtype, children := [], used := nla_total_size 0 }
        :: skb.frames
      tailroom := skb.tailroom - nla_total_size 0 }

/-- The kernel's `nla_nest_end` on the container opened last: its length becomes the bytes
written since its start and it is a finished attribute of the level below. -/
def nla_nest_end (skb : sk_buff) : sk_buff :=
  match skb.frames with
  | [] => skb
  | frame :: rest =>
    { skb with frames := rest }.append
      (nlattr.mk frame.used frame.nla_type [] frame.children) frame.used

/-- The kernel's `nla_nest_cancel` on the container opened last: the write position goes
back to the start of the container. -/
def nla_nest_cancel (skb : sk_buff) : sk_buff :=
  match skb.frames with
  | [] => skb
  | frame :: rest => { skb with frames := rest, tailroom := skb.tailroom + frame.used }

/-- The C expression `a || b || ...` over calls that write to the buffer: the calls run in
order until one returns nonzero; the value is 1 then and 0 when all return 0. -/
def lor_puts : List (sk_buff → Int × sk_buff) → sk_buff → Int × sk_buff
  | [], skb => (0, skb)
  | put :: rest, skb =>
    if (put skb).1 ≠ 0 then (1, (put skb).2) else lor_puts rest (put skb).2

/-! ### Session entries and their packed form -/

/-- The fields of `struct session_entry` that attribute.c reads or writes. -/
structure session_entry where
  src6 : ipv6_transport_addr
  dst6 : ipv6_transport_addr
  src4 : ipv4_transport_addr
  dst4 : ipv4_transport_addr
  proto : Nat
  state : Nat
  timer_type : Nat
  update_time : Nat
  timeout : Nat
  has_stored : Bool
  deriving DecidableEq, Repr

/-- The session lifetimes of `struct bib_config` (`config->ttl`), in milliseconds. -/
structure bib_ttl where
  tcp_est : Nat
  tcp_trans : Nat
  udp : Nat
  icmp : Nat
  deriving DecidableEq, Repr

/-- The fields of `struct jool_globals` that attribute.c reads: `pool6` and
`nat64.bib.ttl`. -/
structure jool_globals where
  pool6 : config_prefix6
  ttl : bib_ttl
  deriving DecidableEq, Repr

/-- Source `SERIALIZED_SESSION_SIZE` (attribute.c:8-13), with `sizeof(struct in6_addr)` = 16,
`sizeof(struct in_addr)` = 4, `sizeof(__be32)` = 4, `sizeof(__be16)` = 2. -/
def SERIALIZED_SESSION_SIZE : Nat :=
  16 + 2 * 4 + 4 + 4 * 2

/-- The entry after `memset(se, 0, sizeof(*se))`. -/
def session_entry_zero : session_entry :=
  { src6 := { l3 := 0, l4 := 0 }, dst6 := { l3 := 0, l4 := 0 },
    src4 := { l3 := 0, l4 := 0 }, dst4 := { l3 := 0, l4 := 0 },
    proto := 0, state := 0, timer_type := 0, update_time := 0, timeout := 0,
    has_stored := false }

/-- The remaining lifetime that `jnla_put_session` and `jnla_put_session_joold` compute
(attribute.c:824-829 and 878-883): `dying_time` after the three statements. The kernel's
`jiffies_to_msecs` returns an `unsigned int`: what the call hands back is the milliseconds
modulo 2^32, and that is what the `unsigned long` `dying_time` is assigned. -/
def session_dying_time (K : jool_headers) (jiffies : Nat) (entry : session_entry) : Nat :=
  let dying_time := K.ulong ((entry.update_time : Int) + (entry.timeout : Int))
  let dying_time :=
    if dying_time > jiffies then
      K.ulong ((K.jiffies_to_msecs (dying_time - jiffies) % 4294967296 : Nat) : Int)
    else 0
  if dying_time > MAX_U32 then MAX_U32 else dying_time

/-- The `__u16` that `jnla_put_session_joold` hands to `htons` (attribute.c:897-901). -/
def session_flags (entry : session_entry) : Nat :=
  ((entry.proto <<< 5) ||| (entry.state <<< 2) ||| entry.timer_type) % 65536

/-- The local `buffer` of `jnla_put_session_joold` after the eight ADD_RAW
(attribute.c:868-902). `htonl` and `htons` leave the bytes of their argument in network
order, whatever the host. -/
def session_joold_buffer (K : jool_headers) (jiffies : Nat) (entry : session_entry) :
    List Nat :=
  be_bytes 16 entry.src6.l3
    ++ be_bytes 4 entry.src4.l3
    ++ be_bytes 4 entry.dst4.l3
    ++ be_bytes 4 (session_dying_time K jiffies entry)
    ++ be_bytes 2 entry.src6.l4
    ++ be_bytes 2 entry.src4.l4
    ++ be_bytes 2 entry.dst4.l4
    ++ be_bytes 2 (session_flags entry)

/-- Source `jnla_put_session_joold` (attribute.c:852-905). -/
def jnla_put_session_joold (K : jool_headers) (jiffies : Nat) (skb : sk_buff)
    (attrtype : Nat) (entry : session_entry) : Int × sk_buff :=
  nla_put skb attrtype (session_joold_buffer K jiffies entry)

/-- Source `validate_null` (attribute.c:15-25). -/
def validate_null (attr : Option nlattr) : Int :=
  match attr with
  | none => jnls_err
  | some _ => 0

/-- Source `validate_len` (attribute.c:27-36); the `int` that `nla_len` returns is compared
as a `size_t`. -/
def validate_len (K : jool_headers) (attr : nlattr) (expected_len : Nat) : Int :=
  if K.ulong (nla_len attr) < expected_len then jnls_err else 0

/-- Source `get_timeout` (attribute.c:402-436): the error code and the entry. -/
def get_timeout (K : jool_headers) (config : bib_ttl) (entry : session_entry) :
    Int × session_entry :=
  if entry.proto = K.L4PROTO_TCP then
    if entry.timer_type = K.SESSION_TIMER_EST then
      (0, { entry with timeout := K.ulong (K.msecs_to_jiffies config.tcp_est) })
    else if entry.timer_type = K.SESSION_TIMER_TRANS then
      (0, { entry with timeout := K.ulong (K.msecs_to_jiffies config.tcp_trans) })
    else if entry.timer_type = K.SESSION_TIMER_SYN4 then
      (0, { entry with timeout := K.ulong (K.msecs_to_jiffies K.TCP_INCOMING_SYN) })
    else (jnls_err, entry)
  else if entry.proto = K.L4PROTO_UDP then
    (0, { entry with timeout := K.ulong (K.msecs_to_jiffies config.udp) })
  else if entry.proto = K.L4PROTO_ICMP then
    (0, { entry with timeout := K.ulong (K.msecs_to_jiffies config.icmp) })
  else (jnls_err, entry)

/-- Source `jnla_get_session_joold` (attribute.c:442-497): the error code and `*se`; `none`
when a READ_RAW runs past the payload. -/
def jnla_get_session_joold (K : jool_headers) (jiffies : Nat) (attr : Option nlattr)
    (cfg : jool_globals) (se : session_entry) : Option (Int × session_entry) :=
  match attr with
  | none => some (validate_null none, se)
  | some a =>
    if a.nla_len < SERIALIZED_SESSION_SIZE then some (jnls_err, se)
    else
      match nla_read a SERIALIZED_SESSION_SIZE with
      | none => none
      | some serialized =>
        let tmp32 := be_value ((serialized.drop 24).take 4)
        let flags := be_value ((serialized.drop 34).take 2)
        let se1 : session_entry :=
          { session_entry_zero with
            src6 := { l3 := be_value (serialized.take 16),
                      l4 := be_value ((serialized.drop 28).take 2) }
            src4 := { l3 := be_value ((serialized.drop 16).take 4),
                      l4 := be_value ((serialized.drop 30).take 2) }
            dst4 := { l3 := be_value ((serialized.drop 20).take 4),
                      l4 := be_value ((serialized.drop 32).take 2) }
            proto := (flags >>> 5) &&& 3
            state := (flags >>> 2) &&& 7
            timer_type := flags &&& 3 }
        let derived := K.rfc6052_4to6 cfg.pool6.prefix_ se1.dst4.l3
        let se2 : session_entry := { se1 with dst6 := { se1.dst6 with l3 := derived.2 } }
        if derived.1 ≠ 0 then some (derived.1, se2)
        else
          let se3 : session_entry :=
            { se2 with dst6 :=
                { se2.dst6 with
                  l4 := if se2.proto = K.L4PROTO_ICMP then se2.src6.l4 else se2.dst4.l4 } }
          let timed := get_timeout K cfg.ttl se3
          if timed.1 ≠ 0 then some (timed.1, timed.2)
          else
            let expiration := K.ulong (K.msecs_to_jiffies tmp32)
            some (0, { timed.2 with
              update_time :=
                K.ulong ((jiffies : Int) + (expiration : Int) - (timed.2.timeout : Int))
              has_stored := false })

/-- An instance of the headers for the examples: a little-endian 64-bit host with HZ = 1000,
the enums counted from 0 and the attribute types from 1 in the order of their use, policies
that accept every child, prefixes valid up to their full length, RFC 6052 for a /96 pool6
only, and k = o + r - 32. -/
def example_headers : jool_headers :=
  { big_endian := false
    BITS_PER_LONG := 64
    msecs_to_jiffies := fun m => m
    jiffies_to_msecs := fun j => j % 4294967296
    L4PROTO_TCP := 0
    L4PROTO_UDP := 1
    L4PROTO_ICMP := 2
    SESSION_TIMER_EST := 0
    SESSION_TIMER_TRANS := 1
    SESSION_TIMER_SYN4 := 2
    TCP_INCOMING_SYN := 6000
    PLATEAUS_MAX := 64
    JNLAP_ADDR := 1
    JNLAP_LEN := 2
    JNLAP_MAX := 2
    JNLAT_ADDR := 1
    JNLAT_PORT := 2
    JNLAT_MAX := 2
    JNLAE_PREFIX6 := 1
    JNLAE_PREFIX4 := 2
    JNLAE_MAX := 2
    JNLAP4_MARK := 1
    JNLAP4_ITERATIONS := 2
    JNLAP4_FLAGS := 3
    JNLAP4_PROTO := 4
    JNLAP4_PREFIX := 5
    JNLAP4_PORT_MIN := 6
    JNLAP4_PORT_MAX := 7
    JNLAP4_MAX := 7
    JNLAB_SRC6 := 1
    JNLAB_SRC4 := 2
    JNLAB_PROTO := 3
    JNLAB_STATIC := 4
    JNLAB_MAX := 4
    JNLASE_SRC6 := 1
    JNLASE_DST6 := 2
    JNLASE_SRC4 := 3
    JNLASE_DST4 := 4
    JNLASE_PROTO := 5
    JNLASE_STATE := 6
    JNLASE_TIMER := 7
    JNLASE_EXPIRATION := 8
    JNLAMR_PREFIX6 := 1
    JNLAMR_PREFIX4 := 2
    JNLAMR_EA_BITS_LENGTH := 3
    JNLAMR_a := 4
    JNLAMR_MAX := 4
    JNLAL_ENTRY := 1
    JNLAL_MAX := 1
    joolnl_prefix6_policy := fun _ => 0
    joolnl_prefix4_policy := fun _ => 0
    joolnl_taddr6_policy := fun _ => 0
    joolnl_taddr4_policy := fun _ => 0
    joolnl_eam_policy := fun _ => 0
    joolnl_pool4_entry_policy := fun _ => 0
    joolnl_bib_entry_policy := fun _ => 0
    joolnl_mr_policy := fun _ => 0
    joolnl_plateau_list_policy := fun _ => 0
    prefix6_validate := fun p => if p.len > 128 then -EINVAL else 0
    prefix4_validate := fun p => if p.len > 32 then -EINVAL else 0
    rfc6052_4to6 := fun p addr4 => if p.len = 96 then (0, p.addr + addr4) else (-EINVAL, 0)
    maprule_get_k := fun rule => rule.o + rule.prefix4.len - 32 }

/-- The session of the encoding scenario: 2001:db8::1#5000 to 64:ff9b::203.0.113.1#80,
masked as 192.0.2.1#40000 towards 203.0.113.1#80, TCP, state 3, established timer, last
seen at jiffy 1000 with a timeout of 60000. -/
def example_session : session_entry :=
  { src6 := { l3 := 0x20010db8000000000000000000000001, l4 := 5000 }
    dst6 := { l3 := 0x0064ff9b0000000000000000cb007101, l4 := 80 }
    src4 := { l3 := 0xc0000201, l4 := 40000 }
    dst4 := { l3 := 0xcb007101, l4 := 80 }
    proto := 0
    state := 3
    timer_type := 0
    update_time := 1000
    timeout := 60000
    has_stored := true }

/-- The enum values fit the two bits the packed form gives to the protocol and to the timer,
and the values of one enum differ from each other (as the labels of a `switch` must). -/
def jool_headers.enums_ok (K : jool_headers) : Prop :=
  K.L4PROTO_TCP ≤ 3 ∧ K.L4PROTO_UDP ≤ 3 ∧ K.L4PROTO_ICMP ≤ 3 ∧
  K.SESSION_TIMER_EST ≤ 3 ∧ K.SESSION_TIMER_TRANS ≤ 3 ∧ K.SESSION_TIMER_SYN4 ≤ 3 ∧
  K.L4PROTO_TCP ≠ K.L4PROTO_UDP ∧ K.L4PROTO_TCP ≠ K.L4PROTO_ICMP ∧
  K.L4PROTO_UDP ≠ K.L4PROTO_ICMP ∧
  K.SESSION_TIMER_EST ≠ K.SESSION_TIMER_TRANS ∧ K.SESSION_TIMER_EST ≠ K.SESSION_TIMER_SYN4 ∧
  K.SESSION_TIMER_TRANS ≠ K.SESSION_TIMER_SYN4

/-- The fields of a session entry fit their C types: 128-bit and 32-bit addresses and
16-bit ports. -/
def session_entry.typed (entry : session_entry) : Prop :=
  entry.src6.l3 < 2 ^ 128 ∧ entry.src4.l3 < 2 ^ 32 ∧ entry.dst4.l3 < 2 ^ 32 ∧
  entry.src6.l4 < 65536 ∧ entry.src4.l4 < 65536 ∧ entry.dst4.l4 < 65536

/-- The globals of the decoding scenario: pool6 is 64:ff9b::/96, the lifetimes are two
hours, four minutes, five minutes and one minute. -/
def example_globals : jool_globals :=
  { pool6 := { set := true, prefix_ := { addr := 0x0064ff9b000000000000000000000000, len := 96 } }
    ttl := { tcp_est := 7200000, tcp_trans := 240000, udp := 300000, icmp := 60000 } }

/-! ### The getters -/

/-- The C idiom `error = f(..., &field); if (error) return error;` followed by the rest of
the function: `none` when `f` read past a payload, the error and the output with what `f`
left in the field when `f` failed, else the rest. -/
def on_success {α β : Type} (r : Option (Int × α)) (store : α → β)
    (rest : α → Option (Int × β)) : Option (Int × β) :=
  match r with
  | none => none
  | some (error, value) => if error ≠ 0 then some (error, store value) else rest value

/-- Source `jnla_get_u8` (attribute.c:38-49): the error code and `*out`. -/
def jnla_get_u8 (attr : Option nlattr) (out : Nat) : Option (Int × Nat) :=
  match attr with
  | none => some (validate_null none, out)
  | some a => (nla_get_u8 a).map (fun value => ((0 : Int), value))

/-- Source `jnla_get_u16` (attribute.c:51-62). -/
def jnla_get_u16 (K : jool_headers) (attr : Option nlattr) (out : Nat) : Option (Int × Nat) :=
  match attr with
  | none => some (validate_null none, out)
  | some a => (nla_get_u16 K a).map (fun value => ((0 : Int), value))

/-- Source `jnla_get_u32` (attribute.c:64-75). -/
def jnla_get_u32 (K : jool_headers) (attr : Option nlattr) (out : Nat) : Option (Int × Nat) :=
  match attr with
  | none => some (validate_null none, out)
  | some a => (nla_get_u32 K a).map (fun value => ((0 : Int), value))

/-- Source `jnla_get_addr6` (attribute.c:104-118). -/
def jnla_get_addr6 (K : jool_headers) (attr : Option nlattr) (out : Nat) :
    Option (Int × Nat) :=
  match attr with
  | none => some (validate_null none, out)
  | some a =>
    if validate_len K a 16 ≠ 0 then some (validate_len K a 16, out)
    else (nla_read a 16).map (fun bytes => ((0 : Int), be_value bytes))

/-- Source `jnla_get_addr4` (attribute.c:120-134). -/
def jnla_get_addr4 (K : jool_headers) (attr : Option nlattr) (out : Nat) :
    Option (Int × Nat) :=
  match attr with
  | none => some (validate_null none, out)
  | some a =>
    if validate_len K a 4 ≠ 0 then some (validate_len K a 4, out)
    else (nla_read a 4).map (fun bytes => ((0 : Int), be_value bytes))

/-- Source `jnla_get_prefix6_optional` (attribute.c:156-189). -/
def jnla_get_prefix6_optional (K : jool_headers) (attr : Option nlattr)
    (out : config_prefix6) : Option (Int × config_prefix6) :=
  match attr with
  | none => some (validate_null none, out)
  | some a =>
    let parsed := jnla_parse_nested K.JNLAP_MAX a K.joolnl_prefix6_policy
    if parsed.1 ≠ 0 then some (parsed.1, out)
    else
      match parsed.2 K.JNLAP_LEN with
      | none => some (jnls_err, out)
      | some len_attr =>
        match parsed.2 K.JNLAP_ADDR with
        | none => some (0, { out with set := false })
        | some addr_attr =>
          on_success (jnla_get_addr6 K (some addr_attr) out.prefix_.addr)
            (fun addr => { set := true, prefix_ := { out.prefix_ with addr := addr } })
            (fun addr =>
              match nla_get_u8 len_attr with
              | none => none
              | some len =>
                some (K.prefix6_validate { addr := addr, len := len },
                  { set := true, prefix_ := { addr := addr, len := len } }))

/-- Source `jnla_get_prefix6` (attribute.c:136-154). The local `tmp` starts out
uninitialized; what it holds then is never read. -/
def jnla_get_prefix6 (K : jool_headers) (attr : Option nlattr) (out : ipv6_prefix) :
    Option (Int × ipv6_prefix) :=
  on_success (jnla_get_prefix6_optional K attr { set := false, prefix_ := out })
    (fun _ => out)
    (fun tmp => if !tmp.set then some (jnls_err, out) else some (0, tmp.prefix_))

/-- Source `jnla_get_prefix4_optional` (attribute.c:211-244). -/
def jnla_get_prefix4_optional (K : jool_headers) (attr : Option nlattr)
    (out : config_prefix4) : Option (Int × config_prefix4) :=
  match attr with
  | none => some (validate_null none, out)
  | some a =>
    let parsed := jnla_parse_nested K.JNLAP_MAX a K.joolnl_prefix4_policy
    if parsed.1 ≠ 0 then some (parsed.1, out)
    else
      match parsed.2 K.JNLAP_LEN with
      | none => some (jnls_err, out)
      | some len_attr =>
        match parsed.2 K.JNLAP_ADDR with
        | none => some (0, { out with set := false })
        | some addr_attr =>
          on_success (jnla_get_addr4 K (some addr_attr) out.prefix_.addr)
            (fun addr => { set := true, prefix_ := { out.prefix_ with addr := addr } })
            (fun addr =>
              match nla_get_u8 len_attr with
              | none => none
              | some len =>
                some (K.prefix4_validate { addr := addr, len := len },
                  { set := true, prefix_ := { addr := addr, len := len } }))

/-- Source `jnla_get_prefix4` (attribute.c:191-209). -/
def jnla_get_prefix4 (K : jool_headers) (attr : Option nlattr) (out : ipv4_prefix) :
    Option (Int × ipv4_prefix) :=
  on_success (jnla_get_prefix4_optional K attr { set := false, prefix_ := out })
    (fun _ => out)
    (fun tmp => if !tmp.set then some (jnls_err, out) else some (0, tmp.prefix_))

/-- Source `jnla_get_port` (attribute.c:246-257). -/
def jnla_get_port (K : jool_headers) (attr : Option nlattr) (out : Nat) : Option (Int × Nat) :=
  match attr with
  | none => some (validate_null none, out)
  | some a => (nla_get_u16 K a).map (fun value => ((0 : Int), value))

/-- Source `jnla_get_taddr6` (attribute.c:259-279). -/
def jnla_get_taddr6 (K : jool_headers) (attr : Option nlattr) (out : ipv6_transport_addr) :
    Option (Int × ipv6_transport_addr) :=
  match attr with
  | none => some (validate_null none, out)
  | some a =>
    let parsed := jnla_parse_nested K.JNLAT_MAX a K.joolnl_taddr6_policy
    if parsed.1 ≠ 0 then some (parsed.1, out)
    else
      on_success (jnla_get_addr6 K (parsed.2 K.JNLAT_ADDR) out.l3)
        (fun l3 => { out with l3 := l3 })
        (fun l3 =>
          on_success (jnla_get_port K (parsed.2 K.JNLAT_PORT) out.l4)
            (fun l4 => { l3 := l3, l4 := l4 })
            (fun l4 => some (0, { l3 := l3, l4 := l4 })))

/-- Source `jnla_get_taddr4` (attribute.c:281-301). -/
def jnla_get_taddr4 (K : jool_headers) (attr : Option nlattr) (out : ipv4_transport_addr) :
    Option (Int × ipv4_transport_addr) :=
  match attr with
  | none => some (validate_null none, out)
  | some a =>
    let parsed := jnla_parse_nested K.JNLAT_MAX a K.joolnl_taddr4_policy
    if parsed.1 ≠ 0 then some (parsed.1, out)
    else
      on_success (jnla_get_addr4 K (parsed.2 K.JNLAT_ADDR) out.l3)
        (fun l3 => { out with l3 := l3 })
        (fun l3 =>
          on_success (jnla_get_port K (parsed.2 K.JNLAT_PORT) out.l4)
            (fun l4 => { l3 := l3, l4 := l4 })
            (fun l4 => some (0, { l3 := l3, l4 := l4 })))

/-- An EAM row (`struct eamt_entry`). -/
structure eamt_entry where
  prefix6 : ipv6_prefix
  prefix4 : ipv4_prefix
  deriving DecidableEq, Repr

/-- Source `jnla_get_eam` (attribute.c:303-325). -/
def jnla_get_eam (K : jool_headers) (attr : Option nlattr) (eam : eamt_entry) :
    Option (Int × eamt_entry) :=
  match attr with
  | none => some (validate_null none, eam)
  | some a =>
    let parsed := jnla_parse_nested K.JNLAE_MAX a K.joolnl_eam_policy
    if parsed.1 ≠ 0 then some (parsed.1, eam)
    else
      on_success (jnla_get_prefix6 K (parsed.2 K.JNLAE_PREFIX6) eam.prefix6)
        (fun p6 => { eam with prefix6 := p6 })
        (fun p6 =>
          on_success (jnla_get_prefix4 K (parsed.2 K.JNLAE_PREFIX4) eam.prefix4)
            (fun p4 => { prefix6 := p6, prefix4 := p4 })
            (fun p4 => some (0, { prefix6 := p6, prefix4 := p4 })))

/-- A port range (`struct port_range`). -/
structure port_range where
  min : Nat
  max : Nat
  deriving DecidableEq, Repr

/-- Addresses and ports (`struct ipv4_range`). -/
structure ipv4_range where
  prefix_ : ipv4_prefix
  ports : port_range
  deriving DecidableEq, Repr

/-- A pool4 row (`struct pool4_entry`). -/
structure pool4_entry where
  mark : Nat
  iterations : Nat
  flags : Nat
  proto : Nat
  range : ipv4_range
  deriving DecidableEq, Repr

/-- The row after `memset(entry, 0, sizeof(*entry))`. -/
def pool4_entry_zero : pool4_entry :=
  { mark := 0, iterations := 0, flags := 0, proto := 0,
    range := { prefix_ := { addr := 0, len := 0 }, ports := { min := 0, max := 0 } } }

/-- An optional attribute read with `nla_get_u32`, `nla_get_u16` or `nla_get_u8`
(`if (attrs[X]) field = nla_get(attrs[X]);`): the field as it is afterwards. -/
def get_optional (attr : Option nlattr) (get : nlattr → Option Nat) (field : Nat) :
    Option Nat :=
  match attr with
  | none => some field
  | some a => get a

/-- Source `jnla_get_pool4` (attribute.c:327-365). -/
def jnla_get_pool4 (K : jool_headers) (attr : Option nlattr) (entry : pool4_entry) :
    Option (Int × pool4_entry) :=
  match attr with
  | none => some (validate_null none, entry)
  | some a =>
    let parsed := jnla_parse_nested K.JNLAP4_MAX a K.joolnl_pool4_entry_policy
    if parsed.1 ≠ 0 then some (parsed.1, entry)
    else
      match get_optional (parsed.2 K.JNLAP4_MARK) (nla_get_u32 K) pool4_entry_zero.mark,
        get_optional (parsed.2 K.JNLAP4_ITERATIONS) (nla_get_u32 K)
          pool4_entry_zero.iterations,
        get_optional (parsed.2 K.JNLAP4_FLAGS) nla_get_u8 pool4_entry_zero.flags with
      | some mark, some iterations, some flags =>
        let e1 : pool4_entry :=
          { pool4_entry_zero with mark := mark, iterations := iterations, flags := flags }
        on_success (jnla_get_u8 (parsed.2 K.JNLAP4_PROTO) e1.proto)
          (fun proto => { e1 with proto := proto })
          (fun proto =>
            let e2 : pool4_entry := { e1 with proto := proto }
            on_success (jnla_get_prefix4 K (parsed.2 K.JNLAP4_PREFIX) e2.range.prefix_)
              (fun p4 => { e2 with range := { e2.range with prefix_ := p4 } })
              (fun p4 =>
                let e3 : pool4_entry := { e2 with range := { e2.range with prefix_ := p4 } }
                on_success (jnla_get_u16 K (parsed.2 K.JNLAP4_PORT_MIN) e3.range.ports.min)
                  (fun pmin =>
                    { e3 with range := { e3.range with ports := { e3.range.ports with min := pmin } } })
                  (fun pmin =>
                    let e4 : pool4_entry :=
                      { e3 with range := { e3.range with ports := { e3.range.ports with min := pmin } } }
                    on_success
                      (jnla_get_u16 K (parsed.2 K.JNLAP4_PORT_MAX) e4.range.ports.max)
                      (fun pmax =>
                        { e4 with range := { e4.range with ports := { e4.range.ports with max := pmax } } })
                      (fun pmax =>
                        some (0,
                          { e4 with range := { e4.range with ports := { e4.range.ports with max := pmax } } })))))
      | _, _, _ => none

/-- A BIB row (`struct bib_entry`). -/
structure bib_entry where
  addr6 : ipv6_transport_addr
  addr4 : ipv4_transport_addr
  l4_proto : Nat
  is_static : Bool
  deriving DecidableEq, Repr

/-- The row after `memset(entry, 0, sizeof(*entry))`. -/
def bib_entry_zero : bib_entry :=
  { addr6 := { l3 := 0, l4 := 0 }, addr4 := { l3 := 0, l4 := 0 }, l4_proto := 0,
    is_static := false }

/-- Source `jnla_get_bib` (attribute.c:367-400). -/
def jnla_get_bib (K : jool_headers) (attr : Option nlattr) (entry : bib_entry) :
    Option (Int × bib_entry) :=
  match attr with
  | none => some (validate_null none, entry)
  | some a =>
    let parsed := jnla_parse_nested K.JNLAB_MAX a K.joolnl_bib_entry_policy
    if parsed.1 ≠ 0 then some (parsed.1, entry)
    else
      let e0 : bib_entry := bib_entry_zero
      on_success (jnla_get_taddr6 K (parsed.2 K.JNLAB_SRC6) e0.addr6)
        (fun a6 => { e0 with addr6 := a6 })
        (fun a6 =>
          let e1 : bib_entry := { e0 with addr6 := a6 }
          on_success (jnla_get_taddr4 K (parsed.2 K.JNLAB_SRC4) e1.addr4)
            (fun a4 => { e1 with addr4 := a4 })
            (fun a4 =>
              let e2 : bib_entry := { e1 with addr4 := a4 }
              on_success (jnla_get_u8 (parsed.2 K.JNLAB_PROTO) e2.l4_proto)
                (fun proto => { e2 with l4_proto := proto })
                (fun proto =>
                  let e3 : bib_entry := { e2 with l4_proto := proto }
                  match parsed.2 K.JNLAB_STATIC with
                  | none => some (0, e3)
                  | some static_attr =>
                    match nla_get_u8 static_attr with
                    | none => none
                    | some value => some (0, { e3 with is_static := decide (value ≠ 0) }))))

/-- Source `jnla_get_mapping_rule` (attribute.c:500-564). The arithmetic of the checks is
that of `unsigned int`. -/
def jnla_get_mapping_rule (K : jool_headers) (attr : Option nlattr)
    (_rule : config_mapping_rule) : Option (Int × config_mapping_rule) :=
  match attr with
  | none => some (validate_null none, _rule)
  | some a =>
    let parsed := jnla_parse_nested K.JNLAMR_MAX a K.joolnl_mr_policy
    if parsed.1 ≠ 0 then some (parsed.1, _rule)
    else
      match parsed.2 K.JNLAMR_PREFIX4 with
      | none => some (0, { _rule with set := false })
      | some prefix4_attr =>
        let r0 : mapping_rule := _rule.rule
        on_success (jnla_get_prefix6 K (parsed.2 K.JNLAMR_PREFIX6) r0.prefix6)
          (fun p6 => { set := true, rule := { r0 with prefix6 := p6 } })
          (fun p6 =>
            let r1 : mapping_rule := { r0 with prefix6 := p6 }
            on_success (jnla_get_prefix4 K (some prefix4_attr) r1.prefix4)
              (fun p4 => { set := true, rule := { r1 with prefix4 := p4 } })
              (fun p4 =>
                let r2 : mapping_rule := { r1 with prefix4 := p4 }
                on_success (jnla_get_u8 (parsed.2 K.JNLAMR_EA_BITS_LENGTH) r2.o)
                  (fun o => { set := true, rule := { r2 with o := o } })
                  (fun o =>
                    match get_optional (parsed.2 K.JNLAMR_a) nla_get_u8 6 with
                    | none => none
                    | some a_value =>
                      let rule : mapping_rule := { r2 with o := o, a := a_value }
                      let suffix_len :=
                        (4294967296 + 32 - rule.prefix4.len % 4294967296) % 4294967296
                      let sid_len := if suffix_len > rule.o then suffix_len - rule.o else 0
                      let k := K.maprule_get_k rule % 4294967296
                      if rule.o > 48 then some (jnls_err, { set := true, rule := rule })
                      else if (rule.prefix6.len + rule.o + sid_len) % 4294967296 > 128 then
                        some (jnls_err, { set := true, rule := rule })
                      else if (rule.o + rule.prefix4.len) % 4294967296 ≤ 32 then
                        some (0, { set := true, rule := rule })
                      else if rule.a > 16 then
                        some (jnls_err, { set := true, rule := rule })
                      else if (rule.a + k) % 4294967296 > 16 then
                        some (-EINVAL, { set := true, rule := rule })
                      else some (0, { set := true, rule := rule }))))

/-! ### MTU plateaus -/

/-- The plateaus of `struct mtu_plateaus`: the array `values` (PLATEAUS_MAX entries) and
`count`, the number of entries in use. -/
structure mtu_plateaus where
  values : List Nat
  count : Nat
  deriving DecidableEq, Repr

/-- Source `u16_compare` (attribute.c:566-569). -/
def u16_compare (a b : Nat) : Int :=
  (b : Int) - (a : Int)

/-- The kernel's `sort` with `u16_compare` on the first `num` entries of an array: they
end up so that `u16_compare` of an earlier and a later one is never positive, largest
first. -/
def sort_u16 (values : List Nat) (num : Nat) : List Nat :=
  (values.take num).insertionSort (fun a b => u16_compare a b ≤ 0) ++ values.drop num

/-- The loop of `validate_plateaus` (attribute.c:588-595) from the state `i`, `j`, `values`;
`fuel` bounds the iterations left. The result is `i` and the array. -/
def plateaus_squeeze (count : Nat) : Nat → Nat → Nat → List Nat → Nat × List Nat
  | 0, i, _, values => (i, values)
  | fuel + 1, i, j, values =>
    if j < count then
      if values.getD j 0 = 0 then (i, values)
      else if values.getD i 0 ≠ values.getD j 0 then
        plateaus_squeeze count fuel (i + 1) (j + 1) (values.set (i + 1) (values.getD j 0))
      else plateaus_squeeze count fuel i (j + 1) values
    else (i, values)

/-- Source `validate_plateaus` (attribute.c:578-603): the error code and `*plateaus`. -/
def validate_plateaus (plateaus : mtu_plateaus) : Int × mtu_plateaus :=
  let sorted := sort_u16 plateaus.values plateaus.count
  let squeezed := plateaus_squeeze plateaus.count plateaus.count 0 1 sorted
  if squeezed.2.getD 0 0 = 0 then (jnls_err, { plateaus with values := squeezed.2 })
  else (0, { values := squeezed.2, count := squeezed.1 + 1 })

/-- The `nla_for_each_nested` loop of `jnla_get_plateaus` (attribute.c:621-627). -/
def plateaus_fill (K : jool_headers) : List nlattr → mtu_plateaus → Option (Int × mtu_plateaus)
  | [], out => some (0, out)
  | attr :: rest, out =>
    if out.count ≥ K.PLATEAUS_MAX then some (jnls_err, out)
    else
      match nla_get_u16 K attr with
      | none => none
      | some value =>
        plateaus_fill K rest
          { values := out.values.set out.count value, count := out.count + 1 }

/-- Source `jnla_get_plateaus` (attribute.c:605-630): the error code and `*out`. -/
def jnla_get_plateaus (K : jool_headers) (root : Option nlattr) (out : mtu_plateaus) :
    Option (Int × mtu_plateaus) :=
  match root with
  | none => some (validate_null none, out)
  | some r =>
    if nla_validate K.joolnl_plateau_list_policy r.nested ≠ 0 then
      some (nla_validate K.joolnl_plateau_list_policy r.nested, out)
    else
      on_success (plateaus_fill K r.nested { out with count := 0 })
        (fun filled => filled)
        (fun filled => some (validate_plateaus filled))

/-! ### The writers -/

/-- Source `jnla_put_addr6` (attribute.c:632-636). -/
def jnla_put_addr6 (skb : sk_buff) (attrtype addr : Nat) : Int × sk_buff :=
  nla_put skb attrtype (be_bytes 16 addr)

/-- Source `jnla_put_addr4` (attribute.c:638-642). -/
def jnla_put_addr4 (skb : sk_buff) (attrtype addr : Nat) : Int × sk_buff :=
  nla_put skb attrtype (be_bytes 4 addr)

/-- The end of a nested writer: `nla_nest_cancel` and the error when the children failed,
`nla_nest_end` and 0 when they did not. -/
def nest_finish (r : Int × sk_buff) : Int × sk_buff :=
  if r.1 ≠ 0 then (r.1, nla_nest_cancel r.2) else (0, nla_nest_end r.2)

/-- Source `jnla_put_prefix6` (attribute.c:644-671); `pfx = none` is the NULL prefix. -/
def jnla_put_prefix6 (K : jool_headers) (skb : sk_buff) (attrtype : Nat)
    (pfx : Option ipv6_prefix) : Int × sk_buff :=
  match nla_nest_start skb attrtype with
  | none => (-EMSGSIZE, skb)
  | some root =>
    match pfx with
    | some p =>
      nest_finish (lor_puts
        [fun s => jnla_put_addr6 s K.JNLAP_ADDR p.addr,
         fun s => nla_put_u8 s K.JNLAP_LEN p.len] root)
    | none => nest_finish (nla_put_u8 root K.JNLAP_LEN 0)

/-- Source `jnla_put_prefix4` (attribute.c:673-700). -/
def jnla_put_prefix4 (K : jool_headers) (skb : sk_buff) (attrtype : Nat)
    (pfx : Option ipv4_prefix) : Int × sk_buff :=
  match nla_nest_start skb attrtype with
  | none => (-EMSGSIZE, skb)
  | some root =>
    match pfx with
    | some p =>
      nest_finish (lor_puts
        [fun s => jnla_put_addr4 s K.JNLAP_ADDR p.addr,
         fun s => nla_put_u8 s K.JNLAP_LEN p.len] root)
    | none => nest_finish (nla_put_u8 root K.JNLAP_LEN 0)

/-- Source `jnla_put_taddr6` (attribute.c:702-721). -/
def jnla_put_taddr6 (K : jool_headers) (skb : sk_buff) (attrtype : Nat)
    (taddr : ipv6_transport_addr) : Int × sk_buff :=
  match nla_nest_start skb attrtype with
  | none => (-EMSGSIZE, skb)
  | some root =>
    nest_finish (lor_puts
      [fun s => jnla_put_addr6 s K.JNLAT_ADDR taddr.l3,
       fun s => nla_put_u16 K s K.JNLAT_PORT taddr.l4] root)

/-- Source `jnla_put_taddr4` (attribute.c:723-742). -/
def jnla_put_taddr4 (K : jool_headers) (skb : sk_buff) (attrtype : Nat)
    (taddr : ipv4_transport_addr) : Int × sk_buff :=
  match nla_nest_start skb attrtype with
  | none => (-EMSGSIZE, skb)
  | some root =>
    nest_finish (lor_puts
      [fun s => jnla_put_addr4 s K.JNLAT_ADDR taddr.l3,
       fun s => nla_put_u16 K s K.JNLAT_PORT taddr.l4] root)

/-- Source `jnla_put_eam` (attribute.c:744-763). -/
def jnla_put_eam (K : jool_headers) (skb : sk_buff) (attrtype : Nat) (eam : eamt_entry) :
    Int × sk_buff :=
  match nla_nest_start skb attrtype with
  | none => (-EMSGSIZE, skb)
  | some root =>
    nest_finish (lor_puts
      [fun s => jnla_put_prefix6 K s K.JNLAE_PREFIX6 (some eam.prefix6),
       fun s => jnla_put_prefix4 K s K.JNLAE_PREFIX4 (some eam.prefix4)] root)

/-- Source `jnla_put_pool4` (attribute.c:765-789). -/
def jnla_put_pool4 (K : jool_headers) (skb : sk_buff) (attrtype : Nat)
    (entry : pool4_entry) : Int × sk_buff :=
  match nla_nest_start skb attrtype with
  | none => (-EMSGSIZE, skb)
  | some root =>
    nest_finish (lor_puts
      [fun s => nla_put_u32 K s K.JNLAP4_MARK entry.mark,
       fun s => nla_put_u32 K s K.JNLAP4_ITERATIONS entry.iterations,
       fun s => nla_put_u8 s K.JNLAP4_FLAGS entry.flags,
       fun s => nla_put_u8 s K.JNLAP4_PROTO entry.proto,
       fun s => jnla_put_prefix4 K s K.JNLAP4_PREFIX (some entry.range.prefix_),
       fun s => nla_put_u16 K s K.JNLAP4_PORT_MIN entry.range.ports.min,
       fun s => nla_put_u16 K s K.JNLAP4_PORT_MAX entry.range.ports.max] root)

/-- Source `jnla_put_bib` (attribute.c:791-811): a failed child gives -EMSGSIZE. -/
def jnla_put_bib (K : jool_headers) (skb : sk_buff) (attrtype : Nat) (bib : bib_entry) :
    Int × sk_buff :=
  match nla_nest_start skb attrtype with
  | none => (-EMSGSIZE, skb)
  | some root =>
    let r := lor_puts
      [fun s => jnla_put_taddr6 K s K.JNLAB_SRC6 bib.addr6,
       fun s => jnla_put_taddr4 K s K.JNLAB_SRC4 bib.addr4,
       fun s => nla_put_u8 s K.JNLAB_PROTO bib.l4_proto,
       fun s => nla_put_u8 s K.JNLAB_STATIC (if bib.is_static then 1 else 0)] root
    if r.1 ≠ 0 then (-EMSGSIZE, nla_nest_cancel r.2) else (0, nla_nest_end r.2)

/-- Source `jnla_put_session` (attribute.c:813-846). -/
def jnla_put_session (K : jool_headers) (jiffies : Nat) (skb : sk_buff) (attrtype : Nat)
    (entry : session_entry) : Int × sk_buff :=
  match nla_nest_start skb attrtype with
  | none => (-EMSGSIZE, skb)
  | some root =>
    nest_finish (lor_puts
      [fun s => jnla_put_taddr6 K s K.JNLASE_SRC6 entry.src6,
       fun s => jnla_put_taddr6 K s K.JNLASE_DST6 entry.dst6,
       fun s => jnla_put_taddr4 K s K.JNLASE_SRC4 entry.src4,
       fun s => jnla_put_taddr4 K s K.JNLASE_DST4 entry.dst4,
       fun s => nla_put_u8 s K.JNLASE_PROTO entry.proto,
       fun s => nla_put_u8 s K.JNLASE_STATE entry.state,
       fun s => nla_put_u8 s K.JNLASE_TIMER entry.timer_type,
       fun s => nla_put_u32 K s K.JNLASE_EXPIRATION (session_dying_time K jiffies entry)]
      root)

/-- The C idiom `error = put(...); if (error) goto cancel;` over a list of calls: they run
in order until one returns nonzero; the value is that error, or 0 when all return 0. -/
def seq_puts : List (sk_buff → Int × sk_buff) → sk_buff → Int × sk_buff
  | [], skb => (0, skb)
  | put :: rest, skb =>
    if (put skb).1 ≠ 0 then ((put skb).1, (put skb).2) else seq_puts rest (put skb).2

/-- Source `jnla_put_mapping_rule` (attribute.c:908-943). -/
def jnla_put_mapping_rule (K : jool_headers) (skb : sk_buff) (attrtype : Nat)
    (rule : config_mapping_rule) : Int × sk_buff :=
  match nla_nest_start skb attrtype with
  | none => (-EMSGSIZE, skb)
  | some root =>
    if rule.set then
      nest_finish (seq_puts
        [fun s => jnla_put_prefix6 K s K.JNLAMR_PREFIX6 (some rule.rule.prefix6),
         fun s => jnla_put_prefix4 K s K.JNLAMR_PREFIX4 (some rule.rule.prefix4),
         fun s => nla_put_u8 s K.JNLAMR_EA_BITS_LENGTH rule.rule.o,
         fun s => nla_put_u8 s K.JNLAMR_a rule.rule.a] root)
    else nest_finish (jnla_put_prefix6 K root K.JNLAMR_PREFIX6 none)

/-- Source `jnla_put_plateaus` (attribute.c:945-966): the loop runs over the first `count`
entries of `values`. -/
def jnla_put_plateaus (K : jool_headers) (skb : sk_buff) (attrtype : Nat)
    (plateaus : mtu_plateaus) : Int × sk_buff :=
  match nla_nest_start skb attrtype with
  | none => (-EMSGSIZE, skb)
  | some root =>
    nest_finish (seq_puts
      ((plateaus.values.take plateaus.count).map
        (fun value => fun s => nla_put_u16 K s K.JNLAL_ENTRY value)) root)

/-- Appends finished attributes that take `size` bytes together at the write position. -/
def sk_buff.append_list (skb : sk_buff) (attrs : List nlattr) (size : Nat) : sk_buff :=
  match skb.frames with
  | [] => { skb with attrs := skb.attrs ++ attrs }
  | frame :: rest =>
    { skb with frames :=
        { frame with children := frame.children ++ attrs, used := frame.used + size }
          :: rest }

/-- The buffer `after` is the buffer `before` followed by the attributes `attrs`, which take
`size` bytes of its room. -/
def sk_buff.followed_by (before after : sk_buff) (attrs : List nlattr) (size : Nat) : Prop :=
  size ≤ before.tailroom ∧
    after = { before with tailroom := before.tailroom - size }.append_list attrs size

/-- A call that writes to a buffer is transactional and writes one attribute: when it
returns nonzero the buffer is as before the call, and when it returns 0 the buffer is the
old one followed by exactly one finished attribute. -/
def writes_one (skb : sk_buff) (r : Int × sk_buff) : Prop :=
  (r.1 ≠ 0 → r.2 = skb) ∧
  (r.1 = 0 → ∃ (attr : nlattr) (size : Nat), sk_buff.followed_by skb r.2 [attr] size)

/-- A nested writer is transactional: when it returns nonzero the buffer is as before the
call, and when it returns 0 the buffer is the old one followed by exactly one closed
container of the type asked for, whose length covers its children. -/
def writes_container (skb : sk_buff) (attrtype : Nat) (r : Int × sk_buff) : Prop :=
  (r.1 ≠ 0 → r.2 = skb) ∧
  (r.1 = 0 → ∃ (children : List nlattr) (size : Nat),
    sk_buff.followed_by skb r.2 [nlattr.mk size attrtype [] children] size)

/-- What the loop of `validate_plateaus` keeps of the entries `rest` that follow an entry
`last` it has kept: it stops at the first zero and skips the entries equal to the one kept
last. -/
def squeeze_spec (last : Nat) : List Nat → List Nat
  | [] => []
  | x :: rest =>
    if x = 0 then []
    else if last ≠ x then x :: squeeze_spec x rest
    else squeeze_spec last rest

/-- The MAP rule of the examples: 2001:db8::/40 and 192.0.2.0/24 with 16 EA-bits and a PSID
offset of 6, so that o + r = 40, k = 8 and a + k = 14. -/
def example_rule : config_mapping_rule :=
  { set := true
    rule :=
      { prefix6 := { addr := 0x20010db8000000000000000000000000, len := 40 }
        prefix4 := { addr := 0xc0000200, len := 24 }
        o := 16
        a := 6 } }

/-- The attribute that carries `example_rule` under the types of `example_headers`: the two
prefixes as containers of an address and a length, then the EA-bits length and `a`. -/
def example_rule_attr : nlattr :=
  nlattr.mk 68 9 []
    [nlattr.mk 32 1 []
       [nlattr.mk 20 1 [0x20, 0x01, 0x0d, 0xb8, 0, 0, 0, 0, 0, 0, 0, 0, 0, 0, 0, 0] [],
        nlattr.mk 5 2 [40] []],
     nlattr.mk 20 2 [] [nlattr.mk 8 1 [192, 0, 2, 0] [], nlattr.mk 5 2 [24] []],
     nlattr.mk 5 3 [16] [],
     nlattr.mk 5 4 [6] []]

/-! ### What the writers write -/

/-- A call that writes to a buffer writes exactly the attributes `attrs`, `size` bytes in
all: on every buffer with that much room it returns 0 and the buffer is the old one
followed by `attrs`. -/
def writes_all (put : sk_buff → Int × sk_buff) (attrs : List nlattr) (size : Nat) : Prop :=
  ∀ skb : sk_buff, size ≤ skb.tailroom →
    (put skb).1 = 0 ∧ sk_buff.followed_by skb (put skb).2 attrs size

/-- The attribute `jnla_put_addr6` is shown to write: 16 bytes in network order. -/
def encoded_addr6 (attrtype addr : Nat) : nlattr :=
  nlattr.mk 20 attrtype (be_bytes 16 addr) []

/-- The attribute `jnla_put_addr4` is shown to write: 4 bytes in network order. -/
def encoded_addr4 (attrtype addr : Nat) : nlattr :=
  nlattr.mk 8 attrtype (be_bytes 4 addr) []

/-- The attribute `nla_put_u8` writes. -/
def encoded_u8 (attrtype value : Nat) : nlattr :=
  nlattr.mk 5 attrtype [value % 256] []

/-- The attribute `nla_put_u16` writes: 2 bytes in the order of the host. -/
def encoded_u16 (K : jool_headers) (attrtype value : Nat) : nlattr :=
  nlattr.mk 6 attrtype (host_bytes K.big_endian 2 value) []

/-- The attribute `nla_put_u32` writes: 4 bytes in the order of the host. -/
def encoded_u32 (K : jool_headers) (attrtype value : Nat) : nlattr :=
  nlattr.mk 8 attrtype (host_bytes K.big_endian 4 value) []

/-- The container `jnla_put_prefix6` is shown to write for a prefix: ADDR, LEN. -/
def encoded_prefix6 (K : jool_headers) (attrtype : Nat) (p : ipv6_prefix) : nlattr :=
  nlattr.mk 32 attrtype [] [encoded_addr6 K.JNLAP_ADDR p.addr, encoded_u8 K.JNLAP_LEN p.len]

/-- The container `jnla_put_prefix4` is shown to write for a prefix: ADDR, LEN. -/
def encoded_prefix4 (K : jool_headers) (attrtype : Nat) (p : ipv4_prefix) : nlattr :=
  nlattr.mk 20 attrtype [] [encoded_addr4 K.JNLAP_ADDR p.addr, encoded_u8 K.JNLAP_LEN p.len]

/-- The container `jnla_put_taddr6` is shown to write: ADDR, PORT. -/
def encoded_taddr6 (K : jool_headers) (attrtype : Nat) (taddr : ipv6_transport_addr) :
    nlattr :=
  nlattr.mk 32 attrtype []
    [encoded_addr6 K.JNLAT_ADDR taddr.l3, encoded_u16 K K.JNLAT_PORT taddr.l4]

/-- The container `jnla_put_taddr4` is shown to write: ADDR, PORT. -/
def encoded_taddr4 (K : jool_headers) (attrtype : Nat) (taddr : ipv4_transport_addr) :
    nlattr :=
  nlattr.mk 20 attrtype []
    [encoded_addr4 K.JNLAT_ADDR taddr.l3, encoded_u16 K K.JNLAT_PORT taddr.l4]

/-- The container `jnla_put_eam` is shown to write: PREFIX6, PREFIX4. -/
def encoded_eam (K : jool_headers) (attrtype : Nat) (eam : eamt_entry) : nlattr :=
  nlattr.mk 56 attrtype []
    [encoded_prefix6 K K.JNLAE_PREFIX6 eam.prefix6, encoded_prefix4 K K.JNLAE_PREFIX4 eam.prefix4]

/-- The container `jnla_put_pool4` is shown to write: MARK, ITERATIONS, FLAGS, PROTO, PREFIX,
PORT_MIN, PORT_MAX. -/
def encoded_pool4 (K : jool_headers) (attrtype : Nat) (entry : pool4_entry) : nlattr :=
  nlattr.mk 72 attrtype []
    [encoded_u32 K K.JNLAP4_MARK entry.mark,
     encoded_u32 K K.JNLAP4_ITERATIONS entry.iterations,
     encoded_u8 K.JNLAP4_FLAGS entry.flags,
     encoded_u8 K.JNLAP4_PROTO entry.proto,
     encoded_prefix4 K K.JNLAP4_PREFIX entry.range.prefix_,
     encoded_u16 K K.JNLAP4_PORT_MIN entry.range.ports.min,
     encoded_u16 K K.JNLAP4_PORT_MAX entry.range.ports.max]

/-- The container `jnla_put_bib` is shown to write: SRC6, SRC4, PROTO, STATIC. -/
def encoded_bib (K : jool_headers) (attrtype : Nat) (bib : bib_entry) : nlattr :=
  nlattr.mk 72 attrtype []
    [encoded_taddr6 K K.JNLAB_SRC6 bib.addr6,
     encoded_taddr4 K K.JNLAB_SRC4 bib.addr4,
     encoded_u8 K.JNLAB_PROTO bib.l4_proto,
     encoded_u8 K.JNLAB_STATIC (if bib.is_static then 1 else 0)]

/-- The container `jnla_put_mapping_rule` is shown to write: PREFIX6, PREFIX4, EA_BITS_LENGTH
and a for a rule that is set; a PREFIX6 that holds only a LEN of 0 for one that is not. -/
def encoded_mapping_rule (K : jool_headers) (attrtype : Nat) (rule : config_mapping_rule) :
    nlattr :=
  if rule.set then
    nlattr.mk 72 attrtype []
      [encoded_prefix6 K K.JNLAMR_PREFIX6 rule.rule.prefix6,
       encoded_prefix4 K K.JNLAMR_PREFIX4 rule.rule.prefix4,
       encoded_u8 K.JNLAMR_EA_BITS_LENGTH rule.rule.o,
       encoded_u8 K.JNLAMR_a rule.rule.a]
  else
    nlattr.mk 16 attrtype [] [nlattr.mk 12 K.JNLAMR_PREFIX6 [] [encoded_u8 K.JNLAP_LEN 0]]

/-- The container `jnla_put_plateaus` is shown to write: one ENTRY for each of the first
`count` values. -/
def encoded_plateaus (K : jool_headers) (attrtype : Nat) (plateaus : mtu_plateaus) : nlattr :=
  nlattr.mk (4 + 8 * (plateaus.values.take plateaus.count).length) attrtype []
    ((plateaus.values.take plateaus.count).map (encoded_u16 K K.JNLAL_ENTRY))

/-- The attribute types `ids` of one family differ from each other and lie within
1..maxtype, as the values of the enum that ends in the family's MAX do. -/
def attr_ids_ok (maxtype : Nat) (ids : List Nat) : Prop :=
  ids.Nodup ∧ ∀ id ∈ ids, 0 < id ∧ id ≤ maxtype

/-- The attribute types of the headers: within each family they are distinct and within
1..MAX. -/
def jool_headers.ids_ok (K : jool_headers) : Prop :=
  attr_ids_ok K.JNLAP_MAX [K.JNLAP_ADDR, K.JNLAP_LEN] ∧
  attr_ids_ok K.JNLAT_MAX [K.JNLAT_ADDR, K.JNLAT_PORT] ∧
  attr_ids_ok K.JNLAE_MAX [K.JNLAE_PREFIX6, K.JNLAE_PREFIX4] ∧
  attr_ids_ok K.JNLAP4_MAX
    [K.JNLAP4_MARK, K.JNLAP4_ITERATIONS, K.JNLAP4_FLAGS, K.JNLAP4_PROTO, K.JNLAP4_PREFIX,
     K.JNLAP4_PORT_MIN, K.JNLAP4_PORT_MAX] ∧
  attr_ids_ok K.JNLAB_MAX [K.JNLAB_SRC6, K.JNLAB_SRC4, K.JNLAB_PROTO, K.JNLAB_STATIC] ∧
  attr_ids_ok K.JNLAMR_MAX
    [K.JNLAMR_PREFIX6, K.JNLAMR_PREFIX4, K.JNLAMR_EA_BITS_LENGTH, K.JNLAMR_a]

/-- The policy accepts every child of the container. -/
def policy_accepts (policy : nlattr → Int) (container : nlattr) : Prop :=
  nla_validate policy container.nested = 0

/-- A well-formed IPv6 prefix: the address fits 16 bytes, the length a u8, and
`prefix6_validate` accepts it. -/
def ipv6_prefix.well_formed (K : jool_headers) (p : ipv6_prefix) : Prop :=
  p.addr < 2 ^ 128 ∧ p.len < 256 ∧ K.prefix6_validate p = 0

/-- A well-formed IPv4 prefix: the address fits 4 bytes, the length a u8, and
`prefix4_validate` accepts it. -/
def ipv4_prefix.well_formed (K : jool_headers) (p : ipv4_prefix) : Prop :=
  p.addr < 2 ^ 32 ∧ p.len < 256 ∧ K.prefix4_validate p = 0

/-- A well-formed IPv6 transport address: the fields fit their C types. -/
def ipv6_transport_addr.well_formed (taddr : ipv6_transport_addr) : Prop :=
  taddr.l3 < 2 ^ 128 ∧ taddr.l4 < 65536

/-- A well-formed IPv4 transport address: the fields fit their C types. -/
def ipv4_transport_addr.well_formed (taddr : ipv4_transport_addr) : Prop :=
  taddr.l3 < 2 ^ 32 ∧ taddr.l4 < 65536

/-- A well-formed EAM row: both prefixes are. -/
def eamt_entry.well_formed (K : jool_headers) (eam : eamt_entry) : Prop :=
  eam.prefix6.well_formed K ∧ eam.prefix4.well_formed K

/-- A well-formed pool4 row: mark and iterations fit a u32, flags and the protocol a u8,
the ports a u16, and the prefix is well-formed. -/
def pool4_entry.well_formed (K : jool_headers) (entry : pool4_entry) : Prop :=
  entry.mark < 4294967296 ∧ entry.iterations < 4294967296 ∧ entry.flags < 256 ∧
  entry.proto < 256 ∧ entry.range.prefix_.well_formed K ∧
  entry.range.ports.min < 65536 ∧ entry.range.ports.max < 65536

/-- A well-formed BIB row: both addresses are, and the protocol fits a u8. -/
def bib_entry.well_formed (bib : bib_entry) : Prop :=
  bib.addr6.well_formed ∧ bib.addr4.well_formed ∧ bib.l4_proto < 256

/-- A well-formed MAP rule that passes the validation of `jnla_get_mapping_rule`: the
prefixes are well-formed with lengths of at most 128 and 32, `o` and `a` fit a u8, and the
checks on `o`, the lengths, `a` and `k` hold. -/
def mapping_rule.well_formed (K : jool_headers) (rule : mapping_rule) : Prop :=
  rule.prefix6.well_formed K ∧ rule.prefix4.well_formed K ∧
  rule.prefix6.len ≤ 128 ∧ rule.prefix4.len ≤ 32 ∧ rule.o < 256 ∧ rule.a < 256 ∧
  rule.o ≤ 48 ∧ rule.prefix6.len + rule.o + (32 - rule.prefix4.len - rule.o) ≤ 128 ∧
  (rule.o + rule.prefix4.len > 32 →
    rule.a ≤ 16 ∧ (rule.a + K.maprule_get_k rule % 4294967296) % 4294967296 ≤ 16)

/-- A well-formed plateau list: between 1 and PLATEAUS_MAX entries in use, all within the
array, each a nonzero u16, strictly decreasing. -/
def mtu_plateaus.well_formed (K : jool_headers) (plateaus : mtu_plateaus) : Prop :=
  1 ≤ plateaus.count ∧ plateaus.count ≤ K.PLATEAUS_MAX ∧
  plateaus.count ≤ plateaus.values.length ∧
  (plateaus.values.take plateaus.count).Pairwise (fun a b => a > b) ∧
  ∀ v ∈ plateaus.values.take plateaus.count, 0 < v ∧ v < 65536

/-- The BIB row of the examples: 2001:db8::1#5000 mapped to 192.0.2.1#40000, protocol 0,
static. -/
def example_bib : bib_entry :=
  { addr6 := { l3 := 0x20010db8000000000000000000000001, l4 := 5000 }
    addr4 := { l3 := 0xc0000201, l4 := 40000 }
    l4_proto := 0
    is_static := true }

/-! ## The joold requests (`module/common/nl/nl-joold.c`) -/

/-- What nl-joold.c takes from headers that are not among the sources: the byte order of the
host, the width of `size_t`, the translator type XLATOR_SIIT, the operation codes (the labels
of the `switch`, distinct from each other as C demands) and `sizeof(struct request_hdr)`. -/
structure joold_headers where
  big_endian : Bool
  BITS_PER_LONG : Nat
  XLATOR_SIIT : Nat
  OP_ADD : Nat
  OP_TEST : Nat
  OP_ADVERTISE : Nat
  OP_ACK : Nat
  sizeof_request_hdr : Nat

/-- A value stored in a `size_t`. -/
def joold_headers.size_t (H : joold_headers) (x : Int) : Nat :=
  (x % (2 : Int) ^ H.BITS_PER_LONG).toNat

/-- The functions of other modules that `handle_joold_request` calls, as the values they
return: `joold_sync` for the memory its pointer argument points to and its length
argument, `joold_test`, `joold_advertise`, and `jnl_respond` for the error it is given. -/
structure joold_module where
  joold_sync : List Nat → Nat → Int
  joold_test : Int
  joold_advertise : Int
  jnl_respond : Int → Int

/-- A call that `handle_joold_request` makes into another module, with its arguments. -/
inductive joold_call where
  | sync (data : List Nat) (len : Nat)
  | test
  | advertise
  | ack
  | respond (error : Int)
  deriving DecidableEq, Repr

/-- What `handle_joold_request` reads of a request (`struct genl_info`): the field
`operation` of the header that `get_jool_hdr(info)` points to, as stored (a `__be16`), the
memory behind that header (`hdr + 1`), and `info->attrs[ATTR_DATA]`. -/
structure genl_info where
  operation : Nat
  after_hdr : List Nat
  attr_data : Option nlattr

/-- Source `handle_joold_request` (nl-joold.c:7-49): the value it returns and the calls it
makes, in order; `jool_type` is `jool->type`. `none` is the call of `nla_len` on a NULL
`info->attrs[ATTR_DATA]`. -/
def handle_joold_request (H : joold_headers) (M : joold_module) (jool_type : Nat)
    (info : genl_info) : Option (Int × List joold_call) :=
  if jool_type = H.XLATOR_SIIT then
    some (M.jnl_respond (-EINVAL), [joold_call.respond (-EINVAL)])
  else if be16_to_cpu H.big_endian info.operation = H.OP_ADD then
    match info.attr_data with
    | none => none
    | some attr =>
      let total_len := H.size_t (nla_len attr)
      let len := H.size_t ((total_len : Int) - (H.sizeof_request_hdr : Int))
      let error := M.joold_sync info.after_hdr len
      if error = 0 then some (0, [joold_call.sync info.after_hdr len])
      else
        some (M.jnl_respond error,
          [joold_call.sync info.after_hdr len, joold_call.respond error])
  else if be16_to_cpu H.big_endian info.operation = H.OP_TEST then
    some (M.jnl_respond M.joold_test, [joold_call.test, joold_call.respond M.joold_test])
  else if be16_to_cpu H.big_endian info.operation = H.OP_ADVERTISE then
    some (M.jnl_respond M.joold_advertise,
      [joold_call.advertise, joold_call.respond M.joold_advertise])
  else if be16_to_cpu H.big_endian info.operation = H.OP_ACK then
    some (0, [joold_call.ack])
  else some (M.jnl_respond (-EINVAL), [joold_call.respond (-EINVAL)])

/-- An instance of the headers of nl-joold.c for the examples: a little-endian 64-bit host,
SIIT as translator type 1, the operations numbered 1 to 4 and a header of 16 bytes. -/
def example_joold_headers : joold_headers :=
  { big_endian := false, BITS_PER_LONG := 64, XLATOR_SIIT := 1, OP_ADD := 1, OP_TEST := 2,
    OP_ADVERTISE := 3, OP_ACK := 4, sizeof_request_hdr := 16 }

/-- A joold module for the examples: `joold_sync` fails on an empty payload, the test
succeeds, the advertisement fails, and `jnl_respond` hands back the error it sends. -/
def example_joold_module : joold_module :=
  { joold_sync := fun _ len => if len = 0 then -EINVAL else 0
    joold_test := 0
    joold_advertise := -EINVAL
    jnl_respond := fun error => error }

/-! ## Ports that are out -/

/-- The bucket `get_ids` selects for a protocol number; the node it is given plays no part
in the choice. -/
def protocol_bucket (l4protocol : Nat) : Option ids_ptr :=
  get_ids (init_pool_node 0) l4protocol

/-- The pool together with the ports that are out: the (address, bucket, port) that
`pool4_get_any` or `pool4_get_similar` issued and `pool4_return` has not taken back
since. -/
structure pool4_state where
  pool : List pool_node
  allocated : List (Nat × ids_ptr × Nat)
  deriving DecidableEq, Repr

/-- The ports that are out after a successful get. -/
def record_issue (l4protocol : Nat) (res : Option ipv4_tuple_address)
    (allocated : List (Nat × ids_ptr × Nat)) : List (Nat × ids_ptr × Nat) :=
  match res, protocol_bucket l4protocol with
  | some a, some b => (a.address, b, a.l4_id) :: allocated
  | _, _ => allocated

/-- The ports that are out after a `pool4_return` that returned `ok`. -/
def record_return (ok : Bool) (l4protocol : Nat) (address : Option ipv4_tuple_address)
    (allocated : List (Nat × ids_ptr × Nat)) : List (Nat × ids_ptr × Nat) :=
  match ok, address, protocol_bucket l4protocol with
  | true, some a, some b => allocated.erase (a.address, b, a.l4_id)
  | _, _, _ => allocated

/-- One call on the pool, with the ports that are out kept up to date: a successful get adds
what it issued, a successful `pool4_return` takes out what it was given. -/
def pool4_call.track (big_endian : Bool) (st : pool4_state) : pool4_call → pool4_state
  | .register kmalloc_ok address =>
    { pool := (pool4_register kmalloc_ok address st.pool).2, allocated := st.allocated }
  | .remove address =>
    { pool := (pool4_remove address st.pool).2, allocated := st.allocated }
  | .get_any l4protocol port =>
    { pool := (pool4_get_any big_endian l4protocol port st.pool).2
      allocated := record_issue l4protocol
        (pool4_get_any big_endian l4protocol port st.pool).1 st.allocated }
  | .get_similar l4protocol address =>
    { pool := (pool4_get_similar l4protocol address st.pool).2
      allocated := record_issue l4protocol
        (pool4_get_similar l4protocol address st.pool).1 st.allocated }
  | .give_back kmalloc_ok l4protocol address =>
    { pool := (pool4_return kmalloc_ok l4protocol address st.pool).2
      allocated := record_return (pool4_return kmalloc_ok l4protocol address st.pool).1
        l4protocol address st.allocated }

/-- A sequence of calls, first call first, with the ports that are out. -/
def pool4_track (big_endian : Bool) (calls : List pool4_call) (st : pool4_state) :
    pool4_state :=
  calls.foldl (pool4_call.track big_endian) st

/-- The discipline a caller keeps at one call: a port handed to `pool4_return` is out, and an
address handed to `pool4_remove` has no port out. -/
def pool4_call.disciplined (st : pool4_state) : pool4_call → Prop
  | .give_back _ l4protocol (some a) =>
    ∀ b : ids_ptr, protocol_bucket l4protocol = some b →
      (a.address, b, a.l4_id) ∈ st.allocated
  | .remove (some address) => ∀ x ∈ st.allocated, x.1 ≠ address
  | _ => True

/-- The caller keeps the discipline at every call of the sequence. -/
def disciplined (big_endian : Bool) : pool4_state → List pool4_call → Prop
  | _, [] => True
  | st, c :: rest => c.disciplined st ∧ disciplined big_endian (c.track big_endian st) rest

/-- The ports of a section are accounted for: the free list has no port twice and only
ports below `next_port`, a port that is out is below `next_port` and not in the free list,
and every port of the band below `next_port` is in the free list or out. -/
def section_accounted (p : section_ptr) (sec : addr_section) (out : Nat → Prop) : Prop :=
  sec.free_ports.Nodup ∧
  (∀ port ∈ sec.free_ports, port < sec.next_port) ∧
  (∀ port, out port → port < sec.next_port ∧ port ∉ sec.free_ports) ∧
  (∀ port, in_band p port → port < sec.next_port → port ∈ sec.free_ports ∨ out port)

/-- The ports of the pool are accounted for: the sections are well formed, no address is in
the pool twice, no port is out twice, a port that is out belongs to an address of the pool
and fits 16 bits, and every section is accounted for with the ports of its band that are
out. -/
def accounted (st : pool4_state) : Prop :=
  pool_ok st.pool ∧ (st.pool.map (fun node => node.address)).Nodup ∧ st.allocated.Nodup ∧
  (∀ x ∈ st.allocated, x.1 ∈ st.pool.map (fun node => node.address) ∧ x.2.2 < 65536) ∧
  ∀ node ∈ st.pool, ∀ r : ids_ptr × section_ptr,
    section_accounted r.2 (node.sec r)
      (fun port => (node.address, r.1, port) ∈ st.allocated ∧ in_band r.2 port)

/-- Scenario on the address 192.0.2.1: register it and give the UDP port 5 back twice,
although nobody took it. -/
def double_return_calls : List pool4_call :=
  [pool4_call.register true (some 3221225985),
   pool4_call.give_back true IPPROTO_UDP (some { address := 3221225985, l4_id := 5 }),
   pool4_call.give_back true IPPROTO_UDP (some { address := 3221225985, l4_id := 5 })]

/-! ## Lemmas on the helpers -/

theorem get_ids_supported (node : pool_node) (l4protocol : Nat)
    (h : l4protocol = IPPROTO_UDP ∨ l4protocol = IPPROTO_TCP ∨ l4protocol = IPPROTO_ICMP ∨
      l4protocol = IPPROTO_ICMPV6) :
    ∃ p, get_ids node l4protocol = some p := by
  rcases h with h | h | h | h <;> subst h <;> simp [get_ids, IPPROTO_UDP, IPPROTO_TCP,
    IPPROTO_ICMP, IPPROTO_ICMPV6]

theorem get_section_some (p : ids_ptr) (l4_id : Nat) :
    ∃ q, get_section (some p) l4_id = some (p, q) := by
  unfold get_section
  split_ifs <;> exact ⟨_, rfl⟩

theorem extract_from_node_some_section (node : pool_node) (l4protocol l4_id : Nat)
    (r : ids_ptr × section_ptr) (h : get_section (get_ids node l4protocol) l4_id = some r) :
    extract_from_node node l4protocol l4_id =
      match extract_any_port (some (node.sec r)) with
      | some (port, sec) => some (port, node.set_sec r sec)
      | none => none := by
  unfold extract_from_node
  rw [h]

theorem extract_from_node_null_section (node : pool_node) (l4protocol l4_id : Nat)
    (h : get_section (get_ids node l4protocol) l4_id = none) :
    extract_from_node node l4protocol l4_id = none := by
  unfold extract_from_node
  rw [h]
  rfl

theorem pool4_get_any_loop_none (l4protocol cpu_port : Nat) :
    ∀ pool : List pool_node,
      (∀ n ∈ pool, extract_from_node n l4protocol cpu_port = none) →
      pool4_get_any_loop l4protocol cpu_port pool = (none, pool) := by
  intro pool
  induction pool with
  | nil => intro _; rfl
  | cons node rest ih =>
    intro h
    have h1 := h node (List.mem_cons_self _ _)
    have h2 := ih (fun n hn => h n (List.mem_cons_of_mem _ hn))
    simp [pool4_get_any_loop, h1, h2]

theorem pool4_get_any_loop_first (l4protocol cpu_port : Nat) (node node1 : pool_node)
    (after : List pool_node) (l4_id : Nat)
    (hnode : extract_from_node node l4protocol cpu_port = some (l4_id, node1)) :
    ∀ before : List pool_node,
      (∀ n ∈ before, extract_from_node n l4protocol cpu_port = none) →
      pool4_get_any_loop l4protocol cpu_port (before ++ node :: after) =
        (some { address := node.address, l4_id := l4_id }, before ++ node1 :: after) := by
  intro before
  induction before with
  | nil => intro _; simp [pool4_get_any_loop, hnode]
  | cons b rest ih =>
    intro h
    have h1 := h b (List.mem_cons_self _ _)
    have h2 := ih (fun n hn => h n (List.mem_cons_of_mem _ hn))
    simp [pool4_get_any_loop, h1, h2]

theorem pool4_get_any_eq_loop (big_endian : Bool) (l4protocol port : Nat)
    (pool : List pool_node) :
    pool4_get_any big_endian l4protocol port pool =
      pool4_get_any_loop l4protocol (be16_to_cpu big_endian port) pool := by
  unfold pool4_get_any
  cases pool with
  | nil => rfl
  | cons node rest => simp

/-! ## Claims -/

/-- C1: `pool4_get_any` is first fit in insertion order. For a supported protocol there is
one section path `r`, picked by the protocol and by the parity and range of the hint (the
port number that the `__be16` argument holds), such that: when the nodes `before` cannot
extract from their section `r` and `node` can, the call yields the address of `node` with the
port its section yields, stores the section back, and leaves every other node and section
as it was; and when no node of the pool (the empty pool included) can extract from its
section `r`, the call fails and the pool is unchanged. -/
theorem pool4_get_any_first_fit (big_endian : Bool) (l4protocol port : Nat)
    (hproto : l4protocol = IPPROTO_UDP ∨ l4protocol = IPPROTO_TCP ∨
      l4protocol = IPPROTO_ICMP ∨ l4protocol = IPPROTO_ICMPV6) :
    ∃ r : ids_ptr × section_ptr,
      (∀ node, get_section (get_ids node l4protocol) (be16_to_cpu big_endian port) = some r) ∧
      (∀ (before : List pool_node) (node : pool_node) (after : List pool_node) (l4_id : Nat)
          (sec : addr_section),
        (∀ n ∈ before, extract_any_port (some (n.sec r)) = none) →
        extract_any_port (some (node.sec r)) = some (l4_id, sec) →
        pool4_get_any big_endian l4protocol port (before ++ node :: after) =
          (some { address := node.address, l4_id := l4_id },
            before ++ node.set_sec r sec :: after)) ∧
      (∀ pool : List pool_node,
        (∀ n ∈ pool, extract_any_port (some (n.sec r)) = none) →
        pool4_get_any big_endian l4protocol port pool = (none, pool)) := by
  obtain ⟨p, hp⟩ := get_ids_supported (init_pool_node 0) l4protocol hproto
  obtain ⟨q, hq⟩ := get_section_some p (be16_to_cpu big_endian port)
  have hsel : ∀ node : pool_node,
      get_section (get_ids node l4protocol) (be16_to_cpu big_endian port) = some (p, q) := by
    intro node
    have : get_ids node l4protocol = some p := hp
    rw [this, hq]
  refine ⟨(p, q), hsel, ?_, ?_⟩
  · intro before node after l4_id sec hbefore hnode
    rw [pool4_get_any_eq_loop]
    apply pool4_get_any_loop_first
    · rw [extract_from_node_some_section _ _ _ _ (hsel node), hnode]
    · intro n hn
      rw [extract_from_node_some_section _ _ _ _ (hsel n), hbefore n hn]
  · intro pool hpool
    rw [pool4_get_any_eq_loop]
    apply pool4_get_any_loop_none
    intro n hn
    rw [extract_from_node_some_section _ _ _ _ (hsel n), hpool n hn]

/-! ### Sections: reuse, ladder, exhaustion -/

theorem extract_any_port_reuse (sec : addr_section) (port : Nat) (rest : List Nat)
    (h : sec.free_ports = port :: rest) :
    extract_any_port (some sec) = some (port, { sec with free_ports := rest }) := by
  simp [extract_any_port, h]

theorem extract_any_port_ladder (sec : addr_section) (h : sec.free_ports = [])
    (hle : sec.next_port ≤ sec.max_port) (hmax : sec.max_port ≤ 65535) :
    extract_any_port (some sec) =
      some (sec.next_port, { sec with next_port := sec.next_port + 2 }) := by
  have h1 : ¬ sec.next_port > sec.max_port := by omega
  have h2 : sec.next_port % 65536 = sec.next_port := Nat.mod_eq_of_lt (by omega)
  have h3 : (sec.next_port + 2) % 4294967296 = sec.next_port + 2 :=
    Nat.mod_eq_of_lt (by omega)
  simp [extract_any_port, h, h1, h2, h3]

theorem extract_any_port_exhausted (sec : addr_section) (h : sec.free_ports = [])
    (hgt : sec.max_port < sec.next_port) :
    extract_any_port (some sec) = none := by
  simp [extract_any_port, h, hgt]

theorem extract_ports_free_list (returned : List Nat) :
    ∀ sec : addr_section, sec.free_ports = returned →
      extract_ports returned.length sec = (returned, { sec with free_ports := [] }) := by
  induction returned with
  | nil =>
    intro sec h
    cases sec
    simp only at h
    subst h
    rfl
  | cons port rest ih =>
    intro sec h
    have hrest := ih { sec with free_ports := rest } rfl
    simp only [List.length_cons, extract_ports, extract_any_port_reuse sec port rest h, hrest]

theorem foldl_add_free_port (returned : List Nat) :
    ∀ sec : addr_section,
      returned.foldl add_free_port sec =
        { sec with free_ports := sec.free_ports ++ returned } := by
  induction returned with
  | nil => intro sec; simp
  | cons port rest ih =>
    intro sec
    simp [List.foldl_cons, ih, add_free_port]

theorem pool_node_sec_set_sec (node : pool_node) (r : ids_ptr × section_ptr)
    (sec : addr_section) : (node.set_sec r sec).sec r = sec := by
  obtain ⟨p, q⟩ := r
  cases p <;> cases q <;> rfl

theorem pool_node_set_sec_set_sec (node : pool_node) (r : ids_ptr × section_ptr)
    (s1 s2 : addr_section) : (node.set_sec r s1).set_sec r s2 = node.set_sec r s2 := by
  obtain ⟨p, q⟩ := r
  cases p <;> cases q <;> rfl

theorem pool_node_set_sec_self (node : pool_node) (r : ids_ptr × section_ptr) :
    node.set_sec r (node.sec r) = node := by
  obtain ⟨p, q⟩ := r
  cases p <;> cases q <;> rfl

theorem pool_node_set_sec_address (node : pool_node) (r : ids_ptr × section_ptr)
    (sec : addr_section) : (node.set_sec r sec).address = node.address := by
  obtain ⟨p, q⟩ := r
  cases p <;> cases q <;> rfl

theorem pool_node_sec_set_sec_ne (node : pool_node) (r r1 : ids_ptr × section_ptr)
    (sec : addr_section) (h : r1 ≠ r) : (node.set_sec r sec).sec r1 = node.sec r1 := by
  obtain ⟨p, q⟩ := r
  obtain ⟨p1, q1⟩ := r1
  cases p <;> cases q <;> cases p1 <;> cases q1 <;> first | rfl | exact absurd rfl h

theorem swab16_swab16 (x : Nat) (h : x < 65536) : swab16 (swab16 x) = x := by
  have hhi : x / 256 < 256 := by omega
  have h1 : x / 256 % 256 = x / 256 := Nat.mod_eq_of_lt hhi
  have h2 : (x % 256 * 256 + x / 256) % 256 = x / 256 := by omega
  have h3 : (x % 256 * 256 + x / 256) / 256 = x % 256 := by omega
  have h4 : x % 256 % 256 = x % 256 := by omega
  unfold swab16
  rw [h1, h2, h3, h4]
  omega

theorem be16_to_cpu_cpu_to_be16 (big_endian : Bool) (x : Nat) (h : x < 65536) :
    be16_to_cpu big_endian (cpu_to_be16 big_endian x) = x := by
  cases big_endian
  · simp [be16_to_cpu, cpu_to_be16, swab16_swab16 x h]
  · simp [be16_to_cpu, cpu_to_be16, Nat.mod_eq_of_lt h]

theorem get_pool_node_head (node : pool_node) (rest : List pool_node) :
    get_pool_node (node :: rest) node.address = some ([], node, rest) := by
  simp [get_pool_node]

theorem get_section_tcp_odd_high (node : pool_node) :
    get_section (get_ids node IPPROTO_TCP) 1025 = some (ids_ptr.tcp, section_ptr.odd_high) := by
  rfl

theorem addr_section_clear_free_ports (sec : addr_section) (h : sec.free_ports = [])
    (port : Nat) (rest : List Nat)
    (hadd : (add_free_port sec port).free_ports = port :: rest) :
    ({ add_free_port sec port with free_ports := rest } : addr_section) = sec := by
  cases sec
  simp only [add_free_port] at h hadd ⊢
  subst h
  simp only [List.nil_append, List.cons.injEq, true_and] at hadd
  subst hadd
  rfl

/-- C2: what `extract_any_port` does to a section. With a non-empty free list it yields
the head of the list and removes exactly that element, `next_port` unchanged; with an empty
free list and `next_port <= max_port` it yields `next_port` and adds 2 to it (sections hold
`max_port <= 65535`, so neither the `__u16` result nor the `__u32` counter wraps); else it
fails. Hence the ports `pool4_return` appended to a section come out in the order they went
in, before `next_port` moves, and returning 65535 to an exhausted odd_high section of the
first node makes the next `pool4_get_any` yield 65535 on that node and puts the pool back
as it was. -/
theorem extract_any_port_spec (sec : addr_section) :
    (∀ (port : Nat) (rest : List Nat), sec.free_ports = port :: rest →
      extract_any_port (some sec) = some (port, { sec with free_ports := rest })) ∧
    (sec.free_ports = [] → sec.next_port ≤ sec.max_port → sec.max_port ≤ 65535 →
      extract_any_port (some sec) =
        some (sec.next_port, { sec with next_port := sec.next_port + 2 })) ∧
    (sec.free_ports = [] → sec.max_port < sec.next_port →
      extract_any_port (some sec) = none) ∧
    (∀ returned : List Nat,
      extract_ports (sec.free_ports.length + returned.length)
          (returned.foldl add_free_port sec) =
        (sec.free_ports ++ returned, { sec with free_ports := [] })) ∧
    (∀ (big_endian : Bool) (node : pool_node) (rest : List pool_node),
      node.sec (ids_ptr.tcp, section_ptr.odd_high) = sec →
      sec.free_ports = [] → sec.max_port < sec.next_port →
      pool4_return true IPPROTO_TCP (some { address := node.address, l4_id := 65535 })
          (node :: rest) =
        (true, node.set_sec (ids_ptr.tcp, section_ptr.odd_high) (add_free_port sec 65535)
          :: rest) ∧
      pool4_get_any big_endian IPPROTO_TCP (cpu_to_be16 big_endian 1025)
          (node.set_sec (ids_ptr.tcp, section_ptr.odd_high) (add_free_port sec 65535)
            :: rest) =
        (some { address := node.address, l4_id := 65535 }, node :: rest)) := by
  refine ⟨extract_any_port_reuse sec, extract_any_port_ladder sec,
    extract_any_port_exhausted sec, ?_, ?_⟩
  · intro returned
    rw [foldl_add_free_port, ← List.length_append]
    exact extract_ports_free_list (sec.free_ports ++ returned) _ rfl
  · intro big_endian node rest hsec hfree _
    constructor
    · have hsel : get_section (get_ids node IPPROTO_TCP) 65535 =
          some (ids_ptr.tcp, section_ptr.odd_high) := rfl
      simp only [pool4_return, get_pool_node_head, hsel, hsec]
      rfl
    · rw [pool4_get_any_eq_loop, be16_to_cpu_cpu_to_be16 _ _ (by omega)]
      have hloop := pool4_get_any_loop_first IPPROTO_TCP 1025
        (node.set_sec (ids_ptr.tcp, section_ptr.odd_high) (add_free_port sec 65535))
        node rest 65535 ?_ [] (by simp)
      · simpa [pool_node_set_sec_address] using hloop
      · rw [extract_from_node_some_section _ _ _ _ (get_section_tcp_odd_high _),
          pool_node_sec_set_sec]
        have hadd : (add_free_port sec 65535).free_ports = 65535 :: [] := by
          simp [add_free_port, hfree]
        rw [extract_any_port_reuse _ _ _ hadd]
        simp only [pool_node_set_sec_set_sec]
        rw [addr_section_clear_free_ports sec hfree 65535 [] hadd, ← hsec,
          pool_node_set_sec_self]

/-- Witness of C1 on a little-endian host: the first node has used up its TCP odd_high
ladder, so the hint 1025 (bytes 04 01, read as 260) is served by the second node. -/
theorem pool4_get_any_first_fit_witness :
    (IPPROTO_TCP = IPPROTO_UDP ∨ IPPROTO_TCP = IPPROTO_TCP ∨ IPPROTO_TCP = IPPROTO_ICMP ∨
      IPPROTO_TCP = IPPROTO_ICMPV6) ∧
    pool4_get_any false IPPROTO_TCP 260
        [(init_pool_node 1).set_sec (ids_ptr.tcp, section_ptr.odd_high)
            { next_port := 65537, max_port := 65535, free_ports := [] },
          init_pool_node 2] =
      (some { address := 2, l4_id := 1025 },
        [(init_pool_node 1).set_sec (ids_ptr.tcp, section_ptr.odd_high)
            { next_port := 65537, max_port := 65535, free_ports := [] },
          (init_pool_node 2).set_sec (ids_ptr.tcp, section_ptr.odd_high)
            { next_port := 1027, max_port := 65535, free_ports := [] }]) := by
  refine ⟨by decide, ?_⟩
  obtain ⟨r, hr, hfirst, _⟩ := pool4_get_any_first_fit false IPPROTO_TCP 260 (by decide)
  have h1 := hr (init_pool_node 0)
  have h2 : get_section (get_ids (init_pool_node 0) IPPROTO_TCP) (be16_to_cpu false 260) =
      some (ids_ptr.tcp, section_ptr.odd_high) := rfl
  rw [h2] at h1
  have h3 : r = (ids_ptr.tcp, section_ptr.odd_high) := (Option.some.inj h1).symm
  subst h3
  exact hfirst [_] (init_pool_node 2) [] 1025 _
    (by intro n hn; rw [List.mem_singleton] at hn; subst hn; rfl) rfl

/-- Witness of C2: reuse from a free list, a ladder step, and an exhausted section. -/
theorem extract_any_port_spec_witness :
    extract_any_port (some { next_port := 4, max_port := 1022, free_ports := [2, 0] }) =
        some (2, { next_port := 4, max_port := 1022, free_ports := [0] }) ∧
    extract_any_port (some { next_port := 4, max_port := 1022, free_ports := [] }) =
        some (4, { next_port := 6, max_port := 1022, free_ports := [] }) ∧
    extract_any_port (some { next_port := 65537, max_port := 65535, free_ports := [] }) =
        none :=
  ⟨(extract_any_port_spec { next_port := 4, max_port := 1022, free_ports := [2, 0] }).1
      2 [0] rfl,
    (extract_any_port_spec { next_port := 4, max_port := 1022, free_ports := [] }).2.1
      rfl (by decide) (by decide),
    (extract_any_port_spec { next_port := 65537, max_port := 65535, free_ports := [] }).2.2.1
      rfl (by decide)⟩

/-! ### Looking a node up -/

theorem get_pool_node_some (address : Nat) :
    ∀ (pool before : List pool_node) (node : pool_node) (after : List pool_node),
      get_pool_node pool address = some (before, node, after) →
      pool = before ++ node :: after ∧ node.address = address ∧
        ∀ n ∈ before, n.address ≠ address := by
  intro pool
  induction pool with
  | nil => intro before node after h; simp [get_pool_node] at h
  | cons head rest ih =>
    intro before node after h
    unfold get_pool_node at h
    split_ifs at h with hhead
    · simp only [Option.some.injEq, Prod.mk.injEq] at h
      obtain ⟨h1, h2, h3⟩ := h
      subst h1 h2 h3
      simp [hhead]
    · cases hrest : get_pool_node rest address with
      | none => simp [hrest] at h
      | some found =>
        obtain ⟨b, n, a⟩ := found
        simp only [hrest, Option.some.injEq, Prod.mk.injEq] at h
        obtain ⟨h1, h2, h3⟩ := h
        subst h1 h2 h3
        obtain ⟨e1, e2, e3⟩ := ih b n a hrest
        refine ⟨by rw [e1]; rfl, e2, ?_⟩
        intro m hm
        rcases List.mem_cons.mp hm with hm | hm
        · rw [hm]; exact hhead
        · exact e3 m hm

theorem get_pool_node_append (address : Nat) (node : pool_node) (after : List pool_node)
    (hnode : node.address = address) :
    ∀ before : List pool_node, (∀ n ∈ before, n.address ≠ address) →
      get_pool_node (before ++ node :: after) address = some (before, node, after) := by
  intro before
  induction before with
  | nil => intro _; simp [get_pool_node, hnode]
  | cons head rest ih =>
    intro h
    have h1 := h head (List.mem_cons_self _ _)
    have h2 := ih (fun n hn => h n (List.mem_cons_of_mem _ hn))
    simp [get_pool_node, h1, h2]

theorem get_pool_node_none (address : Nat) :
    ∀ pool : List pool_node,
      get_pool_node pool address = none ↔ ∀ n ∈ pool, n.address ≠ address := by
  intro pool
  induction pool with
  | nil => simp [get_pool_node]
  | cons head rest ih =>
    unfold get_pool_node
    split_ifs with hhead
    · simp [hhead]
    · cases hrest : get_pool_node rest address with
      | none =>
        have hall := ih.mp hrest
        simp only [true_iff]
        intro m hm
        rcases List.mem_cons.mp hm with hm | hm
        · rw [hm]; exact hhead
        · exact hall m hm
      | some found =>
        obtain ⟨b, n, a⟩ := found
        obtain ⟨e1, e2, _⟩ := get_pool_node_some address rest b n a hrest
        simp only [reduceCtorEq, false_iff]
        intro hall
        have hn : n ∈ head :: rest := by
          rw [e1]
          simp
        exact hall n hn e2

theorem pool4_return_true (kmalloc_ok : Bool) (l4protocol : Nat) (a : ipv4_tuple_address)
    (pool pool1 : List pool_node)
    (h : pool4_return kmalloc_ok l4protocol (some a) pool = (true, pool1)) :
    ∃ (before : List pool_node) (node : pool_node) (after : List pool_node)
        (r : ids_ptr × section_ptr),
      kmalloc_ok = true ∧
      get_pool_node pool a.address = some (before, node, after) ∧
      get_section (get_ids node l4protocol) a.l4_id = some r ∧
      pool1 = before ++ node.set_sec r (add_free_port (node.sec r) a.l4_id) :: after := by
  unfold pool4_return at h
  cases hfind : get_pool_node pool a.address with
  | none => simp [hfind] at h
  | some found =>
    obtain ⟨before, node, after⟩ := found
    cases hsel : get_section (get_ids node l4protocol) a.l4_id with
    | none => simp [hfind, hsel] at h
    | some r =>
      cases kmalloc_ok with
      | false => simp [hfind, hsel] at h
      | true =>
        simp only [hfind, hsel, Bool.not_true, Bool.false_eq_true, ↓reduceIte, Prod.mk.injEq,
          true_and] at h
        exact ⟨before, node, after, r, rfl, rfl, hsel, h.symm⟩

theorem pool4_get_similar_at (l4protocol : Nat) (a : ipv4_tuple_address)
    (before : List pool_node) (node : pool_node) (after : List pool_node)
    (r : ids_ptr × section_ptr)
    (hbefore : ∀ n ∈ before, n.address ≠ a.address) (hnode : node.address = a.address)
    (hsel : get_section (get_ids node l4protocol) a.l4_id = some r) :
    pool4_get_similar l4protocol (some a) (before ++ node :: after) =
      match extract_any_port (some (node.sec r)) with
      | some (port, sec) =>
        (some { address := a.address, l4_id := port }, before ++ node.set_sec r sec :: after)
      | none => (none, before ++ node :: after) := by
  unfold pool4_get_similar
  simp only [get_pool_node_append a.address node after hnode before hbefore,
    extract_from_node_some_section node l4protocol a.l4_id r hsel]
  cases extract_any_port (some (node.sec r)) with
  | none => rfl
  | some found => rfl

/-- C3 as stated fails on the pool that `fifo_calls` builds: port 0 belongs to the band of
the UDP even_low section of 192.0.2.1 and `pool4_return` puts it there, yet the next
extract from that section yields 2, the port returned before it. -/
theorem pool4_return_next_extract_counterexample :
    in_band section_ptr.even_low 0 ∧
    (pool4_return true IPPROTO_UDP (some { address := 3221225985, l4_id := 0 })
      (pool4_run false fifo_calls [])).1 = true ∧
    (pool4_get_similar IPPROTO_UDP (some { address := 3221225985, l4_id := 0 })
      (pool4_return true IPPROTO_UDP (some { address := 3221225985, l4_id := 0 })
        (pool4_run false fifo_calls [])).2).1 = some { address := 3221225985, l4_id := 2 } ∧
    (pool4_get_similar IPPROTO_UDP (some { address := 3221225985, l4_id := 0 })
      (pool4_return true IPPROTO_UDP (some { address := 3221225985, l4_id := 0 })
        (pool4_run false fifo_calls [])).2).1 ≠ some { address := 3221225985, l4_id := 0 } := by
  refine ⟨?_, rfl, rfl, ?_⟩
  · unfold in_band
    decide
  · decide

/-- C3, amended: when `pool4_return` succeeds it appends the port behind the ports already
in the free list of the section the port selects, so extracting from that section yields
the earlier ports in their order and then the returned port, with `next_port` untouched.
When the free list was empty before the return, the next extract yields the returned port
(and the pool is back in its earlier state); when it was not, the next extract yields the
old head. So the next extract yields the returned port exactly when the free list was empty
or its head was that same port. -/
theorem pool4_return_then_extract (kmalloc_ok : Bool) (l4protocol : Nat)
    (a : ipv4_tuple_address) (pool pool1 : List pool_node)
    (h : pool4_return kmalloc_ok l4protocol (some a) pool = (true, pool1)) :
    ∃ (before : List pool_node) (node : pool_node) (after : List pool_node)
        (r : ids_ptr × section_ptr),
      get_pool_node pool a.address = some (before, node, after) ∧
      get_section (get_ids node l4protocol) a.l4_id = some r ∧
      pool1 = before ++ node.set_sec r (add_free_port (node.sec r) a.l4_id) :: after ∧
      extract_ports ((node.sec r).free_ports.length + 1)
          (add_free_port (node.sec r) a.l4_id) =
        ((node.sec r).free_ports ++ [a.l4_id], { node.sec r with free_ports := [] }) ∧
      ((node.sec r).free_ports = [] →
        pool4_get_similar l4protocol (some a) pool1 = (some a, pool)) ∧
      (∀ (head : Nat) (rest : List Nat), (node.sec r).free_ports = head :: rest →
        pool4_get_similar l4protocol (some a) pool1 =
          (some { address := a.address, l4_id := head },
            before ++ node.set_sec r
              { node.sec r with free_ports := rest ++ [a.l4_id] } :: after)) ∧
      ((pool4_get_similar l4protocol (some a) pool1).1 = some a ↔
        (node.sec r).free_ports = [] ∨ (node.sec r).free_ports.head? = some a.l4_id) := by
  obtain ⟨before, node, after, r, _, hfind, hsel, hpool1⟩ :=
    pool4_return_true kmalloc_ok l4protocol a pool pool1 h
  obtain ⟨hpool, haddr, hbefore⟩ := get_pool_node_some a.address pool before node after hfind
  have hsim := pool4_get_similar_at l4protocol a before
    (node.set_sec r (add_free_port (node.sec r) a.l4_id)) after r hbefore
    (by rw [pool_node_set_sec_address]; exact haddr) hsel
  rw [pool_node_sec_set_sec] at hsim
  have hempty : (node.sec r).free_ports = [] →
      pool4_get_similar l4protocol (some a) pool1 = (some a, pool) := by
    intro hempty
    have hadd : (add_free_port (node.sec r) a.l4_id).free_ports = a.l4_id :: [] := by
      simp [add_free_port, hempty]
    rw [extract_any_port_reuse _ _ _ hadd] at hsim
    simp only [pool_node_set_sec_set_sec] at hsim
    rw [addr_section_clear_free_ports _ hempty _ _ hadd, pool_node_set_sec_self] at hsim
    rw [hpool1, hsim, hpool]
  have hhead : ∀ (head : Nat) (rest : List Nat), (node.sec r).free_ports = head :: rest →
      pool4_get_similar l4protocol (some a) pool1 =
        (some { address := a.address, l4_id := head },
          before ++ node.set_sec r
            { node.sec r with free_ports := rest ++ [a.l4_id] } :: after) := by
    intro head rest hcons
    have hadd : (add_free_port (node.sec r) a.l4_id).free_ports =
        head :: (rest ++ [a.l4_id]) := by
      simp [add_free_port, hcons]
    rw [extract_any_port_reuse _ _ _ hadd] at hsim
    simp only [pool_node_set_sec_set_sec] at hsim
    rw [hpool1, hsim]
    rfl
  refine ⟨before, node, after, r, hfind, hsel, hpool1, ?_, hempty, hhead, ?_⟩
  · have := extract_ports_free_list ((node.sec r).free_ports ++ [a.l4_id])
      (add_free_port (node.sec r) a.l4_id) rfl
    simpa [add_free_port] using this
  · cases hf : (node.sec r).free_ports with
    | nil =>
      rw [hempty hf]
      simp
    | cons head rest =>
      rw [hhead head rest hf]
      obtain ⟨addr, port⟩ := a
      simp only [Option.some.injEq, ipv4_tuple_address.mk.injEq, true_and, List.head?_cons,
        false_or, reduceCtorEq]

/-- C3 (amended), on the state after `fifo_calls`, where the free list of the UDP even_low
section of 192.0.2.1 is [2] and port 0 is still out. Giving 0 back puts it behind 2: the
next extract yields 2, the old head, and leaves [0]. Giving 2 back once more instead makes
the list [2, 2]: the next extract yields 2, the port just given back, although the list was
not empty, because its head was that port. -/
theorem pool4_return_then_extract_witness :
    pool4_run false fifo_calls []
      = [(init_pool_node 3221225985).set_sec (ids_ptr.udp, section_ptr.even_low)
          (addr_section.mk 4 1022 [2])] ∧
    pool4_get_similar IPPROTO_UDP (some { address := 3221225985, l4_id := 0 })
        (pool4_return true IPPROTO_UDP (some { address := 3221225985, l4_id := 0 })
          [(init_pool_node 3221225985).set_sec (ids_ptr.udp, section_ptr.even_low)
            (addr_section.mk 4 1022 [2])]).2
      = (some { address := 3221225985, l4_id := 2 },
          [(init_pool_node 3221225985).set_sec (ids_ptr.udp, section_ptr.even_low)
            (addr_section.mk 4 1022 [0])]) ∧
    (pool4_get_similar IPPROTO_UDP (some { address := 3221225985, l4_id := 2 })
        (pool4_return true IPPROTO_UDP (some { address := 3221225985, l4_id := 2 })
          [(init_pool_node 3221225985).set_sec (ids_ptr.udp, section_ptr.even_low)
            (addr_section.mk 4 1022 [2])]).2).1
      = some { address := 3221225985, l4_id := 2 } := by
  have hfind2 : get_pool_node
      [(init_pool_node 3221225985).set_sec (ids_ptr.udp, section_ptr.even_low)
        (addr_section.mk 4 1022 [2])] 3221225985 =
      some ([], (init_pool_node 3221225985).set_sec (ids_ptr.udp, section_ptr.even_low)
        (addr_section.mk 4 1022 [2]), []) := rfl
  refine ⟨by decide, ?_, ?_⟩
  · obtain ⟨before, node, after, r, hfind, hsel, _, _, _, hhead, _⟩ :=
      pool4_return_then_extract true IPPROTO_UDP { address := 3221225985, l4_id := 0 }
        [(init_pool_node 3221225985).set_sec (ids_ptr.udp, section_ptr.even_low)
          (addr_section.mk 4 1022 [2])] _ rfl
    rw [hfind2] at hfind
    simp only [Option.some.injEq, Prod.mk.injEq] at hfind
    obtain ⟨h1, h2, h3⟩ := hfind
    subst h1 h2 h3
    have hsel2 : get_section (get_ids ((init_pool_node 3221225985).set_sec
        (ids_ptr.udp, section_ptr.even_low) (addr_section.mk 4 1022 [2])) IPPROTO_UDP) 0 =
        some (ids_ptr.udp, section_ptr.even_low) := rfl
    rw [hsel2] at hsel
    have hr : r = (ids_ptr.udp, section_ptr.even_low) := (Option.some.inj hsel).symm
    subst hr
    exact (hhead 2 [] rfl).trans (by rfl)
  · obtain ⟨before, node, after, r, hfind, hsel, _, _, _, _, hiff⟩ :=
      pool4_return_then_extract true IPPROTO_UDP { address := 3221225985, l4_id := 2 }
        [(init_pool_node 3221225985).set_sec (ids_ptr.udp, section_ptr.even_low)
          (addr_section.mk 4 1022 [2])] _ rfl
    rw [hfind2] at hfind
    simp only [Option.some.injEq, Prod.mk.injEq] at hfind
    obtain ⟨h1, h2, h3⟩ := hfind
    subst h1 h2 h3
    have hsel2 : get_section (get_ids ((init_pool_node 3221225985).set_sec
        (ids_ptr.udp, section_ptr.even_low) (addr_section.mk 4 1022 [2])) IPPROTO_UDP) 2 =
        some (ids_ptr.udp, section_ptr.even_low) := rfl
    rw [hsel2] at hsel
    have hr : r = (ids_ptr.udp, section_ptr.even_low) := (Option.some.inj hsel).symm
    subst hr
    exact hiff.mpr (Or.inr rfl)

/-! ### The ladder of a fresh section -/

theorem range_succ_ladder {α : Type} (f : Nat → α) (k : Nat) :
    List.map f (List.range (k + 1)) = f 0 :: List.map (fun i => f (i + 1)) (List.range k) := by
  rw [List.range_succ_eq_map, List.map_cons, List.map_map]
  rfl

theorem extract_ports_ladder :
    ∀ (k : Nat) (sec : addr_section), sec.free_ports = [] → sec.max_port ≤ 65535 →
      sec.next_port + 2 * k ≤ sec.max_port + 2 →
      extract_ports k sec =
        ((List.range k).map (fun i => sec.next_port + 2 * i),
          { sec with next_port := sec.next_port + 2 * k }) := by
  intro k
  induction k with
  | zero => intro sec _ _ _; rfl
  | succ k ih =>
    intro sec hfree hmax hroom
    have hstep := extract_any_port_ladder sec hfree (by omega) hmax
    have hrest := ih { sec with next_port := sec.next_port + 2 } hfree hmax
      (by simp only; omega)
    simp only [extract_ports, hstep, hrest]
    rw [range_succ_ladder (fun i => sec.next_port + 2 * i) k]
    have hfun : (fun i => sec.next_port + 2 + 2 * i) = fun i => sec.next_port + 2 * (i + 1) := by
      funext i
      omega
    have hnext : sec.next_port + 2 + 2 * k = sec.next_port + 2 * (k + 1) := by omega
    simp only [hfun, hnext, Nat.mul_zero, Nat.add_zero]

theorem mem_ladder (lo n port : Nat) :
    port ∈ (List.range n).map (fun i => lo + 2 * i) ↔
      lo ≤ port ∧ port < lo + 2 * n ∧ port % 2 = lo % 2 := by
  simp only [List.mem_map, List.mem_range]
  constructor
  · rintro ⟨i, hi, rfl⟩
    omega
  · rintro ⟨h1, h2, h3⟩
    exact ⟨(port - lo) / 2, by omega, by omega⟩

theorem pairwise_ladder (lo n : Nat) :
    ((List.range n).map (fun i => lo + 2 * i)).Pairwise (fun a b => a < b) := by
  rw [List.pairwise_map]
  exact (List.pairwise_lt_range n).imp (fun h => by omega)

theorem section_ptr_bounds (p : section_ptr) :
    p.low + 2 * p.size = p.high + 2 ∧ p.high ≤ 65535 ∧
      (init_protocol_ids.sec p).next_port = p.low ∧
      (init_protocol_ids.sec p).max_port = p.high ∧
      (init_protocol_ids.sec p).free_ports = [] := by
  cases p <;> decide

theorem pool4_get_any_times_ladder (big_endian : Bool) (l4protocol port : Nat)
    (r : ids_ptr × section_ptr)
    (hsel : ∀ node, get_section (get_ids node l4protocol) (be16_to_cpu big_endian port) =
      some r)
    (rest : List pool_node) :
    ∀ (k : Nat) (node : pool_node), (node.sec r).free_ports = [] →
      (node.sec r).max_port ≤ 65535 →
      (node.sec r).next_port + 2 * k ≤ (node.sec r).max_port + 2 →
      pool4_get_any_times big_endian l4protocol port k (node :: rest) =
        ((List.range k).map (fun i =>
            some { address := node.address, l4_id := (node.sec r).next_port + 2 * i }),
          node.set_sec r { node.sec r with next_port := (node.sec r).next_port + 2 * k }
            :: rest) := by
  intro k
  induction k with
  | zero =>
    intro node _ _ _
    simp only [pool4_get_any_times, List.range_zero, List.map_nil, Nat.mul_zero, Nat.add_zero]
    rw [pool_node_set_sec_self]
  | succ k ih =>
    intro node hfree hmax hroom
    have hstep := extract_any_port_ladder (node.sec r) hfree (by omega) hmax
    have hcall : pool4_get_any big_endian l4protocol port (node :: rest) =
        (some { address := node.address, l4_id := (node.sec r).next_port },
          node.set_sec r { node.sec r with next_port := (node.sec r).next_port + 2 }
            :: rest) := by
      rw [pool4_get_any_eq_loop]
      have := pool4_get_any_loop_first l4protocol (be16_to_cpu big_endian port) node
        (node.set_sec r { node.sec r with next_port := (node.sec r).next_port + 2 })
        rest (node.sec r).next_port
        (by rw [extract_from_node_some_section _ _ _ _ (hsel node), hstep]) []
        (by simp)
      simpa using this
    have hrest := ih
      (node.set_sec r { node.sec r with next_port := (node.sec r).next_port + 2 })
      (by rw [pool_node_sec_set_sec]; exact hfree)
      (by rw [pool_node_sec_set_sec]; exact hmax)
      (by rw [pool_node_sec_set_sec]; simp only; omega)
    simp only [pool_node_sec_set_sec, pool_node_set_sec_set_sec,
      pool_node_set_sec_address] at hrest
    simp only [pool4_get_any_times, hcall, hrest]
    rw [range_succ_ladder
      (fun i => some (ipv4_tuple_address.mk node.address ((node.sec r).next_port + 2 * i))) k]
    have hfun : (fun i => some
          (ipv4_tuple_address.mk node.address ((node.sec r).next_port + 2 + 2 * i))) =
        fun i => some
          (ipv4_tuple_address.mk node.address ((node.sec r).next_port + 2 * (i + 1))) := by
      funext i
      have : (node.sec r).next_port + 2 + 2 * i = (node.sec r).next_port + 2 * (i + 1) := by
        omega
      rw [this]
    have hnext : (node.sec r).next_port + 2 + 2 * k = (node.sec r).next_port + 2 * (k + 1) := by
      omega
    simp only [hfun, hnext, Nat.mul_zero, Nat.add_zero]

/-- C4: the ladder of a fresh section. For each of the four sections as `init_protocol_ids`
makes them, `size` successive extracts (512 for the low sections, 32,256 for the high ones)
yield low, low+2, ..., max_port: the list is strictly increasing and holds exactly the ports
of the band; the extract after them fails. With `a` registered before `b` on the empty pool,
32,256 calls `pool4_get_any(TCP, hint 1025)` yield `a` with 1025, 1027, ..., 65535 and the
32,257th yields `(b, 1025)`. -/
theorem fresh_section_ladder (big_endian : Bool) (a b : Nat) (hab : a ≠ b) :
    (∀ p : section_ptr,
      extract_ports p.size (init_protocol_ids.sec p) =
        ((List.range p.size).map (fun i => p.low + 2 * i),
          { init_protocol_ids.sec p with next_port := p.high + 2 }) ∧
      extract_any_port (some { init_protocol_ids.sec p with next_port := p.high + 2 }) =
        none ∧
      ((List.range p.size).map (fun i => p.low + 2 * i)).Pairwise (fun x y => x < y) ∧
      (∀ port, port ∈ (List.range p.size).map (fun i => p.low + 2 * i) ↔ in_band p port)) ∧
    (section_ptr.odd_low.size = 512 ∧ section_ptr.even_low.size = 512 ∧
      section_ptr.odd_high.size = 32256 ∧ section_ptr.even_high.size = 32256) ∧
    (pool4_get_any_times big_endian IPPROTO_TCP (cpu_to_be16 big_endian 1025) 32256
        (pool4_register true (some b) (pool4_register true (some a) []).2).2).1 =
      (List.range 32256).map (fun i => some (ipv4_tuple_address.mk a (1025 + 2 * i))) ∧
    (pool4_get_any big_endian IPPROTO_TCP (cpu_to_be16 big_endian 1025)
        (pool4_get_any_times big_endian IPPROTO_TCP (cpu_to_be16 big_endian 1025) 32256
          (pool4_register true (some b) (pool4_register true (some a) []).2).2).2).1 =
      some (ipv4_tuple_address.mk b 1025) := by
  have hpool : (pool4_register true (some b) (pool4_register true (some a) []).2).2 =
      [init_pool_node a, init_pool_node b] := by
    simp [pool4_register, init_pool_node, hab]
  have hsel : ∀ node : pool_node,
      get_section (get_ids node IPPROTO_TCP)
        (be16_to_cpu big_endian (cpu_to_be16 big_endian 1025)) =
      some (ids_ptr.tcp, section_ptr.odd_high) := by
    intro node
    rw [be16_to_cpu_cpu_to_be16 _ _ (by omega)]
    rfl
  have hsec : ∀ x : Nat, (init_pool_node x).sec (ids_ptr.tcp, section_ptr.odd_high) =
      { next_port := 1025, max_port := 65535, free_ports := [] } := fun _ => rfl
  have htimes := pool4_get_any_times_ladder big_endian IPPROTO_TCP
    (cpu_to_be16 big_endian 1025) (ids_ptr.tcp, section_ptr.odd_high) hsel
    [init_pool_node b] 32256 (init_pool_node a)
    (by rw [hsec]) (by rw [hsec]) (by rw [hsec])
  rw [hsec] at htimes
  refine ⟨?_, by decide, ?_, ?_⟩
  · intro p
    obtain ⟨h1, h2, h3, h4, h5⟩ := section_ptr_bounds p
    have hlad := extract_ports_ladder p.size (init_protocol_ids.sec p) h5 (by omega) (by omega)
    rw [h3, h1] at hlad
    refine ⟨hlad, ?_, pairwise_ladder _ _, ?_⟩
    · apply extract_any_port_exhausted
      · exact h5
      · simp only
        omega
    · intro port
      rw [mem_ladder]
      unfold in_band
      omega
  · rw [hpool, htimes]
    simp only [init_pool_node]
  · rw [hpool, htimes, pool4_get_any_eq_loop]
    have hloop := pool4_get_any_loop_first IPPROTO_TCP
      (be16_to_cpu big_endian (cpu_to_be16 big_endian 1025)) (init_pool_node b)
      ((init_pool_node b).set_sec (ids_ptr.tcp, section_ptr.odd_high)
        { next_port := 1027, max_port := 65535, free_ports := [] })
      [] 1025
      (by
        rw [extract_from_node_some_section _ _ _ _ (hsel _), hsec]
        rfl)
      [(init_pool_node a).set_sec (ids_ptr.tcp, section_ptr.odd_high)
        { next_port := 1025 + 2 * 32256, max_port := 65535, free_ports := [] }]
      (by
        intro n hn
        rw [List.mem_singleton] at hn
        subst hn
        rw [extract_from_node_some_section _ _ _ _ (hsel _), pool_node_sec_set_sec]
        rfl)
    rw [List.singleton_append] at hloop
    rw [hloop]
    rfl

/-- Witness of C4 on a little-endian host with 192.0.2.1 and 192.0.2.2: the 32,257th
call moves on to the second address. -/
theorem fresh_section_ladder_witness :
    (3221225985 : Nat) ≠ 3221225986 ∧
    (pool4_get_any false IPPROTO_TCP (cpu_to_be16 false 1025)
        (pool4_get_any_times false IPPROTO_TCP (cpu_to_be16 false 1025) 32256
          (pool4_register true (some 3221225986)
            (pool4_register true (some 3221225985) []).2).2).2).1 =
      some (ipv4_tuple_address.mk 3221225986 1025) :=
  ⟨by decide, (fresh_section_ladder false 3221225985 3221225986 (by decide)).2.2.2⟩

/-! ### Well-formedness is kept by every operation -/

theorem section_ok_init (p : section_ptr) : section_ok p (init_protocol_ids.sec p) := by
  obtain ⟨_, _, h3, h4, h5⟩ := section_ptr_bounds p
  refine ⟨h4, by omega, ?_, by rw [h3], ?_⟩
  · rw [h3]
    cases p <;> decide
  · intro port hport
    rw [h5] at hport
    cases hport

theorem section_ok_extract (p : section_ptr) (sec sec1 : addr_section) (port : Nat)
    (hok : section_ok p sec) (h : extract_any_port (some sec) = some (port, sec1)) :
    section_ok p sec1 ∧ in_band p port := by
  obtain ⟨hmax, hlow, hhigh, hpar, hfree⟩ := hok
  obtain ⟨_, hbound, _, _, _⟩ := section_ptr_bounds p
  cases hlist : sec.free_ports with
  | cons head rest =>
    rw [extract_any_port_reuse sec head rest hlist] at h
    simp only [Option.some.injEq, Prod.mk.injEq] at h
    obtain ⟨h1, h2⟩ := h
    subst h1 h2
    refine ⟨⟨hmax, hlow, hhigh, hpar, ?_⟩, hfree head (by rw [hlist]; simp)⟩
    intro q hq
    exact hfree q (by rw [hlist]; exact List.mem_cons_of_mem _ hq)
  | nil =>
    by_cases hgt : sec.max_port < sec.next_port
    · rw [extract_any_port_exhausted sec hlist hgt] at h
      cases h
    · rw [extract_any_port_ladder sec hlist (by omega) (by omega)] at h
      simp only [Option.some.injEq, Prod.mk.injEq] at h
      obtain ⟨h1, h2⟩ := h
      subst h1 h2
      refine ⟨⟨hmax, ?_, ?_, ?_, ?_⟩, ?_⟩
      · simp only
        omega
      · simp only
        omega
      · simp only
        omega
      · intro q hq
        exact hfree q hq
      · exact ⟨hlow, by omega, hpar⟩

theorem section_ok_add_free_port (p : section_ptr) (sec : addr_section) (port : Nat)
    (hok : section_ok p sec) (hport : in_band p port) :
    section_ok p (add_free_port sec port) := by
  obtain ⟨hmax, hlow, hhigh, hpar, hfree⟩ := hok
  refine ⟨hmax, hlow, hhigh, hpar, ?_⟩
  intro q hq
  simp only [add_free_port, List.mem_append, List.mem_singleton] at hq
  rcases hq with hq | hq
  · exact hfree q hq
  · rw [hq]
    exact hport

theorem get_section_in_band (ids : Option ids_ptr) (l4_id : Nat) (r : ids_ptr × section_ptr)
    (h : get_section ids l4_id = some r) (hid : l4_id < 65536) : in_band r.2 l4_id := by
  cases ids with
  | none => simp [get_section] at h
  | some p =>
    unfold get_section at h
    simp only at h
    split_ifs at h with h1 h2 h3 <;>
      simp only [Option.some.injEq] at h <;> subst h <;>
      simp only [in_band, section_ptr.low, section_ptr.high, init_protocol_ids,
        protocol_ids.sec, init_section] <;> omega

theorem get_section_same_band (ids : Option ids_ptr) (hint : Nat)
    (r : ids_ptr × section_ptr) (port : Nat)
    (h : get_section ids hint = some r) (hport : in_band r.2 port) :
    port % 2 = hint % 2 ∧ (port < 1024 ↔ hint < 1024) := by
  cases ids with
  | none => simp [get_section] at h
  | some p =>
    unfold get_section at h
    simp only at h
    split_ifs at h with h1 h2 h3 <;>
      simp only [Option.some.injEq] at h <;> subst h <;>
      simp only [in_band, section_ptr.low, section_ptr.high, init_protocol_ids,
        protocol_ids.sec, init_section] at hport <;> omega

theorem node_ok_init (address : Nat) : node_ok (init_pool_node address) := by
  rintro ⟨p, q⟩
  cases p <;> exact section_ok_init q

theorem node_ok_set_sec (node : pool_node) (r : ids_ptr × section_ptr) (sec : addr_section)
    (hnode : node_ok node) (hsec : section_ok r.2 sec) : node_ok (node.set_sec r sec) := by
  intro r1
  by_cases h : r1 = r
  · subst h
    rw [pool_node_sec_set_sec]
    exact hsec
  · rw [pool_node_sec_set_sec_ne node r r1 sec h]
    exact hnode r1

theorem extract_from_node_some (node node1 : pool_node) (l4protocol l4_id port : Nat)
    (h : extract_from_node node l4protocol l4_id = some (port, node1)) :
    ∃ (r : ids_ptr × section_ptr) (sec : addr_section),
      get_section (get_ids node l4protocol) l4_id = some r ∧
      extract_any_port (some (node.sec r)) = some (port, sec) ∧
      node1 = node.set_sec r sec := by
  cases hsel : get_section (get_ids node l4protocol) l4_id with
  | none =>
    rw [extract_from_node_null_section node l4protocol l4_id hsel] at h
    cases h
  | some r =>
    rw [extract_from_node_some_section node l4protocol l4_id r hsel] at h
    cases hx : extract_any_port (some (node.sec r)) with
    | none =>
      rw [hx] at h
      cases h
    | some found =>
      obtain ⟨port1, sec⟩ := found
      rw [hx] at h
      simp only [Option.some.injEq, Prod.mk.injEq] at h
      obtain ⟨h1, h2⟩ := h
      subst h1 h2
      exact ⟨r, sec, rfl, hx, rfl⟩

theorem node_ok_extract_from_node (node node1 : pool_node) (l4protocol l4_id port : Nat)
    (hnode : node_ok node)
    (h : extract_from_node node l4protocol l4_id = some (port, node1)) :
    node_ok node1 ∧ port % 2 = l4_id % 2 ∧ (port < 1024 ↔ l4_id < 1024) := by
  obtain ⟨r, sec, hsel, hx, hnode1⟩ := extract_from_node_some node node1 l4protocol l4_id port h
  obtain ⟨hsec, hband⟩ := section_ok_extract r.2 (node.sec r) sec port (hnode r) hx
  subst hnode1
  exact ⟨node_ok_set_sec node r sec hnode hsec, get_section_same_band _ _ r port hsel hband⟩

theorem pool_ok_replace (before after : List pool_node) (node node1 : pool_node)
    (hpool : pool_ok (before ++ node :: after)) (hnode1 : node_ok node1) :
    pool_ok (before ++ node1 :: after) := by
  intro n hn
  simp only [List.mem_append, List.mem_cons] at hn
  rcases hn with hn | hn | hn
  · exact hpool n (by simp [hn])
  · rw [hn]
    exact hnode1
  · exact hpool n (by simp [hn])

theorem pool_ok_register (kmalloc_ok : Bool) (address : Option Nat) (pool : List pool_node)
    (hpool : pool_ok pool) : pool_ok (pool4_register kmalloc_ok address pool).2 := by
  unfold pool4_register
  cases address with
  | none => exact hpool
  | some addr =>
    simp only
    split_ifs
    · exact hpool
    · exact hpool
    · intro n hn
      simp only [List.mem_append, List.mem_singleton] at hn
      rcases hn with hn | hn
      · exact hpool n hn
      · rw [hn]
        exact node_ok_init addr

theorem pool_ok_remove (address : Option Nat) (pool : List pool_node)
    (hpool : pool_ok pool) : pool_ok (pool4_remove address pool).2 := by
  unfold pool4_remove
  cases address with
  | none => exact hpool
  | some addr =>
    simp only
    cases hfind : get_pool_node pool addr with
    | none => exact hpool
    | some found =>
      obtain ⟨before, node, after⟩ := found
      obtain ⟨hsplit, _, _⟩ := get_pool_node_some addr pool before node after hfind
      intro n hn
      simp only [destroy_pool_node, List.mem_append] at hn
      apply hpool n
      rw [hsplit]
      rcases hn with hn | hn
      · simp [hn]
      · simp [hn]

theorem pool_ok_get_any_loop (l4protocol cpu_port : Nat) :
    ∀ pool : List pool_node, pool_ok pool →
      pool_ok (pool4_get_any_loop l4protocol cpu_port pool).2 ∧
      ∀ res, (pool4_get_any_loop l4protocol cpu_port pool).1 = some res →
        res.l4_id % 2 = cpu_port % 2 ∧ (res.l4_id < 1024 ↔ cpu_port < 1024) := by
  intro pool
  induction pool with
  | nil =>
    intro h
    exact ⟨h, fun res hres => by simp [pool4_get_any_loop] at hres⟩
  | cons node rest ih =>
    intro h
    have hnode : node_ok node := h node (List.mem_cons_self _ _)
    have hrest : pool_ok rest := fun n hn => h n (List.mem_cons_of_mem _ hn)
    cases hx : extract_from_node node l4protocol cpu_port with
    | none =>
      obtain ⟨ih1, ih2⟩ := ih hrest
      simp only [pool4_get_any_loop, hx]
      refine ⟨?_, ih2⟩
      intro n hn
      rcases List.mem_cons.mp hn with hn | hn
      · rw [hn]
        exact hnode
      · exact ih1 n hn
    | some found =>
      obtain ⟨port, node1⟩ := found
      obtain ⟨h1, h2⟩ := node_ok_extract_from_node node node1 l4protocol cpu_port port hnode hx
      simp only [pool4_get_any_loop, hx]
      refine ⟨?_, ?_⟩
      · intro n hn
        rcases List.mem_cons.mp hn with hn | hn
        · rw [hn]
          exact h1
        · exact hrest n hn
      · intro res hres
        simp only [Option.some.injEq] at hres
        subst hres
        exact h2

theorem pool_ok_get_any (big_endian : Bool) (l4protocol port : Nat) (pool : List pool_node)
    (hpool : pool_ok pool) :
    pool_ok (pool4_get_any big_endian l4protocol port pool).2 ∧
    ∀ res, (pool4_get_any big_endian l4protocol port pool).1 = some res →
      res.l4_id % 2 = be16_to_cpu big_endian port % 2 ∧
        (res.l4_id < 1024 ↔ be16_to_cpu big_endian port < 1024) := by
  rw [pool4_get_any_eq_loop]
  exact pool_ok_get_any_loop l4protocol (be16_to_cpu big_endian port) pool hpool

theorem pool_ok_get_similar (l4protocol : Nat) (address : Option ipv4_tuple_address)
    (pool : List pool_node) (hpool : pool_ok pool) :
    pool_ok (pool4_get_similar l4protocol address pool).2 ∧
    ∀ a res, address = some a → (pool4_get_similar l4protocol address pool).1 = some res →
      res.address = a.address ∧ res.l4_id % 2 = a.l4_id % 2 ∧
        (res.l4_id < 1024 ↔ a.l4_id < 1024) := by
  unfold pool4_get_similar
  cases address with
  | none => exact ⟨hpool, fun a res ha => by cases ha⟩
  | some a =>
    simp only
    cases hfind : get_pool_node pool a.address with
    | none => exact ⟨hpool, fun a1 res _ hres => by cases hres⟩
    | some found =>
      obtain ⟨before, node, after⟩ := found
      obtain ⟨hsplit, _, _⟩ := get_pool_node_some a.address pool before node after hfind
      have hnode : node_ok node := hpool node (by rw [hsplit]; simp)
      simp only
      cases hx : extract_from_node node l4protocol a.l4_id with
      | none => exact ⟨hpool, fun a1 res _ hres => by cases hres⟩
      | some got =>
        obtain ⟨port, node1⟩ := got
        obtain ⟨h1, h2⟩ :=
          node_ok_extract_from_node node node1 l4protocol a.l4_id port hnode hx
        simp only
        refine ⟨pool_ok_replace before after node node1 (by rw [← hsplit]; exact hpool) h1, ?_⟩
        intro a1 res ha hres
        simp only [Option.some.injEq] at ha hres
        subst ha hres
        exact ⟨rfl, h2⟩

theorem pool_ok_return (kmalloc_ok : Bool) (l4protocol : Nat)
    (address : Option ipv4_tuple_address) (pool : List pool_node) (hpool : pool_ok pool)
    (htyped : ∀ a, address = some a → a.l4_id < 65536) :
    pool_ok (pool4_return kmalloc_ok l4protocol address pool).2 := by
  unfold pool4_return
  cases address with
  | none => exact hpool
  | some a =>
    simp only
    cases hfind : get_pool_node pool a.address with
    | none => exact hpool
    | some found =>
      obtain ⟨before, node, after⟩ := found
      obtain ⟨hsplit, _, _⟩ := get_pool_node_some a.address pool before node after hfind
      have hnode : node_ok node := hpool node (by rw [hsplit]; simp)
      simp only
      cases hsel : get_section (get_ids node l4protocol) a.l4_id with
      | none => exact hpool
      | some r =>
        simp only
        split_ifs
        · exact hpool
        · apply pool_ok_replace before after node _ (by rw [← hsplit]; exact hpool)
          apply node_ok_set_sec node r _ hnode
          exact section_ok_add_free_port r.2 (node.sec r) a.l4_id (hnode r)
            (get_section_in_band _ _ r hsel (htyped a rfl))

theorem pool_ok_run (big_endian : Bool) (pool : List pool_node) (c : pool4_call)
    (hpool : pool_ok pool) (htyped : pool4_call.typed c = true) :
    pool_ok (pool4_call.run big_endian pool c) := by
  cases c with
  | register kmalloc_ok address => exact pool_ok_register kmalloc_ok address pool hpool
  | remove address => exact pool_ok_remove address pool hpool
  | get_any l4protocol port => exact (pool_ok_get_any big_endian l4protocol port pool hpool).1
  | get_similar l4protocol address =>
    exact (pool_ok_get_similar l4protocol address pool hpool).1
  | give_back kmalloc_ok l4protocol address =>
    apply pool_ok_return kmalloc_ok l4protocol address pool hpool
    intro a ha
    subst ha
    simp only [pool4_call.typed, Bool.and_eq_true, decide_eq_true_eq] at htyped
    exact htyped.2

theorem pool_ok_pool4_run (big_endian : Bool) :
    ∀ (calls : List pool4_call) (pool : List pool_node), pool_ok pool →
      (∀ c ∈ calls, pool4_call.typed c = true) →
      pool_ok (pool4_run big_endian calls pool) := by
  intro calls
  induction calls with
  | nil => intro pool h _; exact h
  | cons c rest ih =>
    intro pool h htyped
    simp only [pool4_run, List.foldl_cons]
    exact ih _ (pool_ok_run big_endian pool c h (htyped c (List.mem_cons_self _ _)))
      (fun c1 hc1 => htyped c1 (List.mem_cons_of_mem _ hc1))

theorem pool_ok_reachable (big_endian : Bool) (pool : List pool_node)
    (h : reachable big_endian pool) : pool_ok pool := by
  obtain ⟨calls, htyped, hrun⟩ := h
  rw [← hrun]
  exact pool_ok_pool4_run big_endian calls [] (fun n hn => by cases hn) htyped

/-- C5: in every pool state that the public operations reach from the empty pool, a
successful `pool4_get_any` or `pool4_get_similar` yields a port of the parity of the hint
and on the same side of 1024 as the hint. For `pool4_get_any` the hint is the port number
its `__be16` argument holds. -/
theorem pool4_get_keeps_parity_and_range (big_endian : Bool) (pool : List pool_node)
    (hreach : reachable big_endian pool) :
    (∀ (l4protocol port : Nat) (res : ipv4_tuple_address) (pool1 : List pool_node),
      pool4_get_any big_endian l4protocol port pool = (some res, pool1) →
      res.l4_id % 2 = be16_to_cpu big_endian port % 2 ∧
        (res.l4_id < 1024 ↔ be16_to_cpu big_endian port < 1024)) ∧
    (∀ (l4protocol : Nat) (a res : ipv4_tuple_address) (pool1 : List pool_node),
      pool4_get_similar l4protocol (some a) pool = (some res, pool1) →
      res.l4_id % 2 = a.l4_id % 2 ∧ (res.l4_id < 1024 ↔ a.l4_id < 1024)) := by
  have hok := pool_ok_reachable big_endian pool hreach
  constructor
  · intro l4protocol port res pool1 h
    exact (pool_ok_get_any big_endian l4protocol port pool hok).2 res (by rw [h])
  · intro l4protocol a res pool1 h
    exact ((pool_ok_get_similar l4protocol (some a) pool hok).2 a res rfl (by rw [h])).2

/-- Witness of C5: after `fifo_calls` the hint 1000 is served with port 2. -/
theorem pool4_get_keeps_parity_and_range_witness :
    reachable false (pool4_run false fifo_calls []) ∧
    pool4_get_similar IPPROTO_UDP (some { address := 3221225985, l4_id := 1000 })
        (pool4_run false fifo_calls []) =
      (some { address := 3221225985, l4_id := 2 },
        (pool4_get_similar IPPROTO_UDP (some { address := 3221225985, l4_id := 1000 })
          (pool4_run false fifo_calls [])).2) ∧
    (2 % 2 = 1000 % 2 ∧ (2 < 1024 ↔ 1000 < 1024)) :=
  ⟨⟨fifo_calls, by decide, rfl⟩, rfl,
    (pool4_get_keeps_parity_and_range false (pool4_run false fifo_calls [])
      ⟨fifo_calls, by decide, rfl⟩).2 IPPROTO_UDP
      { address := 3221225985, l4_id := 1000 } { address := 3221225985, l4_id := 2 } _ rfl⟩

/-! ### The addresses of the pool -/

theorem pool4_contains_iff (address : Nat) (pool : List pool_node) :
    pool4_contains address pool = true ↔ address ∈ pool.map (fun node => node.address) := by
  unfold pool4_contains
  rw [List.mem_map]
  cases hfind : get_pool_node pool address with
  | none =>
    have hall := (get_pool_node_none address pool).mp hfind
    simp only [Option.isSome_none, Bool.false_eq_true, false_iff]
    rintro ⟨n, hn, haddr⟩
    exact hall n hn haddr
  | some found =>
    obtain ⟨before, node, after⟩ := found
    obtain ⟨hsplit, haddr, _⟩ := get_pool_node_some address pool before node after hfind
    simp only [Option.isSome_some, true_iff]
    exact ⟨node, by rw [hsplit]; simp, haddr⟩

theorem addresses_register (kmalloc_ok : Bool) (address : Option Nat) (pool : List pool_node) :
    (pool4_register kmalloc_ok address pool).2.map (fun node => node.address) =
      registered_step (pool.map (fun node => node.address))
        (pool4_call.register kmalloc_ok address) := by
  cases address with
  | none => cases kmalloc_ok <;> rfl
  | some addr =>
    cases kmalloc_ok with
    | false => rfl
    | true =>
      have hany : (pool.any (fun old_node => decide (old_node.address = addr))) = true ↔
          addr ∈ pool.map (fun node => node.address) := by
        simp only [List.any_eq_true, decide_eq_true_eq, List.mem_map]
      by_cases hmem : addr ∈ pool.map (fun node => node.address)
      · simp only [pool4_register, registered_step, Bool.not_true, Bool.false_eq_true,
          ↓reduceIte, hany.mpr hmem, hmem]
      · have hno : ¬ (pool.any (fun old_node => decide (old_node.address = addr))) = true :=
          fun h => hmem (hany.mp h)
        simp only [pool4_register, registered_step, Bool.not_true, Bool.false_eq_true,
          ↓reduceIte, hno, hmem, List.map_append, List.map_cons, List.map_nil, init_pool_node]

theorem addresses_remove (address : Option Nat) (pool : List pool_node) :
    (pool4_remove address pool).2.map (fun node => node.address) =
      registered_step (pool.map (fun node => node.address)) (pool4_call.remove address) := by
  cases address with
  | none => rfl
  | some addr =>
    simp only [pool4_remove, registered_step]
    cases hfind : get_pool_node pool addr with
    | none =>
      have hall := (get_pool_node_none addr pool).mp hfind
      have hno : addr ∉ pool.map (fun node => node.address) := by
        rw [List.mem_map]
        rintro ⟨n, hn, haddr⟩
        exact hall n hn haddr
      simp only [List.erase_of_not_mem hno]
    | some found =>
      obtain ⟨before, node, after⟩ := found
      obtain ⟨hsplit, haddr, hbefore⟩ := get_pool_node_some addr pool before node after hfind
      have hno : addr ∉ before.map (fun node => node.address) := by
        rw [List.mem_map]
        rintro ⟨n, hn, hn2⟩
        exact hbefore n hn hn2
      simp only [destroy_pool_node, hsplit, List.map_append, List.map_cons, haddr,
        List.erase_append_right _ hno, List.erase_cons_head]

theorem addresses_get_any_loop (l4protocol cpu_port : Nat) :
    ∀ pool : List pool_node,
      (pool4_get_any_loop l4protocol cpu_port pool).2.map (fun node => node.address) =
        pool.map (fun node => node.address) := by
  intro pool
  induction pool with
  | nil => rfl
  | cons node rest ih =>
    cases hx : extract_from_node node l4protocol cpu_port with
    | none => simp only [pool4_get_any_loop, hx, List.map_cons, ih]
    | some found =>
      obtain ⟨port, node1⟩ := found
      obtain ⟨r, sec, _, _, hnode1⟩ :=
        extract_from_node_some node node1 l4protocol cpu_port port hx
      simp only [pool4_get_any_loop, hx, List.map_cons, hnode1, pool_node_set_sec_address]

theorem addresses_get_similar (l4protocol : Nat) (address : Option ipv4_tuple_address)
    (pool : List pool_node) :
    (pool4_get_similar l4protocol address pool).2.map (fun node => node.address) =
      pool.map (fun node => node.address) := by
  unfold pool4_get_similar
  cases address with
  | none => rfl
  | some a =>
    simp only
    cases hfind : get_pool_node pool a.address with
    | none => rfl
    | some found =>
      obtain ⟨before, node, after⟩ := found
      obtain ⟨hsplit, _, _⟩ := get_pool_node_some a.address pool before node after hfind
      simp only
      cases hx : extract_from_node node l4protocol a.l4_id with
      | none => rfl
      | some got =>
        obtain ⟨port, node1⟩ := got
        obtain ⟨r, sec, _, _, hnode1⟩ :=
          extract_from_node_some node node1 l4protocol a.l4_id port hx
        simp only [hsplit, hnode1, List.map_append, List.map_cons, pool_node_set_sec_address]

theorem addresses_return (kmalloc_ok : Bool) (l4protocol : Nat)
    (address : Option ipv4_tuple_address) (pool : List pool_node) :
    (pool4_return kmalloc_ok l4protocol address pool).2.map (fun node => node.address) =
      pool.map (fun node => node.address) := by
  unfold pool4_return
  cases address with
  | none => rfl
  | some a =>
    simp only
    cases hfind : get_pool_node pool a.address with
    | none => rfl
    | some found =>
      obtain ⟨before, node, after⟩ := found
      obtain ⟨hsplit, _, _⟩ := get_pool_node_some a.address pool before node after hfind
      simp only
      cases hsel : get_section (get_ids node l4protocol) a.l4_id with
      | none => rfl
      | some r =>
        simp only
        split_ifs
        · rfl
        · simp only [hsplit, List.map_append, List.map_cons, pool_node_set_sec_address]

theorem addresses_run (big_endian : Bool) (pool : List pool_node) (c : pool4_call) :
    (pool4_call.run big_endian pool c).map (fun node => node.address) =
      registered_step (pool.map (fun node => node.address)) c := by
  cases c with
  | register kmalloc_ok address => exact addresses_register kmalloc_ok address pool
  | remove address => exact addresses_remove address pool
  | get_any l4protocol port =>
    simp only [pool4_call.run, pool4_get_any_eq_loop, addresses_get_any_loop, registered_step]
  | get_similar l4protocol address =>
    simp only [pool4_call.run, addresses_get_similar, registered_step]
  | give_back kmalloc_ok l4protocol address =>
    simp only [pool4_call.run, addresses_return, registered_step]

theorem registered_step_nodup (registered : List Nat) (c : pool4_call)
    (h : registered.Nodup) : (registered_step registered c).Nodup := by
  cases c with
  | register kmalloc_ok address =>
    cases kmalloc_ok with
    | false => exact h
    | true =>
      cases address with
      | none => exact h
      | some addr =>
        simp only [registered_step]
        split_ifs with hmem
        · exact h
        · exact List.Nodup.append h (List.nodup_singleton addr)
            (by simpa [List.disjoint_singleton] using hmem)
  | remove address =>
    cases address with
    | none => exact h
    | some addr => exact h.erase addr
  | get_any l4protocol port => exact h
  | get_similar l4protocol address => exact h
  | give_back kmalloc_ok l4protocol address => exact h

theorem addresses_pool4_run (big_endian : Bool) :
    ∀ (calls : List pool4_call) (pool : List pool_node),
      (pool.map (fun node => node.address)).Nodup →
      (pool4_run big_endian calls pool).map (fun node => node.address) =
          calls.foldl registered_step (pool.map (fun node => node.address)) ∧
        ((pool4_run big_endian calls pool).map (fun node => node.address)).Nodup := by
  intro calls
  induction calls with
  | nil => intro pool h; exact ⟨rfl, h⟩
  | cons c rest ih =>
    intro pool h
    simp only [pool4_run, List.foldl_cons]
    have hstep := addresses_run big_endian pool c
    have hnodup := registered_step_nodup _ c h
    rw [← hstep] at hnodup
    obtain ⟨h1, h2⟩ := ih (pool4_call.run big_endian pool c) hnodup
    rw [hstep] at h1
    exact ⟨h1, h2⟩

/-- C6: after any sequence of public calls on the empty pool (registrations and removals
in particular), `pool4_to_array`, given its memory, succeeds with an array that holds an
address exactly when `pool4_contains` says so, holds no address twice, and is the list of
the registered addresses, oldest registration first; its size is the length of the
array. -/
theorem pool4_contains_iff_in_array (big_endian : Bool) (calls : List pool4_call) :
    ∃ array : List Nat,
      pool4_to_array true (pool4_run big_endian calls []) =
        (error_code.ERR_SUCCESS, some (array, array.length)) ∧
      (∀ address : Nat,
        pool4_contains address (pool4_run big_endian calls []) = true ↔ address ∈ array) ∧
      array.Nodup ∧
      array = registered_spec calls := by
  obtain ⟨h1, h2⟩ := addresses_pool4_run big_endian calls [] List.nodup_nil
  refine ⟨(pool4_run big_endian calls []).map (fun node => node.address), ?_, ?_, h2, h1⟩
  · simp [pool4_to_array]
  · intro address
    exact pool4_contains_iff address _

/-! ### Registration -/

theorem pool4_contains_any (address : Nat) (pool : List pool_node) :
    pool.any (fun old_node => decide (old_node.address = address)) =
      pool4_contains address pool := by
  rw [Bool.eq_iff_iff, pool4_contains_iff]
  simp only [List.any_eq_true, decide_eq_true_eq, List.mem_map]

theorem pool4_get_any_loop_append (l4protocol cpu_port : Nat) (extra : List pool_node)
    (res : ipv4_tuple_address) :
    ∀ pool pool1 : List pool_node,
      pool4_get_any_loop l4protocol cpu_port pool = (some res, pool1) →
      pool4_get_any_loop l4protocol cpu_port (pool ++ extra) = (some res, pool1 ++ extra) := by
  intro pool
  induction pool with
  | nil => intro pool1 h; simp [pool4_get_any_loop] at h
  | cons node rest ih =>
    intro pool1 h
    cases hx : extract_from_node node l4protocol cpu_port with
    | none =>
      simp only [pool4_get_any_loop, hx, Prod.mk.injEq] at h
      obtain ⟨h1, h2⟩ := h
      have hrest := ih (pool4_get_any_loop l4protocol cpu_port rest).2
        (by rw [← h1])
      simp only [List.cons_append, pool4_get_any_loop, hx, List.append_eq, hrest, ← h2]
    | some found =>
      obtain ⟨port, node1⟩ := found
      simp only [pool4_get_any_loop, hx, Prod.mk.injEq] at h
      obtain ⟨h1, h2⟩ := h
      simp only [List.cons_append, pool4_get_any_loop, hx, List.append_eq, h1, ← h2]

/-- C7 as stated fails when `kmalloc` gives NULL: the pool holds 192.0.2.1, and registering
it again returns ERR_ALLOC_FAILED, not ERR_POOL4_REINSERT, because the node is allocated
before the list is searched. -/
theorem pool4_register_duplicate_counterexample :
    pool4_contains 3221225985 (pool4_register true (some 3221225985) []).2 = true ∧
    (pool4_register false (some 3221225985)
      (pool4_register true (some 3221225985) []).2).1 = error_code.ERR_ALLOC_FAILED ∧
    (pool4_register false (some 3221225985)
      (pool4_register true (some 3221225985) []).2).1 ≠ error_code.ERR_POOL4_REINSERT := by
  refine ⟨rfl, rfl, ?_⟩
  decide

/-- C7, amended: `pool4_register(addr)` on a pool that already contains `addr` leaves the
whole pool unchanged and returns ERR_POOL4_REINSERT when the allocation of the new node
succeeds and ERR_ALLOC_FAILED when it does not. -/
theorem pool4_register_duplicate (kmalloc_ok : Bool) (addr : Nat) (pool : List pool_node)
    (h : pool4_contains addr pool = true) :
    pool4_register kmalloc_ok (some addr) pool =
      (if kmalloc_ok then error_code.ERR_POOL4_REINSERT else error_code.ERR_ALLOC_FAILED,
        pool) := by
  cases kmalloc_ok with
  | false => rfl
  | true =>
    simp only [pool4_register, pool4_contains_any, h, Bool.not_true, Bool.false_eq_true,
      ↓reduceIte]

/-- Witness of C7 (amended): 192.0.2.1 registered twice. -/
theorem pool4_register_duplicate_witness :
    pool4_contains 3221225985 [init_pool_node 3221225985] = true ∧
    pool4_register true (some 3221225985) [init_pool_node 3221225985] =
      (error_code.ERR_POOL4_REINSERT, [init_pool_node 3221225985]) :=
  ⟨rfl, pool4_register_duplicate true 3221225985 [init_pool_node 3221225985] rfl⟩

/-- C8 as stated fails when `kmalloc` gives NULL: registering 192.0.2.1 on the empty pool
then returns ERR_ALLOC_FAILED and the pool stays empty. -/
theorem pool4_register_new_counterexample :
    pool4_contains 3221225985 [] = false ∧
    pool4_register false (some 3221225985) [] = (error_code.ERR_ALLOC_FAILED, []) ∧
    (pool4_register false (some 3221225985) []).1 ≠ error_code.ERR_SUCCESS := by
  refine ⟨rfl, rfl, ?_⟩
  decide

/-- C8, amended: on a pool that does not contain `addr`, `pool4_register(addr)` succeeds
when the allocation of the new node succeeds and then yields the old nodes, unchanged and
in their places, followed by a node for `addr` whose UDP, TCP and ICMP sections are
odd_low (1, 1023), even_low (0, 1022), odd_high (1025, 65535) and even_high (1024, 65534)
with empty free lists; a `pool4_get_any` that succeeded before the registration yields the
same result after it. When the allocation fails the call returns ERR_ALLOC_FAILED and the
pool is unchanged. -/
theorem pool4_register_new (addr : Nat) (pool : List pool_node)
    (h : pool4_contains addr pool = false) :
    pool4_register true (some addr) pool =
      (error_code.ERR_SUCCESS, pool ++ [init_pool_node addr]) ∧
    pool4_register false (some addr) pool = (error_code.ERR_ALLOC_FAILED, pool) ∧
    (init_pool_node addr).address = addr ∧
    (∀ p : ids_ptr,
      ((init_pool_node addr).ids p).odd_low =
        { next_port := 1, max_port := 1023, free_ports := [] } ∧
      ((init_pool_node addr).ids p).even_low =
        { next_port := 0, max_port := 1022, free_ports := [] } ∧
      ((init_pool_node addr).ids p).odd_high =
        { next_port := 1025, max_port := 65535, free_ports := [] } ∧
      ((init_pool_node addr).ids p).even_high =
        { next_port := 1024, max_port := 65534, free_ports := [] }) ∧
    (∀ (big_endian : Bool) (l4protocol port : Nat) (res : ipv4_tuple_address)
        (pool1 : List pool_node),
      pool4_get_any big_endian l4protocol port pool = (some res, pool1) →
      pool4_get_any big_endian l4protocol port (pool ++ [init_pool_node addr]) =
        (some res, pool1 ++ [init_pool_node addr])) := by
  refine ⟨?_, rfl, rfl, ?_, ?_⟩
  · simp only [pool4_register, pool4_contains_any, h, Bool.not_true, Bool.false_eq_true,
      ↓reduceIte]
  · intro p
    cases p <;> exact ⟨rfl, rfl, rfl, rfl⟩
  · intro big_endian l4protocol port res pool1 hget
    rw [pool4_get_any_eq_loop] at hget ⊢
    exact pool4_get_any_loop_append l4protocol _ _ res pool pool1 hget

/-- Witness of C8 (amended): 192.0.2.2 registered after 192.0.2.1. -/
theorem pool4_register_new_witness :
    pool4_contains 3221225986 [init_pool_node 3221225985] = false ∧
    pool4_register true (some 3221225986) [init_pool_node 3221225985] =
      (error_code.ERR_SUCCESS, [init_pool_node 3221225985, init_pool_node 3221225986]) :=
  ⟨rfl, (pool4_register_new 3221225986 [init_pool_node 3221225985] rfl).1⟩

/-! ### Taking a port from a given address, and giving one back -/

theorem get_ids_unsupported (node : pool_node) (l4protocol : Nat)
    (h : ¬ (l4protocol = IPPROTO_UDP ∨ l4protocol = IPPROTO_TCP ∨ l4protocol = IPPROTO_ICMP ∨
      l4protocol = IPPROTO_ICMPV6)) :
    get_ids node l4protocol = none := by
  simp only [not_or] at h
  obtain ⟨h1, h2, h3, h4⟩ := h
  simp [get_ids, h1, h2, h3, h4]

theorem pool4_contains_false (address : Nat) (pool : List pool_node)
    (h : pool4_contains address pool = false) : get_pool_node pool address = none := by
  unfold pool4_contains at h
  cases hfind : get_pool_node pool address with
  | none => rfl
  | some found => simp [hfind] at h

theorem pool4_get_similar_found (l4protocol : Nat) (a : ipv4_tuple_address)
    (pool before : List pool_node) (node : pool_node) (after : List pool_node)
    (hfind : get_pool_node pool a.address = some (before, node, after)) :
    pool4_get_similar l4protocol (some a) pool =
      match extract_from_node node l4protocol a.l4_id with
      | some (l4_id, node1) =>
        (some { address := a.address, l4_id := l4_id }, before ++ node1 :: after)
      | none => (none, pool) := by
  unfold pool4_get_similar
  simp only [hfind]

/-- C9: `pool4_get_similar(proto, (addr, port))`. When `addr` is not in the pool the call
fails and the pool is unchanged. When `node` is the entry of `addr`, the call extracts from
the section of `node` picked by the protocol and by the parity and range of `port`, and from
no other: on success it yields `addr` with the extracted port and only that section of that
node changes; when that section cannot extract (or the protocol has no section) it fails
and the pool is unchanged. -/
theorem pool4_get_similar_spec (l4protocol : Nat) (a : ipv4_tuple_address)
    (pool : List pool_node) :
    (pool4_contains a.address pool = false →
      pool4_get_similar l4protocol (some a) pool = (none, pool)) ∧
    (∀ (before : List pool_node) (node : pool_node) (after : List pool_node),
      pool = before ++ node :: after → node.address = a.address →
      (∀ n ∈ before, n.address ≠ a.address) →
      (∀ (r : ids_ptr × section_ptr) (sec : addr_section) (port : Nat),
        get_section (get_ids node l4protocol) a.l4_id = some r →
        extract_any_port (some (node.sec r)) = some (port, sec) →
        pool4_get_similar l4protocol (some a) pool =
          (some { address := a.address, l4_id := port },
            before ++ node.set_sec r sec :: after) ∧
        ∀ r1 : ids_ptr × section_ptr, r1 ≠ r → (node.set_sec r sec).sec r1 = node.sec r1) ∧
      (extract_any_port (selected_section node l4protocol a.l4_id) = none →
        pool4_get_similar l4protocol (some a) pool = (none, pool))) := by
  constructor
  · intro h
    simp only [pool4_get_similar, pool4_contains_false a.address pool h]
  · intro before node after hsplit hnode hbefore
    have hfind := get_pool_node_append a.address node after hnode before hbefore
    rw [← hsplit] at hfind
    have hsim := pool4_get_similar_found l4protocol a pool before node after hfind
    constructor
    · intro r sec port hsel hx
      rw [extract_from_node_some_section node l4protocol a.l4_id r hsel, hx] at hsim
      exact ⟨hsim, fun r1 hr1 => pool_node_sec_set_sec_ne node r r1 sec hr1⟩
    · intro hx
      unfold selected_section at hx
      cases hsel : get_section (get_ids node l4protocol) a.l4_id with
      | none =>
        rw [extract_from_node_null_section node l4protocol a.l4_id hsel] at hsim
        exact hsim
      | some r =>
        rw [hsel] at hx
        simp only at hx
        rw [extract_from_node_some_section node l4protocol a.l4_id r hsel, hx] at hsim
        exact hsim

/-- Witness of C9: the pool holds only 192.0.2.2; asking for a port like 443 of 192.0.2.1
fails, asking for one of 192.0.2.2 yields its first odd low port. -/
theorem pool4_get_similar_spec_witness :
    pool4_contains 3221225985 [init_pool_node 3221225986] = false ∧
    pool4_get_similar IPPROTO_TCP (some { address := 3221225985, l4_id := 443 })
        [init_pool_node 3221225986] = (none, [init_pool_node 3221225986]) ∧
    pool4_get_similar IPPROTO_TCP (some { address := 3221225986, l4_id := 443 })
        [init_pool_node 3221225986] =
      (some { address := 3221225986, l4_id := 1 },
        [(init_pool_node 3221225986).set_sec (ids_ptr.tcp, section_ptr.odd_low)
          { next_port := 3, max_port := 1023, free_ports := [] }]) :=
  ⟨rfl,
    (pool4_get_similar_spec IPPROTO_TCP { address := 3221225985, l4_id := 443 }
      [init_pool_node 3221225986]).1 rfl,
    ((pool4_get_similar_spec IPPROTO_TCP { address := 3221225986, l4_id := 443 }
      [init_pool_node 3221225986]).2 [] (init_pool_node 3221225986) [] rfl rfl
      (fun n hn => by cases hn)).1 (ids_ptr.tcp, section_ptr.odd_low)
      { next_port := 3, max_port := 1023, free_ports := [] } 1 rfl rfl |>.1⟩

/-- C10 as stated fails when `kmalloc` gives NULL: 192.0.2.1 is in the pool and the
protocol is UDP, yet `pool4_return` fails and the port is not remembered. -/
theorem pool4_return_counterexample :
    pool4_contains 3221225985 [init_pool_node 3221225985] = true ∧
    (IPPROTO_UDP = IPPROTO_UDP ∨ IPPROTO_UDP = IPPROTO_TCP ∨ IPPROTO_UDP = IPPROTO_ICMP ∨
      IPPROTO_UDP = IPPROTO_ICMPV6) ∧
    pool4_return false IPPROTO_UDP (some { address := 3221225985, l4_id := 0 })
        [init_pool_node 3221225985] = (false, [init_pool_node 3221225985]) := by
  refine ⟨rfl, ?_, rfl⟩
  decide

/-- C10, amended: `pool4_return(proto, (addr, port))` fails and leaves the pool unchanged
when `addr` is not in the pool, when the protocol is not UDP, TCP, ICMP or ICMPv6, and
when the allocation of the free-list entry fails. Otherwise it succeeds and the only change
is that `port` is appended behind the free list of the section of the entry of `addr`
picked by the protocol and by the parity and range of `port`, whether or not the list
already holds `port`; `next_port` and `max_port` of that section, every other section and
every other node stay as they were. -/
theorem pool4_return_spec (l4protocol : Nat) (a : ipv4_tuple_address)
    (pool : List pool_node) :
    (∀ kmalloc_ok : Bool, pool4_contains a.address pool = false →
      pool4_return kmalloc_ok l4protocol (some a) pool = (false, pool)) ∧
    (∀ kmalloc_ok : Bool,
      ¬ (l4protocol = IPPROTO_UDP ∨ l4protocol = IPPROTO_TCP ∨ l4protocol = IPPROTO_ICMP ∨
        l4protocol = IPPROTO_ICMPV6) →
      pool4_return kmalloc_ok l4protocol (some a) pool = (false, pool)) ∧
    pool4_return false l4protocol (some a) pool = (false, pool) ∧
    (∀ (before : List pool_node) (node : pool_node) (after : List pool_node),
      pool = before ++ node :: after → node.address = a.address →
      (∀ n ∈ before, n.address ≠ a.address) →
      (l4protocol = IPPROTO_UDP ∨ l4protocol = IPPROTO_TCP ∨ l4protocol = IPPROTO_ICMP ∨
        l4protocol = IPPROTO_ICMPV6) →
      ∃ r : ids_ptr × section_ptr,
        get_section (get_ids node l4protocol) a.l4_id = some r ∧
        pool4_return true l4protocol (some a) pool =
          (true, before ++ node.set_sec r
            { node.sec r with free_ports := (node.sec r).free_ports ++ [a.l4_id] }
              :: after) ∧
        ∀ r1 : ids_ptr × section_ptr, r1 ≠ r →
          (node.set_sec r
            { node.sec r with free_ports := (node.sec r).free_ports ++ [a.l4_id] }).sec r1 =
          node.sec r1) := by
  refine ⟨?_, ?_, ?_, ?_⟩
  · intro kmalloc_ok h
    simp only [pool4_return, pool4_contains_false a.address pool h]
  · intro kmalloc_ok h
    unfold pool4_return
    simp only
    cases hfind : get_pool_node pool a.address with
    | none => rfl
    | some found =>
      obtain ⟨before, node, after⟩ := found
      simp only [get_ids_unsupported node l4protocol h, get_section]
  · unfold pool4_return
    simp only
    cases hfind : get_pool_node pool a.address with
    | none => rfl
    | some found =>
      obtain ⟨before, node, after⟩ := found
      simp only
      cases hsel : get_section (get_ids node l4protocol) a.l4_id with
      | none => rfl
      | some r => rfl
  · intro before node after hsplit hnode hbefore hproto
    have hfind := get_pool_node_append a.address node after hnode before hbefore
    rw [← hsplit] at hfind
    obtain ⟨p, hp⟩ := get_ids_supported node l4protocol hproto
    obtain ⟨q, hq⟩ := get_section_some p a.l4_id
    have hsel : get_section (get_ids node l4protocol) a.l4_id = some (p, q) := by
      rw [hp, hq]
    refine ⟨(p, q), hsel, ?_, fun r1 hr1 => pool_node_sec_set_sec_ne node (p, q) r1 _ hr1⟩
    simp only [pool4_return, hfind, hsel, add_free_port, Bool.not_true, Bool.false_eq_true,
      ↓reduceIte]

/-- Witness of C10 (amended): port 2 given back twice to a fresh 192.0.2.1 sits twice
in the UDP even_low free list. -/
theorem pool4_return_spec_witness :
    pool4_return true IPPROTO_UDP (some { address := 3221225985, l4_id := 2 })
        [(init_pool_node 3221225985).set_sec (ids_ptr.udp, section_ptr.even_low)
          { next_port := 0, max_port := 1022, free_ports := [2] }] =
      (true, [(init_pool_node 3221225985).set_sec (ids_ptr.udp, section_ptr.even_low)
          { next_port := 0, max_port := 1022, free_ports := [2, 2] }]) := by
  obtain ⟨r, hsel, hret, _⟩ :=
    (pool4_return_spec IPPROTO_UDP { address := 3221225985, l4_id := 2 }
      [(init_pool_node 3221225985).set_sec (ids_ptr.udp, section_ptr.even_low)
        { next_port := 0, max_port := 1022, free_ports := [2] }]).2.2.2 []
      ((init_pool_node 3221225985).set_sec (ids_ptr.udp, section_ptr.even_low)
        { next_port := 0, max_port := 1022, free_ports := [2] }) [] rfl rfl
      (fun n hn => by cases hn) (by decide)
  have hsel2 : get_section (get_ids ((init_pool_node 3221225985).set_sec
      (ids_ptr.udp, section_ptr.even_low)
      { next_port := 0, max_port := 1022, free_ports := [2] }) IPPROTO_UDP)
      (ipv4_tuple_address.mk 3221225985 2).l4_id =
      some (ids_ptr.udp, section_ptr.even_low) := rfl
  rw [hsel2] at hsel
  have hr : r = (ids_ptr.udp, section_ptr.even_low) := (Option.some.inj hsel).symm
  subst hr
  exact hret

/-! ### Removing an address -/

/-- C11: `pool4_remove(addr)`. When `addr` is not in the pool the call returns
ERR_POOL4_NOT_FOUND and the pool is unchanged. When `node` is the entry of `addr`, the call
returns ERR_SUCCESS and the pool is the old list without that node: the nodes before and
after it keep their order and their sections; and when no address was in the pool twice,
`addr` is no longer in it. -/
theorem pool4_remove_spec (addr : Nat) (pool : List pool_node) :
    (pool4_contains addr pool = false →
      pool4_remove (some addr) pool = (error_code.ERR_POOL4_NOT_FOUND, pool)) ∧
    (∀ (before : List pool_node) (node : pool_node) (after : List pool_node),
      pool = before ++ node :: after → node.address = addr →
      (∀ n ∈ before, n.address ≠ addr) →
      pool4_remove (some addr) pool = (error_code.ERR_SUCCESS, before ++ after) ∧
      ((pool.map (fun n => n.address)).Nodup →
        pool4_contains addr (before ++ after) = false)) := by
  constructor
  · intro h
    simp only [pool4_remove, pool4_contains_false addr pool h]
  · intro before node after hsplit hnode hbefore
    have hfind := get_pool_node_append addr node after hnode before hbefore
    rw [← hsplit] at hfind
    constructor
    · simp only [pool4_remove, hfind, destroy_pool_node]
    · intro hnodup
      cases hc : pool4_contains addr (before ++ after) with
      | false => rfl
      | true =>
        exfalso
        rw [pool4_contains_iff, List.map_append, List.mem_append] at hc
        rw [hsplit, List.map_append, List.map_cons, hnode] at hnodup
        rcases hc with hc | hc
        · rw [List.mem_map] at hc
          obtain ⟨n, hn, hn2⟩ := hc
          exact hbefore n hn hn2
        · have h2 := (List.nodup_append.mp hnodup).2.1
          exact (List.nodup_cons.mp h2).1 hc

/-- Witness of C11: 192.0.2.1 removed from between two other addresses. -/
theorem pool4_remove_spec_witness :
    pool4_remove (some 3221225985)
        [init_pool_node 3221225986, init_pool_node 3221225985, init_pool_node 3221225987] =
      (error_code.ERR_SUCCESS, [init_pool_node 3221225986, init_pool_node 3221225987]) ∧
    pool4_remove (some 3221225985) [init_pool_node 3221225986] =
      (error_code.ERR_POOL4_NOT_FOUND, [init_pool_node 3221225986]) :=
  ⟨((pool4_remove_spec 3221225985
      [init_pool_node 3221225986, init_pool_node 3221225985, init_pool_node 3221225987]).2
      [init_pool_node 3221225986] (init_pool_node 3221225985) [init_pool_node 3221225987]
      rfl rfl (by decide)).1,
    (pool4_remove_spec 3221225985 [init_pool_node 3221225986]).1 rfl⟩

/-! ### Bytes -/

theorem be_bytes_length (k x : Nat) : (be_bytes k x).length = k := by
  induction k with
  | zero => rfl
  | succ k ih => simp [be_bytes, ih]

theorem foldl_be_bytes (k x : Nat) :
    ∀ acc : Nat, (be_bytes k x).foldl (fun acc b => acc * 256 + b) acc =
      acc * 256 ^ k + x % 256 ^ k := by
  induction k with
  | zero =>
    intro acc
    simp [be_bytes, Nat.mod_one]
  | succ k ih =>
    intro acc
    simp only [be_bytes, List.foldl_cons, ih]
    rw [Nat.mod_pow_succ]
    ring

theorem be_value_be_bytes (k x : Nat) : be_value (be_bytes k x) = x % 256 ^ k := by
  unfold be_value
  rw [foldl_be_bytes]
  simp

theorem host_bytes_length (big_endian : Bool) (k x : Nat) :
    (host_bytes big_endian k x).length = k := by
  cases big_endian <;> simp [host_bytes, be_bytes_length]

theorem host_value_host_bytes (big_endian : Bool) (k x : Nat) :
    host_value big_endian (host_bytes big_endian k x) = x % 256 ^ k := by
  cases big_endian <;> simp [host_value, host_bytes, be_value_be_bytes]

/-! ### The packed session -/

theorem session_joold_buffer_length (K : jool_headers) (jiffies : Nat)
    (entry : session_entry) : (session_joold_buffer K jiffies entry).length = 36 := by
  simp [session_joold_buffer, be_bytes_length]

theorem drop_be_bytes (k n x : Nat) (h : k ≤ n) : (be_bytes k x).drop n = [] :=
  List.drop_eq_nil_of_le (by rw [be_bytes_length]; exact h)

theorem take_be_bytes (k n x : Nat) (h : k ≤ n) : (be_bytes k x).take n = be_bytes k x :=
  List.take_of_length_le (by rw [be_bytes_length]; exact h)

theorem session_joold_buffer_fields (K : jool_headers) (jiffies : Nat)
    (entry : session_entry) :
    (session_joold_buffer K jiffies entry).take 16 = be_bytes 16 entry.src6.l3 ∧
    ((session_joold_buffer K jiffies entry).drop 16).take 4 = be_bytes 4 entry.src4.l3 ∧
    ((session_joold_buffer K jiffies entry).drop 20).take 4 = be_bytes 4 entry.dst4.l3 ∧
    ((session_joold_buffer K jiffies entry).drop 24).take 4 =
      be_bytes 4 (session_dying_time K jiffies entry) ∧
    ((session_joold_buffer K jiffies entry).drop 28).take 2 = be_bytes 2 entry.src6.l4 ∧
    ((session_joold_buffer K jiffies entry).drop 30).take 2 = be_bytes 2 entry.src4.l4 ∧
    ((session_joold_buffer K jiffies entry).drop 32).take 2 = be_bytes 2 entry.dst4.l4 ∧
    ((session_joold_buffer K jiffies entry).drop 34).take 2 =
      be_bytes 2 (session_flags entry) := by
  refine ⟨?_, ?_, ?_, ?_, ?_, ?_, ?_, ?_⟩ <;>
    simp [session_joold_buffer, List.take_append_eq_append_take,
      List.drop_append_eq_append_drop, be_bytes_length, drop_be_bytes, take_be_bytes]

theorem ulong_of_small (K : jool_headers) (hlong : 32 ≤ K.BITS_PER_LONG) (n : Nat)
    (hn : n < 4294967296) : K.ulong (n : Int) = n := by
  unfold jool_headers.ulong
  have hpow : (4294967296 : Nat) ≤ 2 ^ K.BITS_PER_LONG := by
    calc (4294967296 : Nat) = 2 ^ 32 := by norm_num
      _ ≤ 2 ^ K.BITS_PER_LONG := Nat.pow_le_pow_right (by norm_num) hlong
  have hlt : (n : Int) < (2 : Int) ^ K.BITS_PER_LONG := by
    have : n < 2 ^ K.BITS_PER_LONG := by omega
    exact_mod_cast this
  rw [Int.emod_eq_of_lt (Int.ofNat_nonneg n) hlt]
  simp

theorem ulong_le (K : jool_headers) (n : Nat) : K.ulong (n : Int) ≤ n := by
  unfold jool_headers.ulong
  have h : ((n : Int) % (2 : Int) ^ K.BITS_PER_LONG) = ((n % 2 ^ K.BITS_PER_LONG : Nat) : Int) := by
    push_cast
    rfl
  rw [h, Int.toNat_ofNat]
  exact Nat.mod_le _ _

theorem session_dying_time_eq (K : jool_headers) (jiffies : Nat) (entry : session_entry) :
    session_dying_time K jiffies entry =
      if K.ulong ((entry.update_time : Int) + (entry.timeout : Int)) > jiffies then
        K.ulong ((K.jiffies_to_msecs
          (K.ulong ((entry.update_time : Int) + (entry.timeout : Int)) - jiffies)
            % 4294967296 : Nat) : Int)
      else 0 := by
  have hle := ulong_le K (K.jiffies_to_msecs
    (K.ulong ((entry.update_time : Int) + (entry.timeout : Int)) - jiffies) % 4294967296)
  unfold session_dying_time MAX_U32
  simp only
  split_ifs with h1 h2 h3
  · omega
  · rfl
  · omega
  · rfl

/-- C13: the buffer `jnla_put_session_joold` hands to `nla_put`. Bytes 0-15 hold the src6
address, 16-19 the src4 address, 20-23 the dst4 address, 24-27 the remaining lifetime as a
big-endian u32, 28-29, 30-31 and 32-33 the src6, src4 and dst4 ports as big-endian u16, and
34-35 the big-endian u16 of (proto << 5) | (state << 2) | timer_type. The buffer does not
depend on dst6. The lifetime is 0 when `update_time + timeout` (an unsigned long) is not
after `jiffies`; else it is what `jiffies_to_msecs` returns for the difference, an
`unsigned int`: the milliseconds modulo 2^32. That value never exceeds MAX_U32, so the cap
`if (dying_time > MAX_U32)` never applies, and a lifetime of 2^32 milliseconds or more is
written as its remainder modulo 2^32, not as 2^32 - 1. -/
theorem session_joold_layout (K : jool_headers) (jiffies : Nat) (entry : session_entry) :
    (∀ (skb : sk_buff) (attrtype : Nat),
      jnla_put_session_joold K jiffies skb attrtype entry =
        nla_put skb attrtype (session_joold_buffer K jiffies entry)) ∧
    (session_joold_buffer K jiffies entry).take 16 = be_bytes 16 entry.src6.l3 ∧
    ((session_joold_buffer K jiffies entry).drop 16).take 4 = be_bytes 4 entry.src4.l3 ∧
    ((session_joold_buffer K jiffies entry).drop 20).take 4 = be_bytes 4 entry.dst4.l3 ∧
    ((session_joold_buffer K jiffies entry).drop 24).take 4 =
      be_bytes 4
        (if K.ulong ((entry.update_time : Int) + (entry.timeout : Int)) > jiffies then
          K.ulong ((K.jiffies_to_msecs
            (K.ulong ((entry.update_time : Int) + (entry.timeout : Int)) - jiffies)
              % 4294967296 : Nat) : Int)
        else 0) ∧
    ((session_joold_buffer K jiffies entry).drop 28).take 2 = be_bytes 2 entry.src6.l4 ∧
    ((session_joold_buffer K jiffies entry).drop 30).take 2 = be_bytes 2 entry.src4.l4 ∧
    ((session_joold_buffer K jiffies entry).drop 32).take 2 = be_bytes 2 entry.dst4.l4 ∧
    ((session_joold_buffer K jiffies entry).drop 34).take 2 =
      be_bytes 2
        (((entry.proto <<< 5) ||| (entry.state <<< 2) ||| entry.timer_type) % 65536) ∧
    (∀ dst6 : ipv6_transport_addr,
      session_joold_buffer K jiffies { entry with dst6 := dst6 } =
        session_joold_buffer K jiffies entry) ∧
    (32 ≤ K.BITS_PER_LONG →
      K.ulong ((entry.update_time : Int) + (entry.timeout : Int)) > jiffies →
      session_dying_time K jiffies entry =
        K.jiffies_to_msecs
          (K.ulong ((entry.update_time : Int) + (entry.timeout : Int)) - jiffies)
            % 4294967296) := by
  obtain ⟨h1, h2, h3, h4, h5, h6, h7, h8⟩ := session_joold_buffer_fields K jiffies entry
  rw [session_dying_time_eq] at h4
  refine ⟨fun _ _ => rfl, h1, h2, h3, h4, h5, h6, h7, h8, fun _ => rfl, ?_⟩
  intro hlong hafter
  rw [session_dying_time_eq, if_pos hafter]
  exact ulong_of_small K hlong _ (Nat.mod_lt _ (by norm_num))

/-- C13, on a session with 2^32 milliseconds to live (last seen at jiffy 1000 with a timeout
of 4294967296 jiffies, HZ = 1000, read at jiffy 1000): bytes 24-27 are 00 00 00 00, not the
ff ff ff ff of the cap. -/
theorem session_joold_layout_witness :
    ((session_joold_buffer example_headers 1000
        { example_session with timeout := 4294967296 }).drop 24).take 4 = [0, 0, 0, 0] ∧
    session_dying_time example_headers 1000 { example_session with timeout := 4294967296 }
      = 0 ∧
    session_joold_buffer example_headers 1000 example_session =
      [32, 1, 13, 184, 0, 0, 0, 0, 0, 0, 0, 0, 0, 0, 0, 1,
       192, 0, 2, 1,
       203, 0, 113, 1,
       0, 0, 234, 96,
       19, 136,
       156, 64,
       0, 80,
       0, 12] :=
  ⟨((session_joold_layout example_headers 1000
      { example_session with timeout := 4294967296 }).2.2.2.2.1).trans (by rfl),
    ((session_joold_layout example_headers 1000
      { example_session with timeout := 4294967296 }).2.2.2.2.2.2.2.2.2.2
        (by decide) (by decide)).trans (by rfl),
    by rfl⟩

theorem session_flags_decode (proto state timer_type : Nat) (hp : proto ≤ 3)
    (hs : state ≤ 7) (ht : timer_type ≤ 3) :
    ((((proto <<< 5) ||| (state <<< 2) ||| timer_type) % 65536) >>> 5) &&& 3 = proto ∧
    ((((proto <<< 5) ||| (state <<< 2) ||| timer_type) % 65536) >>> 2) &&& 7 = state ∧
    (((proto <<< 5) ||| (state <<< 2) ||| timer_type) % 65536) &&& 3 = timer_type := by
  interval_cases proto <;> interval_cases state <;> interval_cases timer_type <;> decide

theorem session_flags_lt (entry : session_entry) : session_flags entry < 65536 := by
  unfold session_flags
  omega

theorem get_timeout_ok (K : jool_headers) (config : bib_ttl) (entry : session_entry)
    (hproto : entry.proto = K.L4PROTO_TCP ∨ entry.proto = K.L4PROTO_UDP ∨
      entry.proto = K.L4PROTO_ICMP)
    (htimer : entry.timer_type = K.SESSION_TIMER_EST ∨
      entry.timer_type = K.SESSION_TIMER_TRANS ∨ entry.timer_type = K.SESSION_TIMER_SYN4) :
    ∃ timeout : Nat, get_timeout K config entry = (0, { entry with timeout := timeout }) := by
  unfold get_timeout
  split_ifs with h1 h2 h3 h4 h5 h6
  · exact ⟨_, rfl⟩
  · exact ⟨_, rfl⟩
  · exact ⟨_, rfl⟩
  · rcases htimer with h | h | h <;> contradiction
  · exact ⟨_, rfl⟩
  · exact ⟨_, rfl⟩
  · rcases hproto with h | h | h <;> contradiction

theorem nla_read_session_joold_buffer (K : jool_headers) (jiffies attrtype : Nat)
    (entry : session_entry) :
    nla_read (nlattr.mk 40 attrtype (session_joold_buffer K jiffies entry) [])
      SERIALIZED_SESSION_SIZE = some (session_joold_buffer K jiffies entry) := by
  have hlen := session_joold_buffer_length K jiffies entry
  unfold nla_read SERIALIZED_SESSION_SIZE
  simp only [nlattr.data, hlen]
  rw [List.take_of_length_le (by omega)]
  rfl

theorem get_timeout_err (K : jool_headers) (config : bib_ttl) (entry : session_entry)
    (h : (get_timeout K config entry).1 ≠ 0) :
    ¬ ((entry.proto = K.L4PROTO_TCP ∨ entry.proto = K.L4PROTO_UDP ∨
        entry.proto = K.L4PROTO_ICMP) ∧
      (entry.timer_type = K.SESSION_TIMER_EST ∨ entry.timer_type = K.SESSION_TIMER_TRANS ∨
        entry.timer_type = K.SESSION_TIMER_SYN4)) := by
  rintro ⟨hproto, htimer⟩
  obtain ⟨timeout, ht⟩ := get_timeout_ok K config entry hproto htimer
  rw [ht] at h
  exact h rfl

theorem get_timeout_fields (K : jool_headers) (config : bib_ttl) (entry : session_entry) :
    (get_timeout K config entry).2.src6 = entry.src6 ∧
    (get_timeout K config entry).2.dst6 = entry.dst6 ∧
    (get_timeout K config entry).2.src4 = entry.src4 ∧
    (get_timeout K config entry).2.dst4 = entry.dst4 ∧
    (get_timeout K config entry).2.proto = entry.proto ∧
    (get_timeout K config entry).2.state = entry.state ∧
    (get_timeout K config entry).2.timer_type = entry.timer_type := by
  unfold get_timeout
  split_ifs <;> exact ⟨rfl, rfl, rfl, rfl, rfl, rfl, rfl⟩

/-- C14: decoding what `jnla_put_session_joold` wrote gives the session back. For an entry
whose fields fit their C types, with proto TCP, UDP or ICMP, state at most 7 and timer EST,
TRANS or SYN4, whose dst6 address is what `__rfc6052_4to6` derives from dst4 under pool6 and
whose dst6 port is the src6 port for ICMP and the dst4 port otherwise: given room for the
40 bytes, the writer appends one attribute, and `jnla_get_session_joold` on that attribute
returns 0 with the same src6, src4, dst4 and dst6, protocol, state and timer. The enum
values are those of headers outside the sources and are taken to fit their two bits. -/
theorem session_joold_roundtrip (K : jool_headers) (hK : K.enums_ok)
    (jiffies now attrtype : Nat) (skb : sk_buff) (cfg : jool_globals)
    (entry se0 : session_entry) (htyped : entry.typed)
    (hproto : entry.proto = K.L4PROTO_TCP ∨ entry.proto = K.L4PROTO_UDP ∨
      entry.proto = K.L4PROTO_ICMP)
    (hstate : entry.state ≤ 7)
    (htimer : entry.timer_type = K.SESSION_TIMER_EST ∨
      entry.timer_type = K.SESSION_TIMER_TRANS ∨ entry.timer_type = K.SESSION_TIMER_SYN4)
    (hrfc : K.rfc6052_4to6 cfg.pool6.prefix_ entry.dst4.l3 = (0, entry.dst6.l3))
    (hdst6 : entry.dst6.l4 =
      if entry.proto = K.L4PROTO_ICMP then entry.src6.l4 else entry.dst4.l4)
    (hroom : 40 ≤ skb.tailroom) :
    ∃ (attr : nlattr) (se : session_entry),
      jnla_put_session_joold K jiffies skb attrtype entry =
        (0, { skb with tailroom := skb.tailroom - 40 }.append attr 40) ∧
      jnla_get_session_joold K now (some attr) cfg se0 = some (0, se) ∧
      se.src6 = entry.src6 ∧ se.src4 = entry.src4 ∧ se.dst4 = entry.dst4 ∧
      se.dst6 = entry.dst6 ∧ se.proto = entry.proto ∧ se.state = entry.state ∧
      se.timer_type = entry.timer_type ∧
      se.dst6.l4 = (if se.proto = K.L4PROTO_ICMP then se.src6.l4 else se.dst4.l4) := by
  obtain ⟨k1, k2, k3, k4, k5, k6, _⟩ := hK
  have hp3 : entry.proto ≤ 3 := by
    rcases hproto with h | h | h <;> rw [h] <;> assumption
  have ht3 : entry.timer_type ≤ 3 := by
    rcases htimer with h | h | h <;> rw [h] <;> assumption
  obtain ⟨t1, t2, t3, t4, t5, t6⟩ := htyped
  obtain ⟨h1, h2, h3, h4, h5, h6, h7, h8⟩ := session_joold_buffer_fields K jiffies entry
  obtain ⟨f1, f2, f3⟩ := session_flags_decode entry.proto entry.state entry.timer_type
    hp3 hstate ht3
  have hflags : session_flags entry % 256 ^ 2 = session_flags entry :=
    Nat.mod_eq_of_lt (session_flags_lt entry)
  have e1 : entry.src6.l3 % 256 ^ 16 = entry.src6.l3 := Nat.mod_eq_of_lt (by omega)
  have e2 : entry.src4.l3 % 256 ^ 4 = entry.src4.l3 := Nat.mod_eq_of_lt (by omega)
  have e3 : entry.dst4.l3 % 256 ^ 4 = entry.dst4.l3 := Nat.mod_eq_of_lt (by omega)
  have e4 : entry.src6.l4 % 256 ^ 2 = entry.src6.l4 := Nat.mod_eq_of_lt (by omega)
  have e5 : entry.src4.l4 % 256 ^ 2 = entry.src4.l4 := Nat.mod_eq_of_lt (by omega)
  have e6 : entry.dst4.l4 % 256 ^ 2 = entry.dst4.l4 := Nat.mod_eq_of_lt (by omega)
  have hnot : ¬ (40 < SERIALIZED_SESSION_SIZE) := by decide
  have hzero : ¬ ((0 : Int) ≠ 0) := by simp
  have hput : jnla_put_session_joold K jiffies skb attrtype entry =
      (0, { skb with tailroom := skb.tailroom - 40 }.append
        (nlattr.mk 40 attrtype (session_joold_buffer K jiffies entry) []) 40) := by
    have hsize : nla_total_size 36 = 40 := rfl
    have hfits : ¬ skb.tailroom < 40 := by omega
    simp only [jnla_put_session_joold, nla_put, session_joold_buffer_length, hsize, hfits,
      ↓reduceIte, NLA_HDRLEN]
  refine ⟨nlattr.mk 40 attrtype (session_joold_buffer K jiffies entry) [], ?_⟩
  have hgt := get_timeout_ok K cfg.ttl
    { src6 := { l3 := entry.src6.l3, l4 := entry.src6.l4 },
      dst6 := { l3 := entry.dst6.l3, l4 := entry.dst6.l4 },
      src4 := { l3 := entry.src4.l3, l4 := entry.src4.l4 },
      dst4 := { l3 := entry.dst4.l3, l4 := entry.dst4.l4 },
      proto := entry.proto, state := entry.state, timer_type := entry.timer_type,
      update_time := session_entry_zero.update_time,
      timeout := session_entry_zero.timeout,
      has_stored := session_entry_zero.has_stored } hproto htimer
  obtain ⟨timeout, hgt⟩ := hgt
  simp only [jnla_get_session_joold, nlattr.nla_len, hnot, ↓reduceIte,
    nla_read_session_joold_buffer, h1, h2, h3, h4, h5, h6, h7, h8, be_value_be_bytes,
    hflags, e1, e2, e3, e4, e5, e6, hrfc, hzero]
  unfold session_flags
  simp only [f1, f2, f3]
  rw [← hdst6]
  simp only [hgt, hzero, ↓reduceIte]
  exact ⟨_, hput, rfl, rfl, rfl, rfl, rfl, rfl, rfl, rfl, hdst6⟩

/-- Witness of C14: the example session survives the round trip on the example host. -/
theorem session_joold_roundtrip_witness :
    example_headers.enums_ok ∧ example_session.typed ∧
    ∃ (attr : nlattr) (se : session_entry),
      jnla_put_session_joold example_headers 1000
          { attrs := [], frames := [], tailroom := 64 } 1 example_session =
        (0, ({ attrs := [], frames := [], tailroom := 64 - 40 } : sk_buff).append attr 40) ∧
      jnla_get_session_joold example_headers 5000 (some attr) example_globals
          session_entry_zero = some (0, se) ∧
      se.src6 = example_session.src6 ∧ se.src4 = example_session.src4 ∧
      se.dst4 = example_session.dst4 ∧ se.dst6 = example_session.dst6 ∧
      se.proto = example_session.proto ∧ se.state = example_session.state ∧
      se.timer_type = example_session.timer_type ∧
      se.dst6.l4 = (if se.proto = example_headers.L4PROTO_ICMP then se.src6.l4
        else se.dst4.l4) :=
  ⟨by unfold jool_headers.enums_ok; decide, by unfold session_entry.typed; decide,
    session_joold_roundtrip example_headers (by unfold jool_headers.enums_ok; decide)
      1000 5000 1 { attrs := [], frames := [], tailroom := 64 } example_globals
      example_session session_entry_zero (by unfold session_entry.typed; decide)
      (Or.inl rfl) (by decide) (Or.inl rfl) rfl rfl (by decide)⟩

theorem get_timeout_zero (K : jool_headers) (hK : K.enums_ok) (config : bib_ttl)
    (entry : session_entry) (h : (get_timeout K config entry).1 = 0) :
    (entry.proto = K.L4PROTO_TCP ∨ entry.proto = K.L4PROTO_UDP ∨
      entry.proto = K.L4PROTO_ICMP) ∧
    (entry.proto = K.L4PROTO_TCP → entry.timer_type = K.SESSION_TIMER_EST →
      (get_timeout K config entry).2.timeout = K.ulong (K.msecs_to_jiffies config.tcp_est)) ∧
    (entry.proto = K.L4PROTO_TCP → entry.timer_type = K.SESSION_TIMER_TRANS →
      (get_timeout K config entry).2.timeout =
        K.ulong (K.msecs_to_jiffies config.tcp_trans)) ∧
    (entry.proto = K.L4PROTO_TCP → entry.timer_type = K.SESSION_TIMER_SYN4 →
      (get_timeout K config entry).2.timeout =
        K.ulong (K.msecs_to_jiffies K.TCP_INCOMING_SYN)) ∧
    (entry.proto = K.L4PROTO_UDP →
      (get_timeout K config entry).2.timeout = K.ulong (K.msecs_to_jiffies config.udp)) ∧
    (entry.proto = K.L4PROTO_ICMP →
      (get_timeout K config entry).2.timeout = K.ulong (K.msecs_to_jiffies config.icmp)) := by
  obtain ⟨_, _, _, _, _, _, d1, d2, d3, d4, d5, d6⟩ := hK
  have hne : jnls_err ≠ 0 := by decide
  unfold get_timeout at h ⊢
  split_ifs at h ⊢ with c1 c2 c3 c4 c5 c6
  · refine ⟨Or.inl c1, fun _ _ => rfl, ?_, ?_, ?_, ?_⟩
    · intro _ ht; rw [c2] at ht; exact absurd ht d4
    · intro _ ht; rw [c2] at ht; exact absurd ht d5
    · intro hp; rw [c1] at hp; exact absurd hp d1
    · intro hp; rw [c1] at hp; exact absurd hp d2
  · refine ⟨Or.inl c1, fun _ ht => absurd ht c2, fun _ _ => rfl, ?_, ?_, ?_⟩
    · intro _ ht; rw [c3] at ht; exact absurd ht d6
    · intro hp; rw [c1] at hp; exact absurd hp d1
    · intro hp; rw [c1] at hp; exact absurd hp d2
  · refine ⟨Or.inl c1, fun _ ht => absurd ht c2, fun _ ht => absurd ht c3,
      fun _ _ => rfl, ?_, ?_⟩
    · intro hp; rw [c1] at hp; exact absurd hp d1
    · intro hp; rw [c1] at hp; exact absurd hp d2
  · exact absurd h hne
  · refine ⟨Or.inr (Or.inl c5), fun hp => absurd hp c1, fun hp => absurd hp c1,
      fun hp => absurd hp c1, fun _ => rfl, ?_⟩
    intro hp; rw [c5] at hp; exact absurd hp d3
  · exact ⟨Or.inr (Or.inr c6), fun hp => absurd hp c1, fun hp => absurd hp c1,
      fun hp => absurd hp c1, fun hp => absurd hp c5, fun _ => rfl⟩
  · exact absurd h hne

theorem session_joold_result (K : jool_headers) (now expiration : Nat) (err : Int)
    (early_se se : session_entry) (timed : Int × session_entry)
    (h : (if err ≠ 0 then some (err, early_se)
      else if timed.1 ≠ 0 then some (timed.1, timed.2)
      else some (0, { timed.2 with
        update_time :=
          K.ulong ((now : Int) + (expiration : Int) - (timed.2.timeout : Int))
        has_stored := false })) = some ((0 : Int), se)) :
    timed.1 = 0 ∧
    se = { timed.2 with
      update_time := K.ulong ((now : Int) + (expiration : Int) - (timed.2.timeout : Int))
      has_stored := false } := by
  by_cases h1 : err ≠ 0
  · rw [if_pos h1] at h
    simp only [Option.some.injEq, Prod.mk.injEq] at h
    exact absurd h.1 h1
  · rw [if_neg h1] at h
    by_cases h2 : timed.1 ≠ 0
    · rw [if_pos h2] at h
      simp only [Option.some.injEq, Prod.mk.injEq] at h
      exact absurd h.1 h2
    · rw [if_neg h2] at h
      simp only [Option.some.injEq, Prod.mk.injEq, true_and] at h
      exact ⟨not_not.mp h2, h.symm⟩

/-- C15: what a successful `jnla_get_session_joold` leaves in the entry. `has_stored` is
false; the protocol is TCP, UDP or ICMP; `timeout` is the configured lifetime picked by the
protocol and the timer (TCP/EST `ttl.tcp_est`, TCP/TRANS `ttl.tcp_trans`, TCP/SYN4 the
constant TCP_INCOMING_SYN, UDP `ttl.udp`, ICMP `ttl.icmp`) turned into jiffies; and
`update_time` is now + expiration - timeout in unsigned long arithmetic, where expiration
is the big-endian u32 at bytes 24-27 of the payload turned into jiffies. -/
theorem session_joold_timing (K : jool_headers) (hK : K.enums_ok) (now : Nat)
    (attr : nlattr) (cfg : jool_globals) (se0 se : session_entry)
    (h : jnla_get_session_joold K now (some attr) cfg se0 = some (0, se)) :
    se.has_stored = false ∧
    (se.proto = K.L4PROTO_TCP ∨ se.proto = K.L4PROTO_UDP ∨ se.proto = K.L4PROTO_ICMP) ∧
    (se.proto = K.L4PROTO_TCP → se.timer_type = K.SESSION_TIMER_EST →
      se.timeout = K.ulong (K.msecs_to_jiffies cfg.ttl.tcp_est)) ∧
    (se.proto = K.L4PROTO_TCP → se.timer_type = K.SESSION_TIMER_TRANS →
      se.timeout = K.ulong (K.msecs_to_jiffies cfg.ttl.tcp_trans)) ∧
    (se.proto = K.L4PROTO_TCP → se.timer_type = K.SESSION_TIMER_SYN4 →
      se.timeout = K.ulong (K.msecs_to_jiffies K.TCP_INCOMING_SYN)) ∧
    (se.proto = K.L4PROTO_UDP → se.timeout = K.ulong (K.msecs_to_jiffies cfg.ttl.udp)) ∧
    (se.proto = K.L4PROTO_ICMP → se.timeout = K.ulong (K.msecs_to_jiffies cfg.ttl.icmp)) ∧
    se.update_time =
      K.ulong ((now : Int) +
        (K.ulong (K.msecs_to_jiffies (be_value ((attr.data.drop 24).take 4))) : Int) -
        (se.timeout : Int)) := by
  have hne : jnls_err ≠ 0 := by decide
  unfold jnla_get_session_joold at h
  simp only at h
  by_cases hlen : attr.nla_len < SERIALIZED_SESSION_SIZE
  · rw [if_pos hlen] at h
    simp only [Option.some.injEq, Prod.mk.injEq] at h
    exact absurd h.1 hne
  · rw [if_neg hlen] at h
    cases hread : nla_read attr SERIALIZED_SESSION_SIZE with
    | none => simp [hread] at h
    | some serialized =>
      have hser : serialized = attr.data.take 36 := by
        unfold nla_read at hread
        split_ifs at hread
        simp only [Option.some.injEq] at hread
        exact hread.symm
      have hexp : (serialized.drop 24).take 4 = (attr.data.drop 24).take 4 := by
        rw [hser]
        simp [List.drop_take, List.take_take]
      simp only [hread] at h
      obtain ⟨hzero, hse⟩ := session_joold_result K now _ _ _ se _ h
      obtain ⟨z1, z2, z3, z4, z5, z6⟩ := get_timeout_zero K hK _ _ hzero
      have hp := fun X => (get_timeout_fields K cfg.ttl X).2.2.2.2.1
      have ht := fun X => (get_timeout_fields K cfg.ttl X).2.2.2.2.2.2
      subst hse
      rw [hexp]
      simp only [hp, ht]
      exact ⟨trivial, z1, z2, z3, z4, z5, z6, trivial⟩

/-- Witness of C15: the example session, packed at jiffy 1000 with 60000 ms to live and
decoded at jiffy 5000, gets the two-hour lifetime of established TCP and an `update_time`
that wraps below zero. -/
theorem session_joold_timing_witness :
    example_headers.enums_ok ∧
    jnla_get_session_joold example_headers 5000
        (some (nlattr.mk 40 1 (session_joold_buffer example_headers 1000 example_session) []))
        example_globals session_entry_zero =
      some (0, { example_session with
        update_time := 18446744073702416616, timeout := 7200000, has_stored := false }) ∧
    (7200000 : Nat) = example_headers.ulong (example_headers.msecs_to_jiffies 7200000) :=
  ⟨by unfold jool_headers.enums_ok; decide, by rfl,
    (session_joold_timing example_headers (by unfold jool_headers.enums_ok; decide) 5000
      (nlattr.mk 40 1 (session_joold_buffer example_headers 1000 example_session) [])
      example_globals session_entry_zero
      { example_session with
        update_time := 18446744073702416616, timeout := 7200000, has_stored := false }
      (by rfl)).2.2.1 rfl rfl⟩

/-! ### The writers are transactional -/

theorem append_eq_append_list (skb : sk_buff) (attr : nlattr) (size : Nat) :
    skb.append attr size = skb.append_list [attr] size := by
  unfold sk_buff.append sk_buff.append_list
  cases skb.frames <;> rfl

theorem append_list_nil (skb : sk_buff) : skb.append_list [] 0 = skb := by
  obtain ⟨attrs, frames, tailroom⟩ := skb
  unfold sk_buff.append_list
  cases frames with
  | nil => simp
  | cons frame rest => simp

theorem append_list_append_list (skb : sk_buff) (a1 a2 : List nlattr) (s1 s2 : Nat) :
    (skb.append_list a1 s1).append_list a2 s2 = skb.append_list (a1 ++ a2) (s1 + s2) := by
  obtain ⟨attrs, frames, tailroom⟩ := skb
  unfold sk_buff.append_list
  cases frames with
  | nil => simp
  | cons frame rest => simp [Nat.add_assoc]

theorem append_list_tailroom (skb : sk_buff) (attrs : List nlattr) (size : Nat) :
    (skb.append_list attrs size).tailroom = skb.tailroom := by
  unfold sk_buff.append_list
  cases skb.frames <;> rfl

theorem set_tailroom_append_list (skb : sk_buff) (attrs : List nlattr) (size room : Nat) :
    { skb.append_list attrs size with tailroom := room } =
      { skb with tailroom := room }.append_list attrs size := by
  obtain ⟨a, frames, tailroom⟩ := skb
  unfold sk_buff.append_list
  cases frames <;> rfl

theorem followed_by_trans (s1 s2 s3 : sk_buff) (a1 a2 : List nlattr) (n1 n2 : Nat)
    (h1 : sk_buff.followed_by s1 s2 a1 n1) (h2 : sk_buff.followed_by s2 s3 a2 n2) :
    sk_buff.followed_by s1 s3 (a1 ++ a2) (n1 + n2) := by
  obtain ⟨r1, e1⟩ := h1
  obtain ⟨r2, e2⟩ := h2
  subst e1
  rw [append_list_tailroom] at r2
  simp only at r2
  refine ⟨by omega, ?_⟩
  rw [e2, set_tailroom_append_list, append_list_append_list, append_list_tailroom]
  simp only
  have : s1.tailroom - n1 - n2 = s1.tailroom - (n1 + n2) := by omega
  rw [this]

theorem followed_by_refl (skb : sk_buff) : sk_buff.followed_by skb skb [] 0 := by
  refine ⟨Nat.zero_le _, ?_⟩
  rw [Nat.sub_zero]
  exact (append_list_nil skb).symm

theorem nla_put_writes_one (skb : sk_buff) (attrtype : Nat) (data : List Nat) :
    writes_one skb (nla_put skb attrtype data) := by
  unfold nla_put
  split_ifs with h
  · exact ⟨fun _ => rfl, fun h0 => by simp [EMSGSIZE] at h0⟩
  · refine ⟨fun h0 => absurd rfl h0, fun _ =>
      ⟨nlattr.mk (NLA_HDRLEN + data.length) attrtype data [], nla_total_size data.length,
        ?_, ?_⟩⟩
    · omega
    · simp only [append_eq_append_list]

theorem writes_container_one (skb : sk_buff) (attrtype : Nat) (r : Int × sk_buff)
    (h : writes_container skb attrtype r) : writes_one skb r := by
  refine ⟨h.1, fun h0 => ?_⟩
  obtain ⟨children, size, hf⟩ := h.2 h0
  exact ⟨_, size, hf⟩

theorem lor_puts_followed (puts : List (sk_buff → Int × sk_buff)) :
    ∀ skb : sk_buff, (∀ put ∈ puts, ∀ s, writes_one s (put s)) →
      ∃ (attrs : List nlattr) (size : Nat),
        sk_buff.followed_by skb (lor_puts puts skb).2 attrs size := by
  induction puts with
  | nil => intro skb _; exact ⟨[], 0, followed_by_refl skb⟩
  | cons put rest ih =>
    intro skb h
    have hput := h put (List.mem_cons_self _ _) skb
    unfold lor_puts
    split_ifs with herr
    · rw [hput.1 herr]
      exact ⟨[], 0, followed_by_refl skb⟩
    · obtain ⟨attr, n1, h1⟩ := hput.2 (not_not.mp herr)
      obtain ⟨attrs, n2, h2⟩ := ih (put skb).2 (fun p hp => h p (List.mem_cons_of_mem _ hp))
      exact ⟨_, _, followed_by_trans _ _ _ _ _ _ _ h1 h2⟩

theorem seq_puts_followed (puts : List (sk_buff → Int × sk_buff)) :
    ∀ skb : sk_buff, (∀ put ∈ puts, ∀ s, writes_one s (put s)) →
      ∃ (attrs : List nlattr) (size : Nat),
        sk_buff.followed_by skb (seq_puts puts skb).2 attrs size := by
  induction puts with
  | nil => intro skb _; exact ⟨[], 0, followed_by_refl skb⟩
  | cons put rest ih =>
    intro skb h
    have hput := h put (List.mem_cons_self _ _) skb
    unfold seq_puts
    split_ifs with herr
    · rw [hput.1 herr]
      exact ⟨[], 0, followed_by_refl skb⟩
    · obtain ⟨attr, n1, h1⟩ := hput.2 (not_not.mp herr)
      obtain ⟨attrs, n2, h2⟩ := ih (put skb).2 (fun p hp => h p (List.mem_cons_of_mem _ hp))
      exact ⟨_, _, followed_by_trans _ _ _ _ _ _ _ h1 h2⟩

theorem nest_cancel_restores (skb root : sk_buff) (attrtype : Nat) (after : sk_buff)
    (attrs : List nlattr) (size : Nat)
    (hstart : nla_nest_start skb attrtype = some root)
    (hafter : sk_buff.followed_by root after attrs size) :
    nla_nest_cancel after = skb := by
  obtain ⟨a, frames, tailroom⟩ := skb
  unfold nla_nest_start at hstart
  have h4 : nla_total_size 0 = 4 := rfl
  simp only [h4] at hstart
  split_ifs at hstart with hroom
  simp only [Option.some.injEq] at hstart
  subst hstart
  obtain ⟨hsize, hafter⟩ := hafter
  subst hafter
  simp only at hsize
  simp only [nla_nest_cancel, sk_buff.append_list, sk_buff.mk.injEq, true_and]
  omega

theorem nest_end_closes (skb root : sk_buff) (attrtype : Nat) (after : sk_buff)
    (attrs : List nlattr) (size : Nat)
    (hstart : nla_nest_start skb attrtype = some root)
    (hafter : sk_buff.followed_by root after attrs size) :
    sk_buff.followed_by skb (nla_nest_end after)
      [nlattr.mk (4 + size) attrtype [] attrs] (4 + size) := by
  obtain ⟨a, frames, tailroom⟩ := skb
  unfold nla_nest_start at hstart
  have h4 : nla_total_size 0 = 4 := rfl
  simp only [h4] at hstart
  split_ifs at hstart with hroom
  simp only [Option.some.injEq] at hstart
  subst hstart
  obtain ⟨hsize, hafter⟩ := hafter
  subst hafter
  simp only at hsize
  refine ⟨by simp only; omega, ?_⟩
  have hroom2 : tailroom - 4 - size = tailroom - (4 + size) := by omega
  simp only [nla_nest_end, sk_buff.append_list, List.nil_append, append_eq_append_list,
    hroom2]

theorem nest_result (skb root : sk_buff) (attrtype : Nat) (r : Int × sk_buff) (code : Int)
    (hcode : r.1 ≠ 0 → code ≠ 0)
    (hstart : nla_nest_start skb attrtype = some root)
    (hr : ∃ (attrs : List nlattr) (size : Nat), sk_buff.followed_by root r.2 attrs size) :
    writes_container skb attrtype
      (if r.1 ≠ 0 then (code, nla_nest_cancel r.2) else (0, nla_nest_end r.2)) := by
  obtain ⟨attrs, size, hf⟩ := hr
  split_ifs with herr
  · exact ⟨fun _ => nest_cancel_restores skb root attrtype r.2 attrs size hstart hf,
      fun h0 => absurd h0 (hcode herr)⟩
  · exact ⟨fun h0 => absurd rfl h0,
      fun _ => ⟨attrs, 4 + size, nest_end_closes skb root attrtype r.2 attrs size hstart hf⟩⟩

theorem nest_finish_container (skb root : sk_buff) (attrtype : Nat) (r : Int × sk_buff)
    (hstart : nla_nest_start skb attrtype = some root)
    (hr : ∃ (attrs : List nlattr) (size : Nat), sk_buff.followed_by root r.2 attrs size) :
    writes_container skb attrtype (nest_finish r) :=
  nest_result skb root attrtype r r.1 (fun h => h) hstart hr

theorem no_room_container (skb : sk_buff) (attrtype : Nat) :
    writes_container skb attrtype (-EMSGSIZE, skb) :=
  ⟨fun _ => rfl, fun h0 => by simp [EMSGSIZE] at h0⟩

theorem writes_one_followed (skb : sk_buff) (r : Int × sk_buff) (h : writes_one skb r) :
    ∃ (attrs : List nlattr) (size : Nat), sk_buff.followed_by skb r.2 attrs size := by
  by_cases herr : r.1 ≠ 0
  · rw [h.1 herr]
    exact ⟨[], 0, followed_by_refl skb⟩
  · obtain ⟨attr, size, hf⟩ := h.2 (not_not.mp herr)
    exact ⟨[attr], size, hf⟩

theorem jnla_put_prefix6_container (K : jool_headers) (skb : sk_buff) (attrtype : Nat)
    (pfx : Option ipv6_prefix) :
    writes_container skb attrtype (jnla_put_prefix6 K skb attrtype pfx) := by
  unfold jnla_put_prefix6
  cases hstart : nla_nest_start skb attrtype with
  | none => exact no_room_container skb attrtype
  | some root =>
    cases pfx with
    | none =>
      exact nest_finish_container skb root attrtype _ hstart
        (writes_one_followed _ _ (nla_put_writes_one _ _ _))
    | some p =>
      apply nest_finish_container skb root attrtype _ hstart
      apply lor_puts_followed
      intro put hput s
      simp only [List.mem_cons, List.mem_singleton, List.not_mem_nil, or_false] at hput
      rcases hput with h | h <;> subst h <;> exact nla_put_writes_one _ _ _

theorem jnla_put_prefix4_container (K : jool_headers) (skb : sk_buff) (attrtype : Nat)
    (pfx : Option ipv4_prefix) :
    writes_container skb attrtype (jnla_put_prefix4 K skb attrtype pfx) := by
  unfold jnla_put_prefix4
  cases hstart : nla_nest_start skb attrtype with
  | none => exact no_room_container skb attrtype
  | some root =>
    cases pfx with
    | none =>
      exact nest_finish_container skb root attrtype _ hstart
        (writes_one_followed _ _ (nla_put_writes_one _ _ _))
    | some p =>
      apply nest_finish_container skb root attrtype _ hstart
      apply lor_puts_followed
      intro put hput s
      simp only [List.mem_cons, List.mem_singleton, List.not_mem_nil, or_false] at hput
      rcases hput with h | h <;> subst h <;> exact nla_put_writes_one _ _ _

theorem jnla_put_taddr6_container (K : jool_headers) (skb : sk_buff) (attrtype : Nat)
    (taddr : ipv6_transport_addr) :
    writes_container skb attrtype (jnla_put_taddr6 K skb attrtype taddr) := by
  unfold jnla_put_taddr6
  cases hstart : nla_nest_start skb attrtype with
  | none => exact no_room_container skb attrtype
  | some root =>
    apply nest_finish_container skb root attrtype _ hstart
    apply lor_puts_followed
    intro put hput s
    simp only [List.mem_cons, List.mem_singleton, List.not_mem_nil, or_false] at hput
    rcases hput with h | h <;> subst h <;> exact nla_put_writes_one _ _ _

theorem jnla_put_taddr4_container (K : jool_headers) (skb : sk_buff) (attrtype : Nat)
    (taddr : ipv4_transport_addr) :
    writes_container skb attrtype (jnla_put_taddr4 K skb attrtype taddr) := by
  unfold jnla_put_taddr4
  cases hstart : nla_nest_start skb attrtype with
  | none => exact no_room_container skb attrtype
  | some root =>
    apply nest_finish_container skb root attrtype _ hstart
    apply lor_puts_followed
    intro put hput s
    simp only [List.mem_cons, List.mem_singleton, List.not_mem_nil, or_false] at hput
    rcases hput with h | h <;> subst h <;> exact nla_put_writes_one _ _ _

theorem jnla_put_eam_container (K : jool_headers) (skb : sk_buff) (attrtype : Nat)
    (eam : eamt_entry) :
    writes_container skb attrtype (jnla_put_eam K skb attrtype eam) := by
  unfold jnla_put_eam
  cases hstart : nla_nest_start skb attrtype with
  | none => exact no_room_container skb attrtype
  | some root =>
    apply nest_finish_container skb root attrtype _ hstart
    apply lor_puts_followed
    intro put hput s
    simp only [List.mem_cons, List.mem_singleton, List.not_mem_nil, or_false] at hput
    rcases hput with h | h <;> subst h
    · exact writes_container_one _ _ _ (jnla_put_prefix6_container K s _ _)
    · exact writes_container_one _ _ _ (jnla_put_prefix4_container K s _ _)

theorem jnla_put_pool4_container (K : jool_headers) (skb : sk_buff) (attrtype : Nat)
    (entry : pool4_entry) :
    writes_container skb attrtype (jnla_put_pool4 K skb attrtype entry) := by
  unfold jnla_put_pool4
  cases hstart : nla_nest_start skb attrtype with
  | none => exact no_room_container skb attrtype
  | some root =>
    apply nest_finish_container skb root attrtype _ hstart
    apply lor_puts_followed
    intro put hput s
    simp only [List.mem_cons, List.mem_singleton, List.not_mem_nil, or_false] at hput
    rcases hput with h | h | h | h | h | h | h <;> subst h
    · exact nla_put_writes_one _ _ _
    · exact nla_put_writes_one _ _ _
    · exact nla_put_writes_one _ _ _
    · exact nla_put_writes_one _ _ _
    · exact writes_container_one _ _ _ (jnla_put_prefix4_container K s _ _)
    · exact nla_put_writes_one _ _ _
    · exact nla_put_writes_one _ _ _

theorem jnla_put_bib_container (K : jool_headers) (skb : sk_buff) (attrtype : Nat)
    (bib : bib_entry) :
    writes_container skb attrtype (jnla_put_bib K skb attrtype bib) := by
  unfold jnla_put_bib
  cases hstart : nla_nest_start skb attrtype with
  | none => exact no_room_container skb attrtype
  | some root =>
    apply nest_result skb root attrtype _ _ (fun _ => by simp [EMSGSIZE]) hstart
    apply lor_puts_followed
    intro put hput s
    simp only [List.mem_cons, List.mem_singleton, List.not_mem_nil, or_false] at hput
    rcases hput with h | h | h | h <;> subst h
    · exact writes_container_one _ _ _ (jnla_put_taddr6_container K s _ _)
    · exact writes_container_one _ _ _ (jnla_put_taddr4_container K s _ _)
    · exact nla_put_writes_one _ _ _
    · exact nla_put_writes_one _ _ _

theorem jnla_put_session_container (K : jool_headers) (jiffies : Nat) (skb : sk_buff)
    (attrtype : Nat) (entry : session_entry) :
    writes_container skb attrtype (jnla_put_session K jiffies skb attrtype entry) := by
  unfold jnla_put_session
  cases hstart : nla_nest_start skb attrtype with
  | none => exact no_room_container skb attrtype
  | some root =>
    apply nest_finish_container skb root attrtype _ hstart
    apply lor_puts_followed
    intro put hput s
    simp only [List.mem_cons, List.mem_singleton, List.not_mem_nil, or_false] at hput
    rcases hput with h | h | h | h | h | h | h | h <;> subst h
    · exact writes_container_one _ _ _ (jnla_put_taddr6_container K s _ _)
    · exact writes_container_one _ _ _ (jnla_put_taddr6_container K s _ _)
    · exact writes_container_one _ _ _ (jnla_put_taddr4_container K s _ _)
    · exact writes_container_one _ _ _ (jnla_put_taddr4_container K s _ _)
    · exact nla_put_writes_one _ _ _
    · exact nla_put_writes_one _ _ _
    · exact nla_put_writes_one _ _ _
    · exact nla_put_writes_one _ _ _

theorem jnla_put_mapping_rule_container (K : jool_headers) (skb : sk_buff) (attrtype : Nat)
    (rule : config_mapping_rule) :
    writes_container skb attrtype (jnla_put_mapping_rule K skb attrtype rule) := by
  unfold jnla_put_mapping_rule
  cases hstart : nla_nest_start skb attrtype with
  | none => exact no_room_container skb attrtype
  | some root =>
    simp only
    split_ifs with hset
    · apply nest_finish_container skb root attrtype _ hstart
      apply seq_puts_followed
      intro put hput s
      simp only [List.mem_cons, List.mem_singleton, List.not_mem_nil, or_false] at hput
      rcases hput with h | h | h | h <;> subst h
      · exact writes_container_one _ _ _ (jnla_put_prefix6_container K s _ _)
      · exact writes_container_one _ _ _ (jnla_put_prefix4_container K s _ _)
      · exact nla_put_writes_one _ _ _
      · exact nla_put_writes_one _ _ _
    · exact nest_finish_container skb root attrtype _ hstart
        (writes_one_followed _ _
          (writes_container_one _ _ _ (jnla_put_prefix6_container K root _ _)))

theorem jnla_put_plateaus_container (K : jool_headers) (skb : sk_buff) (attrtype : Nat)
    (plateaus : mtu_plateaus) :
    writes_container skb attrtype (jnla_put_plateaus K skb attrtype plateaus) := by
  unfold jnla_put_plateaus
  cases hstart : nla_nest_start skb attrtype with
  | none => exact no_room_container skb attrtype
  | some root =>
    apply nest_finish_container skb root attrtype _ hstart
    apply seq_puts_followed
    intro put hput s
    rw [List.mem_map] at hput
    obtain ⟨value, _, hvalue⟩ := hput
    subst hvalue
    exact nla_put_writes_one _ _ _

/-- C20: every nested writer is transactional. For each of `jnla_put_prefix6`,
`jnla_put_prefix4`, `jnla_put_taddr6`, `jnla_put_taddr4`, `jnla_put_eam`, `jnla_put_pool4`,
`jnla_put_bib`, `jnla_put_session`, `jnla_put_mapping_rule` and `jnla_put_plateaus`, on every
buffer and for every value: when the call returns nonzero (no room for the container, or a
failed child) the buffer, its open containers and its room are as before the call; when
it returns 0 the buffer is the old one followed by exactly one closed container of the
type asked for. -/
theorem nested_writers_transactional (K : jool_headers) (jiffies : Nat) (skb : sk_buff)
    (attrtype : Nat) :
    (∀ pfx : Option ipv6_prefix,
      writes_container skb attrtype (jnla_put_prefix6 K skb attrtype pfx)) ∧
    (∀ pfx : Option ipv4_prefix,
      writes_container skb attrtype (jnla_put_prefix4 K skb attrtype pfx)) ∧
    (∀ taddr : ipv6_transport_addr,
      writes_container skb attrtype (jnla_put_taddr6 K skb attrtype taddr)) ∧
    (∀ taddr : ipv4_transport_addr,
      writes_container skb attrtype (jnla_put_taddr4 K skb attrtype taddr)) ∧
    (∀ eam : eamt_entry, writes_container skb attrtype (jnla_put_eam K skb attrtype eam)) ∧
    (∀ entry : pool4_entry,
      writes_container skb attrtype (jnla_put_pool4 K skb attrtype entry)) ∧
    (∀ bib : bib_entry, writes_container skb attrtype (jnla_put_bib K skb attrtype bib)) ∧
    (∀ entry : session_entry,
      writes_container skb attrtype (jnla_put_session K jiffies skb attrtype entry)) ∧
    (∀ rule : config_mapping_rule,
      writes_container skb attrtype (jnla_put_mapping_rule K skb attrtype rule)) ∧
    (∀ plateaus : mtu_plateaus,
      writes_container skb attrtype (jnla_put_plateaus K skb attrtype plateaus)) :=
  ⟨jnla_put_prefix6_container K skb attrtype, jnla_put_prefix4_container K skb attrtype,
    jnla_put_taddr6_container K skb attrtype, jnla_put_taddr4_container K skb attrtype,
    jnla_put_eam_container K skb attrtype, jnla_put_pool4_container K skb attrtype,
    jnla_put_bib_container K skb attrtype, jnla_put_session_container K jiffies skb attrtype,
    jnla_put_mapping_rule_container K skb attrtype,
    jnla_put_plateaus_container K skb attrtype⟩

/-- Witness of C20: with 28 bytes of room the container and the address of a transport
address fit and the port does not; the writer returns nonzero and the buffer is as it
was. -/
theorem nested_writers_transactional_witness :
    jnla_put_taddr6 example_headers { attrs := [], frames := [], tailroom := 28 } 1
        { l3 := 0x20010db8000000000000000000000001, l4 := 5000 } =
      (1, { attrs := [], frames := [], tailroom := 28 }) ∧
    writes_container { attrs := [], frames := [], tailroom := 28 } 1
      (jnla_put_taddr6 example_headers { attrs := [], frames := [], tailroom := 28 } 1
        { l3 := 0x20010db8000000000000000000000001, l4 := 5000 }) :=
  ⟨by rfl,
    (nested_writers_transactional example_headers 0
      { attrs := [], frames := [], tailroom := 28 } 1).2.2.1
      { l3 := 0x20010db8000000000000000000000001, l4 := 5000 }⟩

/-! ### MTU plateaus -/

theorem orderedInsert_rel_congr {r s : Nat → Nat → Prop} [DecidableRel r] [DecidableRel s]
    (h : ∀ a b, r a b ↔ s a b) (a : Nat) (l : List Nat) :
    l.orderedInsert r a = l.orderedInsert s a := by
  induction l with
  | nil => rfl
  | cons b l ih =>
    simp only [List.orderedInsert, h a b, ih]

theorem insertionSort_rel_congr {r s : Nat → Nat → Prop} [DecidableRel r] [DecidableRel s]
    (h : ∀ a b, r a b ↔ s a b) (l : List Nat) :
    l.insertionSort r = l.insertionSort s := by
  induction l with
  | nil => rfl
  | cons b l ih =>
    simp only [List.insertionSort, ih, orderedInsert_rel_congr h]

theorem sort_u16_eq (values : List Nat) (num : Nat) :
    sort_u16 values num
      = (values.take num).insertionSort (fun a b => a ≥ b) ++ values.drop num := by
  unfold sort_u16
  rw [insertionSort_rel_congr (s := fun a b => a ≥ b)]
  intro a b
  unfold u16_compare
  constructor <;> intro h <;> omega

theorem sort_u16_sorted (values : List Nat) (num : Nat) :
    ((sort_u16 values num).take (min num values.length)).Sorted (fun a b => a ≥ b) := by
  rw [sort_u16_eq]
  have hl : ((values.take num).insertionSort (fun a b => a ≥ b)).length
      = min num values.length := by
    rw [List.length_insertionSort, List.length_take]
  rw [← hl, List.take_left]
  exact List.sorted_insertionSort _ _


theorem getD_append_cons (A B : List Nat) (x d : Nat) :
    (A ++ x :: B).getD A.length d = x := by
  induction A with
  | nil => rfl
  | cons a A ih => simpa using ih

theorem set_append_cons (A B : List Nat) (x y : Nat) :
    (A ++ x :: B).set A.length y = A ++ y :: B := by
  induction A with
  | nil => rfl
  | cons a A ih => simp [ih]

theorem plateaus_squeeze_eq (R : List Nat) :
    ∀ (P0 G T : List Nat) (last fuel count i j : Nat) (values : List Nat),
      i = P0.length → j = P0.length + 1 + G.length → count = j + R.length →
      values = P0 ++ last :: (G ++ (R ++ T)) → R.length ≤ fuel →
      ∃ G2 : List Nat,
        plateaus_squeeze count fuel i j values
          = (i + (squeeze_spec last R).length,
              P0 ++ last :: (squeeze_spec last R ++ (G2 ++ T))) ∧
        G2.length + (squeeze_spec last R).length = G.length + R.length := by
  induction R with
  | nil =>
    intro P0 G T last fuel count i j values hi hj hc hv _
    refine ⟨G, ?_, by simp [squeeze_spec]⟩
    have hjc : ¬ j < count := by simp at hc; omega
    cases fuel with
    | zero => simp [plateaus_squeeze, squeeze_spec, hv]
    | succ fuel => simp [plateaus_squeeze, squeeze_spec, hv, hjc]
  | cons x R ih =>
    intro P0 G T last fuel count i j values hi hj hc hv hf
    cases fuel with
    | zero => simp at hf
    | succ fuel =>
      have hf2 : R.length ≤ fuel := by simpa using hf
      have hjc : j < count := by simp at hc; omega
      have hgj : values.getD j 0 = x := by
        have : values = (P0 ++ last :: G) ++ x :: (R ++ T) := by simp [hv]
        rw [this]
        have hl : j = (P0 ++ last :: G).length := by simp [hj]; omega
        rw [hl]; exact getD_append_cons _ _ _ _
      have hgi : values.getD i 0 = last := by
        rw [hv, hi]; exact getD_append_cons _ _ _ _
      unfold plateaus_squeeze
      simp only [hjc, ↓reduceIte, hgj, hgi]
      by_cases hx : x = 0
      · refine ⟨G ++ x :: R, ?_, by simp [squeeze_spec, hx]⟩
        simp [squeeze_spec, hx, hv]
      · by_cases hlx : last = x
        · obtain ⟨G2, h1, h2⟩ := ih P0 (G ++ [x]) T last fuel count i (j + 1) values hi
            (by simp [hj]; omega) (by simp at hc ⊢; omega) (by simp [hv]) hf2
          refine ⟨G2, ?_, ?_⟩
          · simp only [hx, hlx, ↓reduceIte, ne_eq, not_true_eq_false, squeeze_spec]
            rw [hlx] at h1
            simpa using h1
          · simp only [squeeze_spec, hx, ↓reduceIte, ne_eq, hlx, not_true_eq_false]
            rw [hlx] at h2
            simp at h2 ⊢; omega
        · have hset : values.set (i + 1) x
              = (P0 ++ [last]) ++ x :: ((G ++ [x]).tail ++ (R ++ T)) := by
            cases G with
            | nil =>
              have : values = (P0 ++ [last]) ++ x :: (R ++ T) := by simp [hv]
              have hl : i + 1 = (P0 ++ [last]).length := by simp [hi]
              rw [this, hl, set_append_cons]; simp
            | cons g G =>
              have : values = (P0 ++ [last]) ++ g :: (G ++ (x :: (R ++ T))) := by simp [hv]
              have hl : i + 1 = (P0 ++ [last]).length := by simp [hi]
              rw [this, hl, set_append_cons]; simp
          have hlen : (G ++ [x]).tail.length = G.length := by simp
          obtain ⟨G2, h1, h2⟩ := ih (P0 ++ [last]) (G ++ [x]).tail T x fuel count (i + 1)
            (j + 1) (values.set (i + 1) x) (by simp [hi]) (by rw [hlen]; simp [hj]; omega)
            (by simp at hc ⊢; omega) hset hf2
          refine ⟨G2, ?_, ?_⟩
          · simp only [hx, hlx, ↓reduceIte, ne_eq, not_false_eq_true, squeeze_spec]
            rw [h1]; simp; omega
          · simp only [squeeze_spec, hx, ↓reduceIte, ne_eq, hlx, not_false_eq_true]
            rw [hlen] at h2
            simp at h2 ⊢; omega


theorem squeeze_spec_sorted (R : List Nat) :
    ∀ last : Nat, last ≠ 0 → (last :: R).Sorted (fun a b => a ≥ b) →
      (last :: squeeze_spec last R).Pairwise (fun a b => a > b) ∧
      (∀ v, v ∈ last :: squeeze_spec last R ↔ v ∈ last :: R ∧ v ≠ 0) := by
  induction R with
  | nil =>
    intro last hl _
    simp only [squeeze_spec, List.pairwise_cons, List.not_mem_nil, false_implies, implies_true,
      List.Pairwise.nil, and_self, List.mem_singleton, true_and]
    intro v; constructor
    · intro h; exact ⟨h, h ▸ hl⟩
    · intro h; exact h.1
  | cons x R ih =>
    intro last hl hs
    have hs2 := List.pairwise_cons.mp hs
    have hxl : x ≤ last := hs2.1 x (List.mem_cons_self _ _)
    have hs3 := List.pairwise_cons.mp hs2.2
    by_cases hx : x = 0
    · simp only [squeeze_spec, hx, ↓reduceIte, List.pairwise_cons, List.not_mem_nil,
        false_implies, implies_true, List.Pairwise.nil, and_self, List.mem_singleton, true_and,
        List.mem_cons, or_false]
      intro v; constructor
      · intro h; exact ⟨Or.inl h, h ▸ hl⟩
      · rintro ⟨h | h | h, hv⟩
        · exact h
        · exact absurd h hv
        · have := hs3.1 v h; omega
    · by_cases hlx : last = x
      · have hs4 : (last :: R).Sorted (fun a b => a ≥ b) :=
          List.pairwise_cons.mpr ⟨fun a ha => hs2.1 a (List.mem_cons_of_mem _ ha), hs3.2⟩
        obtain ⟨h1, h2⟩ := ih last hl hs4
        simp only [squeeze_spec, hx, ↓reduceIte, ne_eq, hlx, not_true_eq_false]
        rw [hlx] at h1 h2
        refine ⟨h1, fun v => ?_⟩
        rw [h2 v]; simp
      · obtain ⟨h1, h2⟩ := ih x hx hs2.2
        simp only [squeeze_spec, hx, ↓reduceIte, ne_eq, hlx, not_false_eq_true]
        have h1c := List.pairwise_cons.mp h1
        refine ⟨List.pairwise_cons.mpr ⟨?_, h1⟩, fun v => ?_⟩
        · intro a ha
          rcases List.mem_cons.mp ha with h | h
          · omega
          · have := h1c.1 a h; omega
        · rw [List.mem_cons, h2 v, List.mem_cons (a := v) (b := last)]
          constructor
          · rintro (h | h)
            · exact ⟨Or.inl h, h ▸ hl⟩
            · exact ⟨Or.inr h.1, h.2⟩
          · rintro ⟨h | h, hv⟩
            · exact Or.inl h
            · exact Or.inr ⟨h, hv⟩

theorem squeeze_spec_fixed (R : List Nat) :
    ∀ last : Nat, (last :: R).Pairwise (fun a b => a > b) → 0 ∉ R →
      squeeze_spec last R = R := by
  induction R with
  | nil => intro _ _ _; rfl
  | cons x R ih =>
    intro last hp hz
    have hp2 := List.pairwise_cons.mp hp
    have hx : x ≠ 0 := fun h => hz (h ▸ List.mem_cons_self _ _)
    have hlx : last ≠ x := by have := hp2.1 x (List.mem_cons_self _ _); omega
    simp only [squeeze_spec, hx, ↓reduceIte, ne_eq, hlx, not_false_eq_true]
    rw [ih x hp2.2 (fun h => hz (List.mem_cons_of_mem _ h))]

/-- What `validate_plateaus` gives for a list whose first `count` entries, sorted largest
first, are `s0 :: rest` with `s0` nonzero. -/
theorem validate_plateaus_eq (plateaus : mtu_plateaus) (s0 : Nat) (rest : List Nat)
    (hsort : (plateaus.values.take plateaus.count).insertionSort (fun a b => a ≥ b)
      = s0 :: rest)
    (hcount : plateaus.count ≤ plateaus.values.length) (h0 : s0 ≠ 0) :
    ∃ G2 : List Nat,
      validate_plateaus plateaus
        = (0, { values := s0 :: (squeeze_spec s0 rest
                  ++ (G2 ++ plateaus.values.drop plateaus.count)),
                count := (squeeze_spec s0 rest).length + 1 }) ∧
      G2.length + (squeeze_spec s0 rest).length = rest.length := by
  have hlen : rest.length + 1 = plateaus.count := by
    have := congrArg List.length hsort
    rw [List.length_insertionSort, List.length_take] at this
    simp at this; omega
  obtain ⟨G2, h1, h2⟩ := plateaus_squeeze_eq rest [] [] (plateaus.values.drop plateaus.count)
    s0 plateaus.count plateaus.count 0 1 (s0 :: (rest ++ plateaus.values.drop plateaus.count))
    rfl rfl (by omega) rfl (by omega)
  refine ⟨G2, ?_, by simpa using h2⟩
  unfold validate_plateaus
  simp only [sort_u16_eq, hsort, List.cons_append, h1, List.nil_append, List.getD_cons_zero,
    h0, ↓reduceIte, zero_add]


/-- C16. For every plateau list that holds a nonzero value among its `count` entries,
`validate_plateaus` succeeds; the entries `values[0..count-1]` of the result are strictly
decreasing, none is zero, and they are exactly the nonzero values of the input; the array
keeps its size; and `validate_plateaus` applied to the result succeeds and leaves it as it
is. -/
theorem validate_plateaus_spec (plateaus : mtu_plateaus)
    (hcount : plateaus.count ≤ plateaus.values.length)
    (hnz : ∃ v ∈ plateaus.values.take plateaus.count, v ≠ 0) :
    ∃ result : mtu_plateaus,
      validate_plateaus plateaus = (0, result) ∧
      (result.values.take result.count).Pairwise (fun a b => a > b) ∧
      0 ∉ result.values.take result.count ∧
      (∀ v, v ∈ result.values.take result.count
        ↔ v ∈ plateaus.values.take plateaus.count ∧ v ≠ 0) ∧
      1 ≤ result.count ∧ result.count ≤ plateaus.count ∧
      result.values.length = plateaus.values.length ∧
      validate_plateaus result = (0, result) := by
  obtain ⟨w, hw, hw0⟩ := hnz
  have hperm := List.perm_insertionSort (fun a b : Nat => a ≥ b)
    (plateaus.values.take plateaus.count)
  have hsorted := List.sorted_insertionSort (fun a b : Nat => a ≥ b)
    (plateaus.values.take plateaus.count)
  have hwS := hperm.symm.subset hw
  cases hS : (plateaus.values.take plateaus.count).insertionSort (fun a b => a ≥ b) with
  | nil => rw [hS] at hwS; exact absurd hwS (List.not_mem_nil _)
  | cons s0 rest =>
    rw [hS] at hsorted hwS hperm
    have hlen : rest.length + 1 = plateaus.count := by
      have := hperm.length_eq
      rw [List.length_take] at this
      simp at this; omega
    have hs0 : s0 ≠ 0 := by
      rcases List.mem_cons.mp hwS with h | h
      · exact h ▸ hw0
      · have := (List.pairwise_cons.mp hsorted).1 w h; omega
    obtain ⟨G2, hv, hG2⟩ := validate_plateaus_eq plateaus s0 rest hS hcount hs0
    obtain ⟨hpair, hmem⟩ := squeeze_spec_sorted rest s0 hs0 hsorted
    have htake : (s0 :: (squeeze_spec s0 rest
        ++ (G2 ++ plateaus.values.drop plateaus.count))).take
          ((squeeze_spec s0 rest).length + 1) = s0 :: squeeze_spec s0 rest := by
      rw [List.take_succ_cons, List.take_left]
    have hdrop : (s0 :: (squeeze_spec s0 rest
        ++ (G2 ++ plateaus.values.drop plateaus.count))).drop
          ((squeeze_spec s0 rest).length + 1) = G2 ++ plateaus.values.drop plateaus.count := by
      rw [List.drop_succ_cons, List.drop_left]
    refine ⟨_, hv, ?_, ?_, ?_, ?_, ?_, ?_, ?_⟩
    · simp only [htake]; exact hpair
    · simp only [htake]
      intro h
      exact ((hmem 0).mp h).2 rfl
    · intro v
      simp only [htake]
      rw [hmem v]
      constructor
      · rintro ⟨h, hv0⟩; exact ⟨hperm.subset h, hv0⟩
      · rintro ⟨h, hv0⟩; exact ⟨hperm.symm.subset h, hv0⟩
    · simp
    · simp only; omega
    · simp only [List.length_cons, List.length_append, List.length_drop]; omega
    · have hsortedR : (s0 :: squeeze_spec s0 rest).Sorted (fun a b => a ≥ b) :=
        hpair.imp (fun h => Nat.le_of_lt h)
      have h0R : 0 ∉ squeeze_spec s0 rest := by
        intro h
        exact ((hmem 0).mp (List.mem_cons_of_mem _ h)).2 rfl
      obtain ⟨G3, hv3, hG3⟩ := validate_plateaus_eq
        { values := s0 :: (squeeze_spec s0 rest
            ++ (G2 ++ plateaus.values.drop plateaus.count)),
          count := (squeeze_spec s0 rest).length + 1 }
        s0 (squeeze_spec s0 rest)
        (by simp only [htake]; exact hsortedR.insertionSort_eq)
        (by simp) hs0
      rw [squeeze_spec_fixed _ _ hpair h0R] at hv3 hG3
      have hG3nil : G3 = [] := List.eq_nil_of_length_eq_zero (by omega)
      rw [hv3]
      simp only [hdrop, hG3nil, List.nil_append]

/-- C16, on the list of the example: 1500, 0, 1492, 1500, 576 becomes 1500, 1492, 576. -/
theorem validate_plateaus_spec_witness :
    (∃ result : mtu_plateaus,
      validate_plateaus { values := [1500, 0, 1492, 1500, 576], count := 5 } = (0, result) ∧
      (result.values.take result.count).Pairwise (fun a b => a > b) ∧
      0 ∉ result.values.take result.count ∧
      (∀ v, v ∈ result.values.take result.count
        ↔ v ∈ [1500, 0, 1492, 1500, 576] ∧ v ≠ 0) ∧
      1 ≤ result.count ∧ result.count ≤ 5 ∧
      result.values.length = 5 ∧
      validate_plateaus result = (0, result)) ∧
    validate_plateaus { values := [1500, 0, 1492, 1500, 576], count := 5 }
      = (0, { values := [1500, 1492, 576, 576, 0], count := 3 }) ∧
    ({ values := [1500, 1492, 576, 576, 0], count := 3 } : mtu_plateaus).values.take 3
      = [1500, 1492, 576] :=
  ⟨validate_plateaus_spec { values := [1500, 0, 1492, 1500, 576], count := 5 } (by decide)
      ⟨1500, by decide, by decide⟩,
    by decide, by decide⟩

/-- C17. A plateau list with no children at all: `jnla_get_plateaus` sets the count to 0, the
sort and the loop of `validate_plateaus` do nothing, and the test of `values[0]` reads what
the output structure held before the call. When that entry is zero the call fails; when it
is not, the call succeeds with a count of 1 and that old entry as the only plateau, a value
that is not among the children. -/
theorem jnla_get_plateaus_no_children (K : jool_headers) (root : nlattr) (out : mtu_plateaus)
    (hroot : root.nested = []) :
    jnla_get_plateaus K (some root) out
      = if out.values.getD 0 0 = 0 then some (jnls_err, { values := out.values, count := 0 })
        else some (0, { values := out.values, count := 1 }) := by
  unfold jnla_get_plateaus
  simp only [hroot, nla_validate, ne_eq, not_true_eq_false, ↓reduceIte, plateaus_fill,
    on_success, validate_plateaus, sort_u16, List.take_zero, List.insertionSort,
    List.nil_append, List.drop_zero, plateaus_squeeze, zero_add]
  split_ifs <;> rfl

/-- C17, on a concrete call: an empty container read into a structure that holds the
plateaus 1500, 1492, 576 succeeds with the single plateau 1500. -/
theorem jnla_get_plateaus_no_children_witness :
    (nlattr.mk 4 1 [] []).nested = [] ∧
    jnla_get_plateaus example_headers (some (nlattr.mk 4 1 [] []))
        { values := [1500, 1492, 576], count := 3 }
      = some (0, { values := [1500, 1492, 576], count := 1 }) :=
  ⟨rfl, (jnla_get_plateaus_no_children example_headers (nlattr.mk 4 1 [] [])
    { values := [1500, 1492, 576], count := 3 } rfl).trans (by decide)⟩

/-! ### Mapping rules -/

/-- C18. A mapping rule attribute that passes its policy and carries a PREFIX6 and a PREFIX4
that read as valid prefixes `p6` and `p4` (with `p4.len <= 32` and `p6.len <= 128`), an
EA-bits length `o` (a u8) and `a` (the attribute, or 6 when it is absent):
`jnla_get_mapping_rule` returns with the rule filled in, and its code is 0 if and only if
`o <= 48`, `p6.len + o + sid_len <= 128` with `sid_len = max(0, 32 - p4.len - o)`, and, when
`o + p4.len > 32`, `a <= 16` and `a + k <= 16`, where `k` is the `unsigned int` that
`maprule_get_k` returns and the sum is the `unsigned int` sum; this is the plain sum whenever
`k + 16` fits an `unsigned int`. When `o + p4.len <= 32` neither `a` nor `k` is looked at. -/
theorem jnla_get_mapping_rule_spec (K : jool_headers) (attr prefix4_attr : nlattr)
    (_rule : config_mapping_rule) (p6 : ipv6_prefix) (p4 : ipv4_prefix) (o a : Nat)
    (hparse : nla_validate K.joolnl_mr_policy attr.nested = 0)
    (h4 : nla_table K.JNLAMR_MAX attr.nested K.JNLAMR_PREFIX4 = some prefix4_attr)
    (hp6 : jnla_get_prefix6 K (nla_table K.JNLAMR_MAX attr.nested K.JNLAMR_PREFIX6)
      _rule.rule.prefix6 = some (0, p6))
    (hp4 : jnla_get_prefix4 K (some prefix4_attr) _rule.rule.prefix4 = some (0, p4))
    (ho : jnla_get_u8 (nla_table K.JNLAMR_MAX attr.nested K.JNLAMR_EA_BITS_LENGTH)
      _rule.rule.o = some (0, o))
    (ha : get_optional (nla_table K.JNLAMR_MAX attr.nested K.JNLAMR_a) nla_get_u8 6 = some a)
    (hlen4 : p4.len ≤ 32) (hlen6 : p6.len ≤ 128) (ho8 : o < 256) :
    ∃ code : Int,
      jnla_get_mapping_rule K (some attr) _rule
        = some (code, { set := true, rule := { prefix6 := p6, prefix4 := p4, o := o, a := a } }) ∧
      (code = 0 ↔
        o ≤ 48 ∧ p6.len + o + (32 - p4.len - o) ≤ 128 ∧
        (o + p4.len > 32 → a ≤ 16 ∧
          (a + K.maprule_get_k { prefix6 := p6, prefix4 := p4, o := o, a := a } % 4294967296)
            % 4294967296 ≤ 16)) ∧
      (K.maprule_get_k { prefix6 := p6, prefix4 := p4, o := o, a := a } + 16 < 4294967296 →
        (code = 0 ↔
          o ≤ 48 ∧ p6.len + o + (32 - p4.len - o) ≤ 128 ∧
          (o + p4.len > 32 → a ≤ 16 ∧
            a + K.maprule_get_k { prefix6 := p6, prefix4 := p4, o := o, a := a } ≤ 16))) ∧
      (o + p4.len ≤ 32 → (code = 0 ↔ o ≤ 48 ∧ p6.len + o + (32 - p4.len - o) ≤ 128)) := by
  have hne : jnls_err ≠ 0 := by decide
  have hne2 : -EINVAL ≠ 0 := by decide
  unfold jnla_get_mapping_rule
  simp only [jnla_parse_nested, hparse, ne_eq, not_true_eq_false, ↓reduceIte, h4, hp6, hp4, ho,
    ha, on_success]
  generalize K.maprule_get_k { prefix6 := p6, prefix4 := p4, o := o, a := a } = k
  split_ifs with c1 c2 c3 c4 c5
  all_goals refine ⟨_, rfl, ?_, ?_, ?_⟩
  all_goals first
    | (intro _; simp only [hne, hne2, false_iff, true_iff]; omega)
    | (simp only [hne, hne2, false_iff, true_iff]; omega)

/-- C18, on the rule 2001:db8::/40, 192.0.2.0/24, o = 16, a = 6 (k = 8): the attribute
reads back as the rule with code 0. -/
theorem jnla_get_mapping_rule_spec_witness :
    jnla_get_mapping_rule example_headers (some example_rule_attr)
        { set := false, rule := { prefix6 := { addr := 0, len := 0 },
                                  prefix4 := { addr := 0, len := 0 }, o := 0, a := 0 } }
      = some (0, example_rule) := by
  obtain ⟨code, h, hiff, -, -⟩ := jnla_get_mapping_rule_spec example_headers example_rule_attr
    (nlattr.mk 20 2 [] [nlattr.mk 8 1 [192, 0, 2, 0] [], nlattr.mk 5 2 [24] []])
    { set := false, rule := { prefix6 := { addr := 0, len := 0 },
                              prefix4 := { addr := 0, len := 0 }, o := 0, a := 0 } }
    { addr := 0x20010db8000000000000000000000000, len := 40 }
    { addr := 0xc0000200, len := 24 } 16 6
    (by rfl) (by rfl) (by rfl) (by rfl) (by rfl) (by rfl) (by decide) (by decide) (by decide)
  have hcode : code = 0 := hiff.mpr (by decide)
  rw [h, hcode]
  rfl

/-! ### What the writers write -/

theorem followed_by_tailroom (before after : sk_buff) (attrs : List nlattr) (size : Nat)
    (h : sk_buff.followed_by before after attrs size) :
    after.tailroom = before.tailroom - size := by
  rw [h.2, append_list_tailroom]

theorem nla_put_writes_all (attrtype : Nat) (data : List Nat) :
    writes_all (fun s => nla_put s attrtype data)
      [nlattr.mk (NLA_HDRLEN + data.length) attrtype data []]
      (nla_total_size data.length) := by
  intro skb h
  simp only [nla_put, not_lt.mpr h, ↓reduceIte, append_eq_append_list, true_and]
  exact ⟨h, rfl⟩

theorem lor_puts_nil_writes : writes_all (lor_puts []) [] 0 :=
  fun skb _ => ⟨rfl, followed_by_refl skb⟩

theorem lor_puts_cons_writes (put : sk_buff → Int × sk_buff)
    (rest : List (sk_buff → Int × sk_buff)) (attr : nlattr) (attrs : List nlattr) (n m : Nat)
    (hput : writes_all put [attr] n) (hrest : writes_all (lor_puts rest) attrs m) :
    writes_all (lor_puts (put :: rest)) (attr :: attrs) (n + m) := by
  intro skb h
  obtain ⟨h0, hf⟩ := hput skb (by omega)
  have hroom := followed_by_tailroom _ _ _ _ hf
  obtain ⟨h1, hf1⟩ := hrest (put skb).2 (by omega)
  simp only [lor_puts, h0, ne_eq, not_true_eq_false, ↓reduceIte]
  exact ⟨h1, followed_by_trans _ _ _ _ _ _ _ hf hf1⟩

theorem seq_puts_nil_writes : writes_all (seq_puts []) [] 0 :=
  fun skb _ => ⟨rfl, followed_by_refl skb⟩

theorem seq_puts_cons_writes (put : sk_buff → Int × sk_buff)
    (rest : List (sk_buff → Int × sk_buff)) (attr : nlattr) (attrs : List nlattr) (n m : Nat)
    (hput : writes_all put [attr] n) (hrest : writes_all (seq_puts rest) attrs m) :
    writes_all (seq_puts (put :: rest)) (attr :: attrs) (n + m) := by
  intro skb h
  obtain ⟨h0, hf⟩ := hput skb (by omega)
  have hroom := followed_by_tailroom _ _ _ _ hf
  obtain ⟨h1, hf1⟩ := hrest (put skb).2 (by omega)
  simp only [seq_puts, h0, ne_eq, not_true_eq_false, ↓reduceIte]
  exact ⟨h1, followed_by_trans _ _ _ _ _ _ _ hf hf1⟩

theorem nest_start_some (skb : sk_buff) (attrtype : Nat) (h : 4 ≤ skb.tailroom) :
    ∃ root : sk_buff, nla_nest_start skb attrtype = some root ∧
      root.tailroom = skb.tailroom - 4 := by
  have h4 : nla_total_size 0 = 4 := rfl
  unfold nla_nest_start
  simp only [h4, not_lt.mpr h, ↓reduceIte]
  exact ⟨_, rfl, rfl⟩

/-- A writer that opens a container, runs `children` in it and closes it when they return
0 writes the container of what `children` write. -/
theorem nest_writes (attrtype : Nat) (children put : sk_buff → Int × sk_buff)
    (finish : Int × sk_buff → Int × sk_buff) (attrs : List nlattr) (m : Nat)
    (hchildren : writes_all children attrs m)
    (hfinish : ∀ r : Int × sk_buff, r.1 = 0 → finish r = (0, nla_nest_end r.2))
    (hput : ∀ skb root : sk_buff, nla_nest_start skb attrtype = some root →
      put skb = finish (children root)) :
    writes_all put [nlattr.mk (4 + m) attrtype [] attrs] (4 + m) := by
  intro skb h
  obtain ⟨root, hstart, hroom⟩ := nest_start_some skb attrtype (by omega)
  obtain ⟨h0, hf⟩ := hchildren root (by omega)
  rw [hput skb root hstart, hfinish _ h0]
  exact ⟨rfl, nest_end_closes skb root attrtype _ attrs m hstart hf⟩

theorem nest_finish_zero (r : Int × sk_buff) (h : r.1 = 0) :
    nest_finish r = (0, nla_nest_end r.2) := by
  simp only [nest_finish, h, ne_eq, not_true_eq_false, ↓reduceIte]

theorem nla_put_u8_writes (attrtype value : Nat) :
    writes_all (fun s => nla_put_u8 s attrtype value) [encoded_u8 attrtype value] 8 := by
  have h := nla_put_writes_all attrtype [value % 256]
  have e1 : nla_total_size 1 = 8 := rfl
  have e2 : NLA_HDRLEN + 1 = 5 := rfl
  rw [List.length_singleton, e1, e2] at h
  exact h

theorem nla_put_u16_writes (K : jool_headers) (attrtype value : Nat) :
    writes_all (fun s => nla_put_u16 K s attrtype value) [encoded_u16 K attrtype value] 8 := by
  have h := nla_put_writes_all attrtype (host_bytes K.big_endian 2 value)
  have e1 : nla_total_size 2 = 8 := rfl
  have e2 : NLA_HDRLEN + 2 = 6 := rfl
  rw [host_bytes_length, e1, e2] at h
  exact h

theorem nla_put_u32_writes (K : jool_headers) (attrtype value : Nat) :
    writes_all (fun s => nla_put_u32 K s attrtype value) [encoded_u32 K attrtype value] 8 := by
  have h := nla_put_writes_all attrtype (host_bytes K.big_endian 4 value)
  have e1 : nla_total_size 4 = 8 := rfl
  have e2 : NLA_HDRLEN + 4 = 8 := rfl
  rw [host_bytes_length, e1, e2] at h
  exact h

theorem jnla_put_addr6_writes (attrtype addr : Nat) :
    writes_all (fun s => jnla_put_addr6 s attrtype addr) [encoded_addr6 attrtype addr] 20 := by
  have h := nla_put_writes_all attrtype (be_bytes 16 addr)
  have e1 : nla_total_size 16 = 20 := rfl
  have e2 : NLA_HDRLEN + 16 = 20 := rfl
  rw [be_bytes_length, e1, e2] at h
  exact h

theorem jnla_put_addr4_writes (attrtype addr : Nat) :
    writes_all (fun s => jnla_put_addr4 s attrtype addr) [encoded_addr4 attrtype addr] 8 := by
  have h := nla_put_writes_all attrtype (be_bytes 4 addr)
  have e1 : nla_total_size 4 = 8 := rfl
  have e2 : NLA_HDRLEN + 4 = 8 := rfl
  rw [be_bytes_length, e1, e2] at h
  exact h

theorem jnla_put_prefix6_writes (K : jool_headers) (attrtype : Nat) (p : ipv6_prefix) :
    writes_all (fun s => jnla_put_prefix6 K s attrtype (some p))
      [encoded_prefix6 K attrtype p] 32 :=
  nest_writes attrtype _ _ nest_finish _ 28
    (lor_puts_cons_writes _ _ _ _ 20 8 (jnla_put_addr6_writes K.JNLAP_ADDR p.addr)
      (lor_puts_cons_writes _ _ _ _ 8 0 (nla_put_u8_writes K.JNLAP_LEN p.len)
        lor_puts_nil_writes))
    nest_finish_zero (by intro skb root h; simp only [jnla_put_prefix6, h])

theorem jnla_put_prefix6_none_writes (K : jool_headers) (attrtype : Nat) :
    writes_all (fun s => jnla_put_prefix6 K s attrtype none)
      [nlattr.mk 12 attrtype [] [encoded_u8 K.JNLAP_LEN 0]] 12 :=
  nest_writes attrtype _ _ nest_finish _ 8 (nla_put_u8_writes K.JNLAP_LEN 0)
    nest_finish_zero (by intro skb root h; simp only [jnla_put_prefix6, h])

theorem jnla_put_prefix4_writes (K : jool_headers) (attrtype : Nat) (p : ipv4_prefix) :
    writes_all (fun s => jnla_put_prefix4 K s attrtype (some p))
      [encoded_prefix4 K attrtype p] 20 :=
  nest_writes attrtype _ _ nest_finish _ 16
    (lor_puts_cons_writes _ _ _ _ 8 8 (jnla_put_addr4_writes K.JNLAP_ADDR p.addr)
      (lor_puts_cons_writes _ _ _ _ 8 0 (nla_put_u8_writes K.JNLAP_LEN p.len)
        lor_puts_nil_writes))
    nest_finish_zero (by intro skb root h; simp only [jnla_put_prefix4, h])

theorem jnla_put_taddr6_writes (K : jool_headers) (attrtype : Nat)
    (taddr : ipv6_transport_addr) :
    writes_all (fun s => jnla_put_taddr6 K s attrtype taddr)
      [encoded_taddr6 K attrtype taddr] 32 :=
  nest_writes attrtype _ _ nest_finish _ 28
    (lor_puts_cons_writes _ _ _ _ 20 8 (jnla_put_addr6_writes K.JNLAT_ADDR taddr.l3)
      (lor_puts_cons_writes _ _ _ _ 8 0 (nla_put_u16_writes K K.JNLAT_PORT taddr.l4)
        lor_puts_nil_writes))
    nest_finish_zero (by intro skb root h; simp only [jnla_put_taddr6, h])

theorem jnla_put_taddr4_writes (K : jool_headers) (attrtype : Nat)
    (taddr : ipv4_transport_addr) :
    writes_all (fun s => jnla_put_taddr4 K s attrtype taddr)
      [encoded_taddr4 K attrtype taddr] 20 :=
  nest_writes attrtype _ _ nest_finish _ 16
    (lor_puts_cons_writes _ _ _ _ 8 8 (jnla_put_addr4_writes K.JNLAT_ADDR taddr.l3)
      (lor_puts_cons_writes _ _ _ _ 8 0 (nla_put_u16_writes K K.JNLAT_PORT taddr.l4)
        lor_puts_nil_writes))
    nest_finish_zero (by intro skb root h; simp only [jnla_put_taddr4, h])

theorem jnla_put_eam_writes (K : jool_headers) (attrtype : Nat) (eam : eamt_entry) :
    writes_all (fun s => jnla_put_eam K s attrtype eam) [encoded_eam K attrtype eam] 56 :=
  nest_writes attrtype _ _ nest_finish _ 52
    (lor_puts_cons_writes _ _ _ _ 32 20 (jnla_put_prefix6_writes K K.JNLAE_PREFIX6 eam.prefix6)
      (lor_puts_cons_writes _ _ _ _ 20 0
        (jnla_put_prefix4_writes K K.JNLAE_PREFIX4 eam.prefix4) lor_puts_nil_writes))
    nest_finish_zero (by intro skb root h; simp only [jnla_put_eam, h])

theorem jnla_put_pool4_writes (K : jool_headers) (attrtype : Nat) (entry : pool4_entry) :
    writes_all (fun s => jnla_put_pool4 K s attrtype entry)
      [encoded_pool4 K attrtype entry] 72 :=
  nest_writes attrtype _ _ nest_finish _ 68
    (lor_puts_cons_writes _ _ _ _ 8 60 (nla_put_u32_writes K K.JNLAP4_MARK entry.mark)
      (lor_puts_cons_writes _ _ _ _ 8 52
        (nla_put_u32_writes K K.JNLAP4_ITERATIONS entry.iterations)
        (lor_puts_cons_writes _ _ _ _ 8 44 (nla_put_u8_writes K.JNLAP4_FLAGS entry.flags)
          (lor_puts_cons_writes _ _ _ _ 8 36 (nla_put_u8_writes K.JNLAP4_PROTO entry.proto)
            (lor_puts_cons_writes _ _ _ _ 20 16
              (jnla_put_prefix4_writes K K.JNLAP4_PREFIX entry.range.prefix_)
              (lor_puts_cons_writes _ _ _ _ 8 8
                (nla_put_u16_writes K K.JNLAP4_PORT_MIN entry.range.ports.min)
                (lor_puts_cons_writes _ _ _ _ 8 0
                  (nla_put_u16_writes K K.JNLAP4_PORT_MAX entry.range.ports.max)
                  lor_puts_nil_writes)))))))
    nest_finish_zero (by intro skb root h; simp only [jnla_put_pool4, h])

theorem jnla_put_bib_writes (K : jool_headers) (attrtype : Nat) (bib : bib_entry) :
    writes_all (fun s => jnla_put_bib K s attrtype bib) [encoded_bib K attrtype bib] 72 :=
  nest_writes attrtype _ _
    (fun r => if r.1 ≠ 0 then (-EMSGSIZE, nla_nest_cancel r.2) else (0, nla_nest_end r.2))
    _ 68
    (lor_puts_cons_writes _ _ _ _ 32 36 (jnla_put_taddr6_writes K K.JNLAB_SRC6 bib.addr6)
      (lor_puts_cons_writes _ _ _ _ 20 16 (jnla_put_taddr4_writes K K.JNLAB_SRC4 bib.addr4)
        (lor_puts_cons_writes _ _ _ _ 8 8 (nla_put_u8_writes K.JNLAB_PROTO bib.l4_proto)
          (lor_puts_cons_writes _ _ _ _ 8 0
            (nla_put_u8_writes K.JNLAB_STATIC (if bib.is_static then 1 else 0))
            lor_puts_nil_writes))))
    (by intro r h; simp only [h, ne_eq, not_true_eq_false, ↓reduceIte])
    (by intro skb root h; simp only [jnla_put_bib, h])

theorem jnla_put_mapping_rule_writes (K : jool_headers) (attrtype : Nat)
    (rule : config_mapping_rule) :
    writes_all (fun s => jnla_put_mapping_rule K s attrtype rule)
      [encoded_mapping_rule K attrtype rule] (if rule.set then 72 else 16) := by
  cases hset : rule.set with
  | true =>
    have h := nest_writes attrtype _ (fun s => jnla_put_mapping_rule K s attrtype rule)
      nest_finish _ 68
      (seq_puts_cons_writes _ _ _ _ 32 36
        (jnla_put_prefix6_writes K K.JNLAMR_PREFIX6 rule.rule.prefix6)
        (seq_puts_cons_writes _ _ _ _ 20 16
          (jnla_put_prefix4_writes K K.JNLAMR_PREFIX4 rule.rule.prefix4)
          (seq_puts_cons_writes _ _ _ _ 8 8
            (nla_put_u8_writes K.JNLAMR_EA_BITS_LENGTH rule.rule.o)
            (seq_puts_cons_writes _ _ _ _ 8 0 (nla_put_u8_writes K.JNLAMR_a rule.rule.a)
              seq_puts_nil_writes))))
      nest_finish_zero (by intro skb root h; simp only [jnla_put_mapping_rule, h, hset, ↓reduceIte])
    simpa only [encoded_mapping_rule, hset, ↓reduceIte] using h
  | false =>
    have h := nest_writes attrtype _ (fun s => jnla_put_mapping_rule K s attrtype rule)
      nest_finish _ 12 (jnla_put_prefix6_none_writes K K.JNLAMR_PREFIX6)
      nest_finish_zero
      (by intro skb root h
          simp only [jnla_put_mapping_rule, h, hset, Bool.false_eq_true, ↓reduceIte])
    simpa only [encoded_mapping_rule, hset, Bool.false_eq_true, ↓reduceIte] using h

theorem seq_puts_u16_writes (K : jool_headers) (attrtype : Nat) (values : List Nat) :
    writes_all
      (seq_puts (values.map (fun value => fun s => nla_put_u16 K s attrtype value)))
      (values.map (encoded_u16 K attrtype)) (8 * values.length) := by
  induction values with
  | nil => exact seq_puts_nil_writes
  | cons v rest ih =>
    have h := seq_puts_cons_writes _ _ _ _ 8 (8 * rest.length)
      (nla_put_u16_writes K attrtype v) ih
    have e : 8 * (v :: rest).length = 8 + 8 * rest.length := by
      simp only [List.length_cons]; omega
    rw [e]
    exact h

theorem jnla_put_plateaus_writes (K : jool_headers) (attrtype : Nat) (plateaus : mtu_plateaus) :
    writes_all (fun s => jnla_put_plateaus K s attrtype plateaus)
      [encoded_plateaus K attrtype plateaus]
      (4 + 8 * (plateaus.values.take plateaus.count).length) :=
  nest_writes attrtype _ _ nest_finish _ _
    (seq_puts_u16_writes K K.JNLAL_ENTRY (plateaus.values.take plateaus.count))
    nest_finish_zero (by intro skb root h; simp only [jnla_put_plateaus, h])

/-! ### What the getters read from what the writers wrote -/

theorem filter_type_of_mem (children : List nlattr) :
    ∀ child : nlattr, (children.map nlattr.nla_type).Nodup → child ∈ children →
      children.filter (fun c => c.nla_type == child.nla_type) = [child] := by
  induction children with
  | nil => intro child _ hm; exact absurd hm (List.not_mem_nil _)
  | cons c rest ih =>
    intro child hn hm
    simp only [List.map_cons, List.nodup_cons, List.mem_map, not_exists, not_and] at hn
    rcases List.mem_cons.mp hm with h | h
    · subst h
      have hrest : rest.filter (fun c => c.nla_type == child.nla_type) = [] := by
        rw [List.filter_eq_nil_iff]
        intro a ha
        simpa using hn.1 a ha
      simp [List.filter_cons, hrest]
    · have hne : c.nla_type ≠ child.nla_type := fun e => hn.1 child h e.symm
      simp [List.filter_cons, hne, ih child hn.2 h]

theorem nla_table_of_mem (maxtype : Nat) (children : List nlattr)
    (hids : attr_ids_ok maxtype (children.map nlattr.nla_type)) (child : nlattr)
    (hm : child ∈ children) :
    nla_table maxtype children child.nla_type = some child := by
  have hb := hids.2 child.nla_type (List.mem_map_of_mem _ hm)
  unfold nla_table
  rw [if_pos hb, filter_type_of_mem children child hids.1 hm]
  rfl

theorem nla_table_absent (maxtype : Nat) (children : List nlattr) (type : Nat)
    (h : type ∉ children.map nlattr.nla_type) :
    nla_table maxtype children type = none := by
  unfold nla_table
  split_ifs
  · have : children.filter (fun c => c.nla_type == type) = [] := by
      rw [List.filter_eq_nil_iff]
      intro a ha
      have : a.nla_type ≠ type := fun e => h (e ▸ List.mem_map_of_mem _ ha)
      simpa using this
    rw [this]; rfl
  · rfl

theorem attr_ids_ok_sublist (maxtype : Nat) (ids sub : List Nat)
    (h : attr_ids_ok maxtype ids) (hs : sub.Sublist ids) : attr_ids_ok maxtype sub :=
  ⟨h.1.sublist hs, fun id hid => h.2 id (hs.subset hid)⟩

theorem nla_get_u8_encoded (attrtype value : Nat) (h : value < 256) :
    nla_get_u8 (encoded_u8 attrtype value) = some value := by
  simp [nla_get_u8, nla_read, encoded_u8, nlattr.data, be_value, Nat.mod_eq_of_lt h]

theorem nla_get_u16_encoded (K : jool_headers) (attrtype value : Nat) (h : value < 65536) :
    nla_get_u16 K (encoded_u16 K attrtype value) = some value := by
  have hl := host_bytes_length K.big_endian 2 value
  have ht : (host_bytes K.big_endian 2 value).take 2 = host_bytes K.big_endian 2 value :=
    List.take_of_length_le (by rw [hl])
  have hd : (encoded_u16 K attrtype value).data = host_bytes K.big_endian 2 value := rfl
  have hmod : value % 256 ^ 2 = value := Nat.mod_eq_of_lt (by norm_num; exact h)
  simp only [nla_get_u16, nla_read, hd, hl, le_refl, ↓reduceIte, Option.map_some', ht,
    host_value_host_bytes, hmod]

theorem nla_get_u32_encoded (K : jool_headers) (attrtype value : Nat)
    (h : value < 4294967296) :
    nla_get_u32 K (encoded_u32 K attrtype value) = some value := by
  have hl := host_bytes_length K.big_endian 4 value
  have ht : (host_bytes K.big_endian 4 value).take 4 = host_bytes K.big_endian 4 value :=
    List.take_of_length_le (by rw [hl])
  have hd : (encoded_u32 K attrtype value).data = host_bytes K.big_endian 4 value := rfl
  have hmod : value % 256 ^ 4 = value := Nat.mod_eq_of_lt (by norm_num; exact h)
  simp only [nla_get_u32, nla_read, hd, hl, le_refl, ↓reduceIte, Option.map_some', ht,
    host_value_host_bytes, hmod]

theorem jnla_get_addr6_encoded (K : jool_headers) (hlong : 32 ≤ K.BITS_PER_LONG)
    (attrtype addr out : Nat) (h : addr < 2 ^ 128) :
    jnla_get_addr6 K (some (encoded_addr6 attrtype addr)) out = some (0, addr) := by
  have hl := be_bytes_length 16 addr
  have ht : (be_bytes 16 addr).take 16 = be_bytes 16 addr :=
    List.take_of_length_le (by rw [hl])
  have hd : (encoded_addr6 attrtype addr).data = be_bytes 16 addr := rfl
  have hlen : nla_len (encoded_addr6 attrtype addr) = ((16 : Nat) : Int) := by rfl
  have hu := ulong_of_small K hlong 16 (by norm_num)
  have hmod : addr % 256 ^ 16 = addr := Nat.mod_eq_of_lt (by norm_num at h ⊢; exact h)
  simp only [jnla_get_addr6, validate_len, hlen, hu, lt_irrefl, ↓reduceIte, ne_eq,
    not_true_eq_false, nla_read, hd, hl, le_refl, Option.map_some', ht, be_value_be_bytes,
    hmod]

theorem jnla_get_addr4_encoded (K : jool_headers) (hlong : 32 ≤ K.BITS_PER_LONG)
    (attrtype addr out : Nat) (h : addr < 2 ^ 32) :
    jnla_get_addr4 K (some (encoded_addr4 attrtype addr)) out = some (0, addr) := by
  have hl := be_bytes_length 4 addr
  have ht : (be_bytes 4 addr).take 4 = be_bytes 4 addr :=
    List.take_of_length_le (by rw [hl])
  have hd : (encoded_addr4 attrtype addr).data = be_bytes 4 addr := rfl
  have hlen : nla_len (encoded_addr4 attrtype addr) = ((4 : Nat) : Int) := by rfl
  have hu := ulong_of_small K hlong 4 (by norm_num)
  have hmod : addr % 256 ^ 4 = addr := Nat.mod_eq_of_lt (by norm_num at h ⊢; exact h)
  simp only [jnla_get_addr4, validate_len, hlen, hu, lt_irrefl, ↓reduceIte, ne_eq,
    not_true_eq_false, nla_read, hd, hl, le_refl, Option.map_some', ht, be_value_be_bytes,
    hmod]

theorem jnla_get_prefix6_encoded (K : jool_headers) (hK : K.ids_ok)
    (hlong : 32 ≤ K.BITS_PER_LONG) (attrtype : Nat) (p out : ipv6_prefix)
    (haddr : p.addr < 2 ^ 128) (hlen : p.len < 256) (hvalid : K.prefix6_validate p = 0)
    (hpol : policy_accepts K.joolnl_prefix6_policy (encoded_prefix6 K attrtype p)) :
    jnla_get_prefix6 K (some (encoded_prefix6 K attrtype p)) out = some (0, p) := by
  have hn : (encoded_prefix6 K attrtype p).nested
      = [encoded_addr6 K.JNLAP_ADDR p.addr, encoded_u8 K.JNLAP_LEN p.len] := rfl
  have hpol2 : nla_validate K.joolnl_prefix6_policy
      [encoded_addr6 K.JNLAP_ADDR p.addr, encoded_u8 K.JNLAP_LEN p.len] = 0 := hpol
  have hids : attr_ids_ok K.JNLAP_MAX
      ([encoded_addr6 K.JNLAP_ADDR p.addr, encoded_u8 K.JNLAP_LEN p.len].map
        nlattr.nla_type) := hK.1
  have t1 : nla_table K.JNLAP_MAX
      [encoded_addr6 K.JNLAP_ADDR p.addr, encoded_u8 K.JNLAP_LEN p.len] K.JNLAP_ADDR
      = some (encoded_addr6 K.JNLAP_ADDR p.addr) :=
    nla_table_of_mem _ _ hids (encoded_addr6 K.JNLAP_ADDR p.addr) (by simp)
  have t2 : nla_table K.JNLAP_MAX
      [encoded_addr6 K.JNLAP_ADDR p.addr, encoded_u8 K.JNLAP_LEN p.len] K.JNLAP_LEN
      = some (encoded_u8 K.JNLAP_LEN p.len) :=
    nla_table_of_mem _ _ hids (encoded_u8 K.JNLAP_LEN p.len) (by simp)
  have hp : ({ addr := p.addr, len := p.len } : ipv6_prefix) = p := rfl
  simp only [jnla_get_prefix6, jnla_get_prefix6_optional, jnla_parse_nested, hn, hpol2, t1, t2,
    on_success, jnla_get_addr6_encoded K hlong _ _ _ haddr, nla_get_u8_encoded _ _ hlen, hp,
    hvalid, ne_eq, not_true_eq_false, ↓reduceIte, Bool.not_true, Bool.false_eq_true]

theorem jnla_get_prefix4_encoded (K : jool_headers) (hK : K.ids_ok)
    (hlong : 32 ≤ K.BITS_PER_LONG) (attrtype : Nat) (p out : ipv4_prefix)
    (haddr : p.addr < 2 ^ 32) (hlen : p.len < 256) (hvalid : K.prefix4_validate p = 0)
    (hpol : policy_accepts K.joolnl_prefix4_policy (encoded_prefix4 K attrtype p)) :
    jnla_get_prefix4 K (some (encoded_prefix4 K attrtype p)) out = some (0, p) := by
  have hn : (encoded_prefix4 K attrtype p).nested
      = [encoded_addr4 K.JNLAP_ADDR p.addr, encoded_u8 K.JNLAP_LEN p.len] := rfl
  have hpol2 : nla_validate K.joolnl_prefix4_policy
      [encoded_addr4 K.JNLAP_ADDR p.addr, encoded_u8 K.JNLAP_LEN p.len] = 0 := hpol
  have hids : attr_ids_ok K.JNLAP_MAX
      ([encoded_addr4 K.JNLAP_ADDR p.addr, encoded_u8 K.JNLAP_LEN p.len].map
        nlattr.nla_type) := hK.1
  have t1 : nla_table K.JNLAP_MAX
      [encoded_addr4 K.JNLAP_ADDR p.addr, encoded_u8 K.JNLAP_LEN p.len] K.JNLAP_ADDR
      = some (encoded_addr4 K.JNLAP_ADDR p.addr) :=
    nla_table_of_mem _ _ hids (encoded_addr4 K.JNLAP_ADDR p.addr) (by simp)
  have t2 : nla_table K.JNLAP_MAX
      [encoded_addr4 K.JNLAP_ADDR p.addr, encoded_u8 K.JNLAP_LEN p.len] K.JNLAP_LEN
      = some (encoded_u8 K.JNLAP_LEN p.len) :=
    nla_table_of_mem _ _ hids (encoded_u8 K.JNLAP_LEN p.len) (by simp)
  have hp : ({ addr := p.addr, len := p.len } : ipv4_prefix) = p := rfl
  simp only [jnla_get_prefix4, jnla_get_prefix4_optional, jnla_parse_nested, hn, hpol2, t1, t2,
    on_success, jnla_get_addr4_encoded K hlong _ _ _ haddr, nla_get_u8_encoded _ _ hlen, hp,
    hvalid, ne_eq, not_true_eq_false, ↓reduceIte, Bool.not_true, Bool.false_eq_true]

theorem jnla_get_taddr6_encoded (K : jool_headers) (hK : K.ids_ok)
    (hlong : 32 ≤ K.BITS_PER_LONG) (attrtype : Nat) (taddr out : ipv6_transport_addr)
    (hl3 : taddr.l3 < 2 ^ 128) (hl4 : taddr.l4 < 65536)
    (hpol : policy_accepts K.joolnl_taddr6_policy (encoded_taddr6 K attrtype taddr)) :
    jnla_get_taddr6 K (some (encoded_taddr6 K attrtype taddr)) out = some (0, taddr) := by
  have hn : (encoded_taddr6 K attrtype taddr).nested
      = [encoded_addr6 K.JNLAT_ADDR taddr.l3, encoded_u16 K K.JNLAT_PORT taddr.l4] := rfl
  have hpol2 : nla_validate K.joolnl_taddr6_policy
      [encoded_addr6 K.JNLAT_ADDR taddr.l3, encoded_u16 K K.JNLAT_PORT taddr.l4] = 0 := hpol
  have hids : attr_ids_ok K.JNLAT_MAX
      ([encoded_addr6 K.JNLAT_ADDR taddr.l3, encoded_u16 K K.JNLAT_PORT taddr.l4].map
        nlattr.nla_type) := hK.2.1
  have t1 : nla_table K.JNLAT_MAX
      [encoded_addr6 K.JNLAT_ADDR taddr.l3, encoded_u16 K K.JNLAT_PORT taddr.l4] K.JNLAT_ADDR
      = some (encoded_addr6 K.JNLAT_ADDR taddr.l3) :=
    nla_table_of_mem _ _ hids (encoded_addr6 K.JNLAT_ADDR taddr.l3) (by simp)
  have t2 : nla_table K.JNLAT_MAX
      [encoded_addr6 K.JNLAT_ADDR taddr.l3, encoded_u16 K K.JNLAT_PORT taddr.l4] K.JNLAT_PORT
      = some (encoded_u16 K K.JNLAT_PORT taddr.l4) :=
    nla_table_of_mem _ _ hids (encoded_u16 K K.JNLAT_PORT taddr.l4) (by simp)
  have hp : ({ l3 := taddr.l3, l4 := taddr.l4 } : ipv6_transport_addr) = taddr := rfl
  simp only [jnla_get_taddr6, jnla_parse_nested, hn, hpol2, t1, t2, on_success,
    jnla_get_addr6_encoded K hlong _ _ _ hl3, jnla_get_port, nla_get_u16_encoded K _ _ hl4, hp,
    Option.map_some', ne_eq, not_true_eq_false, ↓reduceIte]

theorem jnla_get_taddr4_encoded (K : jool_headers) (hK : K.ids_ok)
    (hlong : 32 ≤ K.BITS_PER_LONG) (attrtype : Nat) (taddr out : ipv4_transport_addr)
    (hl3 : taddr.l3 < 2 ^ 32) (hl4 : taddr.l4 < 65536)
    (hpol : policy_accepts K.joolnl_taddr4_policy (encoded_taddr4 K attrtype taddr)) :
    jnla_get_taddr4 K (some (encoded_taddr4 K attrtype taddr)) out = some (0, taddr) := by
  have hn : (encoded_taddr4 K attrtype taddr).nested
      = [encoded_addr4 K.JNLAT_ADDR taddr.l3, encoded_u16 K K.JNLAT_PORT taddr.l4] := rfl
  have hpol2 : nla_validate K.joolnl_taddr4_policy
      [encoded_addr4 K.JNLAT_ADDR taddr.l3, encoded_u16 K K.JNLAT_PORT taddr.l4] = 0 := hpol
  have hids : attr_ids_ok K.JNLAT_MAX
      ([encoded_addr4 K.JNLAT_ADDR taddr.l3, encoded_u16 K K.JNLAT_PORT taddr.l4].map
        nlattr.nla_type) := hK.2.1
  have t1 : nla_table K.JNLAT_MAX
      [encoded_addr4 K.JNLAT_ADDR taddr.l3, encoded_u16 K K.JNLAT_PORT taddr.l4] K.JNLAT_ADDR
      = some (encoded_addr4 K.JNLAT_ADDR taddr.l3) :=
    nla_table_of_mem _ _ hids (encoded_addr4 K.JNLAT_ADDR taddr.l3) (by simp)
  have t2 : nla_table K.JNLAT_MAX
      [encoded_addr4 K.JNLAT_ADDR taddr.l3, encoded_u16 K K.JNLAT_PORT taddr.l4] K.JNLAT_PORT
      = some (encoded_u16 K K.JNLAT_PORT taddr.l4) :=
    nla_table_of_mem _ _ hids (encoded_u16 K K.JNLAT_PORT taddr.l4) (by simp)
  have hp : ({ l3 := taddr.l3, l4 := taddr.l4 } : ipv4_transport_addr) = taddr := rfl
  simp only [jnla_get_taddr4, jnla_parse_nested, hn, hpol2, t1, t2, on_success,
    jnla_get_addr4_encoded K hlong _ _ _ hl3, jnla_get_port, nla_get_u16_encoded K _ _ hl4, hp,
    Option.map_some', ne_eq, not_true_eq_false, ↓reduceIte]

theorem jnla_get_eam_encoded (K : jool_headers) (hK : K.ids_ok)
    (hlong : 32 ≤ K.BITS_PER_LONG) (attrtype : Nat) (eam out : eamt_entry)
    (hwf : eam.well_formed K)
    (hpol : policy_accepts K.joolnl_eam_policy (encoded_eam K attrtype eam))
    (hpol6 : policy_accepts K.joolnl_prefix6_policy
      (encoded_prefix6 K K.JNLAE_PREFIX6 eam.prefix6))
    (hpol4 : policy_accepts K.joolnl_prefix4_policy
      (encoded_prefix4 K K.JNLAE_PREFIX4 eam.prefix4)) :
    jnla_get_eam K (some (encoded_eam K attrtype eam)) out = some (0, eam) := by
  have hn : (encoded_eam K attrtype eam).nested
      = [encoded_prefix6 K K.JNLAE_PREFIX6 eam.prefix6,
         encoded_prefix4 K K.JNLAE_PREFIX4 eam.prefix4] := rfl
  have hpol2 : nla_validate K.joolnl_eam_policy
      [encoded_prefix6 K K.JNLAE_PREFIX6 eam.prefix6,
       encoded_prefix4 K K.JNLAE_PREFIX4 eam.prefix4] = 0 := hpol
  have hids : attr_ids_ok K.JNLAE_MAX
      ([encoded_prefix6 K K.JNLAE_PREFIX6 eam.prefix6,
        encoded_prefix4 K K.JNLAE_PREFIX4 eam.prefix4].map nlattr.nla_type) := hK.2.2.1
  have t1 : nla_table K.JNLAE_MAX
      [encoded_prefix6 K K.JNLAE_PREFIX6 eam.prefix6,
       encoded_prefix4 K K.JNLAE_PREFIX4 eam.prefix4] K.JNLAE_PREFIX6
      = some (encoded_prefix6 K K.JNLAE_PREFIX6 eam.prefix6) :=
    nla_table_of_mem _ _ hids (encoded_prefix6 K K.JNLAE_PREFIX6 eam.prefix6) (by simp)
  have t2 : nla_table K.JNLAE_MAX
      [encoded_prefix6 K K.JNLAE_PREFIX6 eam.prefix6,
       encoded_prefix4 K K.JNLAE_PREFIX4 eam.prefix4] K.JNLAE_PREFIX4
      = some (encoded_prefix4 K K.JNLAE_PREFIX4 eam.prefix4) :=
    nla_table_of_mem _ _ hids (encoded_prefix4 K K.JNLAE_PREFIX4 eam.prefix4) (by simp)
  have hp : ({ prefix6 := eam.prefix6, prefix4 := eam.prefix4 } : eamt_entry) = eam := rfl
  simp only [jnla_get_eam, jnla_parse_nested, hn, hpol2, t1, t2, on_success,
    jnla_get_prefix6_encoded K hK hlong _ _ _ hwf.1.1 hwf.1.2.1 hwf.1.2.2 hpol6,
    jnla_get_prefix4_encoded K hK hlong _ _ _ hwf.2.1 hwf.2.2.1 hwf.2.2.2 hpol4, hp,
    ne_eq, not_true_eq_false, ↓reduceIte]

theorem jnla_get_bib_encoded (K : jool_headers) (hK : K.ids_ok)
    (hlong : 32 ≤ K.BITS_PER_LONG) (attrtype : Nat) (bib out : bib_entry)
    (hwf : bib.well_formed)
    (hpol : policy_accepts K.joolnl_bib_entry_policy (encoded_bib K attrtype bib))
    (hpol6 : policy_accepts K.joolnl_taddr6_policy (encoded_taddr6 K K.JNLAB_SRC6 bib.addr6))
    (hpol4 : policy_accepts K.joolnl_taddr4_policy (encoded_taddr4 K K.JNLAB_SRC4 bib.addr4)) :
    jnla_get_bib K (some (encoded_bib K attrtype bib)) out = some (0, bib) := by
  have hn : (encoded_bib K attrtype bib).nested
      = [encoded_taddr6 K K.JNLAB_SRC6 bib.addr6, encoded_taddr4 K K.JNLAB_SRC4 bib.addr4,
         encoded_u8 K.JNLAB_PROTO bib.l4_proto,
         encoded_u8 K.JNLAB_STATIC (if bib.is_static then 1 else 0)] := rfl
  have hpol2 : nla_validate K.joolnl_bib_entry_policy
      [encoded_taddr6 K K.JNLAB_SRC6 bib.addr6, encoded_taddr4 K K.JNLAB_SRC4 bib.addr4,
       encoded_u8 K.JNLAB_PROTO bib.l4_proto,
       encoded_u8 K.JNLAB_STATIC (if bib.is_static then 1 else 0)] = 0 := hpol
  have hids : attr_ids_ok K.JNLAB_MAX
      ([encoded_taddr6 K K.JNLAB_SRC6 bib.addr6, encoded_taddr4 K K.JNLAB_SRC4 bib.addr4,
        encoded_u8 K.JNLAB_PROTO bib.l4_proto,
        encoded_u8 K.JNLAB_STATIC (if bib.is_static then 1 else 0)].map nlattr.nla_type) :=
    hK.2.2.2.2.1
  have t1 := nla_table_of_mem _ _ hids (encoded_taddr6 K K.JNLAB_SRC6 bib.addr6) (by simp)
  have t2 := nla_table_of_mem _ _ hids (encoded_taddr4 K K.JNLAB_SRC4 bib.addr4) (by simp)
  have t3 := nla_table_of_mem _ _ hids (encoded_u8 K.JNLAB_PROTO bib.l4_proto) (by simp)
  have t4 := nla_table_of_mem _ _ hids
    (encoded_u8 K.JNLAB_STATIC (if bib.is_static then 1 else 0)) (by simp)
  have e1 : (encoded_taddr6 K K.JNLAB_SRC6 bib.addr6).nla_type = K.JNLAB_SRC6 := rfl
  have e2 : (encoded_taddr4 K K.JNLAB_SRC4 bib.addr4).nla_type = K.JNLAB_SRC4 := rfl
  have e3 : (encoded_u8 K.JNLAB_PROTO bib.l4_proto).nla_type = K.JNLAB_PROTO := rfl
  have e4 : (encoded_u8 K.JNLAB_STATIC (if bib.is_static then 1 else 0)).nla_type
      = K.JNLAB_STATIC := rfl
  rw [e1] at t1
  rw [e2] at t2
  rw [e3] at t3
  rw [e4] at t4
  have hs : (if bib.is_static then 1 else 0) < 256 := by split_ifs <;> norm_num
  have hd : decide ((if bib.is_static then 1 else 0) ≠ 0) = bib.is_static := by
    cases bib.is_static <;> simp
  have hp : bib_entry.mk bib.addr6 bib.addr4 bib.l4_proto bib.is_static = bib := rfl
  simp only [jnla_get_bib, jnla_parse_nested, hn, hpol2, t1, t2, t3, t4, on_success,
    jnla_get_taddr6_encoded K hK hlong _ _ _ hwf.1.1 hwf.1.2 hpol6,
    jnla_get_taddr4_encoded K hK hlong _ _ _ hwf.2.1.1 hwf.2.1.2 hpol4,
    jnla_get_u8, nla_get_u8_encoded _ _ hwf.2.2, nla_get_u8_encoded _ _ hs, hd,
    bib_entry_zero, hp, Option.map_some', ne_eq, not_true_eq_false, ↓reduceIte]

theorem jnla_get_pool4_encoded (K : jool_headers) (hK : K.ids_ok)
    (hlong : 32 ≤ K.BITS_PER_LONG) (attrtype : Nat) (entry out : pool4_entry)
    (hwf : entry.well_formed K)
    (hpol : policy_accepts K.joolnl_pool4_entry_policy (encoded_pool4 K attrtype entry))
    (hpol4 : policy_accepts K.joolnl_prefix4_policy
      (encoded_prefix4 K K.JNLAP4_PREFIX entry.range.prefix_)) :
    jnla_get_pool4 K (some (encoded_pool4 K attrtype entry)) out = some (0, entry) := by
  obtain ⟨mark, iterations, flags, proto, ⟨pfx, ⟨pmin, pmax⟩⟩⟩ := entry
  obtain ⟨hmark, hiter, hflags, hproto, hpfx, hmin, hmax⟩ := hwf
  simp only at hmark hiter hflags hproto hpfx hmin hmax hpol4
  have hn : (encoded_pool4 K attrtype
      (pool4_entry.mk mark iterations flags proto
        (ipv4_range.mk pfx (port_range.mk pmin pmax)))).nested
      = [encoded_u32 K K.JNLAP4_MARK mark, encoded_u32 K K.JNLAP4_ITERATIONS iterations,
         encoded_u8 K.JNLAP4_FLAGS flags, encoded_u8 K.JNLAP4_PROTO proto,
         encoded_prefix4 K K.JNLAP4_PREFIX pfx, encoded_u16 K K.JNLAP4_PORT_MIN pmin,
         encoded_u16 K K.JNLAP4_PORT_MAX pmax] := rfl
  have hpol2 : nla_validate K.joolnl_pool4_entry_policy
      [encoded_u32 K K.JNLAP4_MARK mark, encoded_u32 K K.JNLAP4_ITERATIONS iterations,
       encoded_u8 K.JNLAP4_FLAGS flags, encoded_u8 K.JNLAP4_PROTO proto,
       encoded_prefix4 K K.JNLAP4_PREFIX pfx, encoded_u16 K K.JNLAP4_PORT_MIN pmin,
       encoded_u16 K K.JNLAP4_PORT_MAX pmax] = 0 := hpol
  have hids : attr_ids_ok K.JNLAP4_MAX
      ([encoded_u32 K K.JNLAP4_MARK mark, encoded_u32 K K.JNLAP4_ITERATIONS iterations,
        encoded_u8 K.JNLAP4_FLAGS flags, encoded_u8 K.JNLAP4_PROTO proto,
        encoded_prefix4 K K.JNLAP4_PREFIX pfx, encoded_u16 K K.JNLAP4_PORT_MIN pmin,
        encoded_u16 K K.JNLAP4_PORT_MAX pmax].map nlattr.nla_type) := hK.2.2.2.1
  have t1 := nla_table_of_mem _ _ hids (encoded_u32 K K.JNLAP4_MARK mark) (by simp)
  have t2 := nla_table_of_mem _ _ hids (encoded_u32 K K.JNLAP4_ITERATIONS iterations)
    (by simp)
  have t3 := nla_table_of_mem _ _ hids (encoded_u8 K.JNLAP4_FLAGS flags) (by simp)
  have t4 := nla_table_of_mem _ _ hids (encoded_u8 K.JNLAP4_PROTO proto) (by simp)
  have t5 := nla_table_of_mem _ _ hids (encoded_prefix4 K K.JNLAP4_PREFIX pfx) (by simp)
  have t6 := nla_table_of_mem _ _ hids (encoded_u16 K K.JNLAP4_PORT_MIN pmin) (by simp)
  have t7 := nla_table_of_mem _ _ hids (encoded_u16 K K.JNLAP4_PORT_MAX pmax) (by simp)
  have e1 : (encoded_u32 K K.JNLAP4_MARK mark).nla_type = K.JNLAP4_MARK := rfl
  have e2 : (encoded_u32 K K.JNLAP4_ITERATIONS iterations).nla_type
      = K.JNLAP4_ITERATIONS := rfl
  have e3 : (encoded_u8 K.JNLAP4_FLAGS flags).nla_type = K.JNLAP4_FLAGS := rfl
  have e4 : (encoded_u8 K.JNLAP4_PROTO proto).nla_type = K.JNLAP4_PROTO := rfl
  have e5 : (encoded_prefix4 K K.JNLAP4_PREFIX pfx).nla_type = K.JNLAP4_PREFIX := rfl
  have e6 : (encoded_u16 K K.JNLAP4_PORT_MIN pmin).nla_type = K.JNLAP4_PORT_MIN := rfl
  have e7 : (encoded_u16 K K.JNLAP4_PORT_MAX pmax).nla_type = K.JNLAP4_PORT_MAX := rfl
  rw [e1] at t1
  rw [e2] at t2
  rw [e3] at t3
  rw [e4] at t4
  rw [e5] at t5
  rw [e6] at t6
  rw [e7] at t7
  simp only [jnla_get_pool4, jnla_parse_nested, hn, hpol2, t1, t2, t3, t4, t5, t6, t7,
    on_success, get_optional, jnla_get_u8, jnla_get_u16,
    nla_get_u32_encoded K _ _ hmark, nla_get_u32_encoded K _ _ hiter,
    nla_get_u8_encoded _ _ hflags, nla_get_u8_encoded _ _ hproto,
    jnla_get_prefix4_encoded K hK hlong _ _ _ hpfx.1 hpfx.2.1 hpfx.2.2 hpol4,
    nla_get_u16_encoded K _ _ hmin, nla_get_u16_encoded K _ _ hmax,
    pool4_entry_zero, Option.map_some', ne_eq, not_true_eq_false, ↓reduceIte]

theorem jnla_get_mapping_rule_encoded (K : jool_headers) (hK : K.ids_ok)
    (hlong : 32 ≤ K.BITS_PER_LONG) (attrtype : Nat) (rule : mapping_rule)
    (out : config_mapping_rule) (hwf : rule.well_formed K)
    (hpol : policy_accepts K.joolnl_mr_policy
      (encoded_mapping_rule K attrtype (config_mapping_rule.mk true rule)))
    (hpol6 : policy_accepts K.joolnl_prefix6_policy
      (encoded_prefix6 K K.JNLAMR_PREFIX6 rule.prefix6))
    (hpol4 : policy_accepts K.joolnl_prefix4_policy
      (encoded_prefix4 K K.JNLAMR_PREFIX4 rule.prefix4)) :
    jnla_get_mapping_rule K
        (some (encoded_mapping_rule K attrtype (config_mapping_rule.mk true rule))) out
      = some (0, config_mapping_rule.mk true rule) := by
  obtain ⟨p6, p4, o, a⟩ := rule
  obtain ⟨hp6, hp4, hlen6, hlen4, ho, ha, hv1, hv2, hv3⟩ := hwf
  simp only at hp6 hp4 hlen6 hlen4 ho ha hv1 hv2 hv3 hpol6 hpol4
  have hn : (encoded_mapping_rule K attrtype
      (config_mapping_rule.mk true (mapping_rule.mk p6 p4 o a))).nested
      = [encoded_prefix6 K K.JNLAMR_PREFIX6 p6, encoded_prefix4 K K.JNLAMR_PREFIX4 p4,
         encoded_u8 K.JNLAMR_EA_BITS_LENGTH o, encoded_u8 K.JNLAMR_a a] := rfl
  have hpol2 : nla_validate K.joolnl_mr_policy
      [encoded_prefix6 K K.JNLAMR_PREFIX6 p6, encoded_prefix4 K K.JNLAMR_PREFIX4 p4,
       encoded_u8 K.JNLAMR_EA_BITS_LENGTH o, encoded_u8 K.JNLAMR_a a] = 0 := hpol
  have hids : attr_ids_ok K.JNLAMR_MAX
      ([encoded_prefix6 K K.JNLAMR_PREFIX6 p6, encoded_prefix4 K K.JNLAMR_PREFIX4 p4,
        encoded_u8 K.JNLAMR_EA_BITS_LENGTH o, encoded_u8 K.JNLAMR_a a].map
          nlattr.nla_type) := hK.2.2.2.2.2
  have t1 := nla_table_of_mem _ _ hids (encoded_prefix6 K K.JNLAMR_PREFIX6 p6) (by simp)
  have t2 := nla_table_of_mem _ _ hids (encoded_prefix4 K K.JNLAMR_PREFIX4 p4) (by simp)
  have t3 := nla_table_of_mem _ _ hids (encoded_u8 K.JNLAMR_EA_BITS_LENGTH o) (by simp)
  have t4 := nla_table_of_mem _ _ hids (encoded_u8 K.JNLAMR_a a) (by simp)
  have e1 : (encoded_prefix6 K K.JNLAMR_PREFIX6 p6).nla_type = K.JNLAMR_PREFIX6 := rfl
  have e2 : (encoded_prefix4 K K.JNLAMR_PREFIX4 p4).nla_type = K.JNLAMR_PREFIX4 := rfl
  have e3 : (encoded_u8 K.JNLAMR_EA_BITS_LENGTH o).nla_type = K.JNLAMR_EA_BITS_LENGTH := rfl
  have e4 : (encoded_u8 K.JNLAMR_a a).nla_type = K.JNLAMR_a := rfl
  rw [e1] at t1
  rw [e2] at t2
  rw [e3] at t3
  rw [e4] at t4
  simp only [jnla_get_mapping_rule, jnla_parse_nested, hn, hpol2, t1, t2, t3, t4, on_success,
    get_optional, jnla_get_u8,
    jnla_get_prefix6_encoded K hK hlong _ _ _ hp6.1 hp6.2.1 hp6.2.2 hpol6,
    jnla_get_prefix4_encoded K hK hlong _ _ _ hp4.1 hp4.2.1 hp4.2.2 hpol4,
    nla_get_u8_encoded _ _ ho, nla_get_u8_encoded _ _ ha,
    Option.map_some', ne_eq, not_true_eq_false, ↓reduceIte]
  generalize K.maprule_get_k (mapping_rule.mk p6 p4 o a) = k at hv3 ⊢
  split_ifs with c1 c2 c3 c4 c5
  all_goals first
    | rfl
    | (exfalso; omega)

theorem jnla_get_mapping_rule_unset (K : jool_headers) (hK : K.ids_ok) (attrtype : Nat)
    (rule : mapping_rule) (out : config_mapping_rule)
    (hpol : policy_accepts K.joolnl_mr_policy
      (encoded_mapping_rule K attrtype (config_mapping_rule.mk false rule))) :
    jnla_get_mapping_rule K
        (some (encoded_mapping_rule K attrtype (config_mapping_rule.mk false rule))) out
      = some (0, config_mapping_rule.mk false out.rule) := by
  have hn : (encoded_mapping_rule K attrtype (config_mapping_rule.mk false rule)).nested
      = [nlattr.mk 12 K.JNLAMR_PREFIX6 [] [encoded_u8 K.JNLAP_LEN 0]] := rfl
  have hpol2 : nla_validate K.joolnl_mr_policy
      [nlattr.mk 12 K.JNLAMR_PREFIX6 [] [encoded_u8 K.JNLAP_LEN 0]] = 0 := hpol
  have hne : K.JNLAMR_PREFIX4 ≠ K.JNLAMR_PREFIX6 := by
    have h := hK.2.2.2.2.2.1
    simp only [List.nodup_cons, List.mem_cons, not_or] at h
    exact fun e => h.1.1 e.symm
  have t : nla_table K.JNLAMR_MAX
      [nlattr.mk 12 K.JNLAMR_PREFIX6 [] [encoded_u8 K.JNLAP_LEN 0]] K.JNLAMR_PREFIX4 = none :=
    nla_table_absent _ _ _ (by simpa [nlattr.nla_type] using hne)
  simp only [jnla_get_mapping_rule, jnla_parse_nested, hn, hpol2, t, ne_eq,
    not_true_eq_false, ↓reduceIte]

theorem take_set_succ (l : List Nat) (c v : Nat) (h : c < l.length) :
    (l.set c v).take (c + 1) = l.take c ++ [v] := by
  induction l generalizing c with
  | nil => simp at h
  | cons a l ih =>
    cases c with
    | zero => simp
    | succ c =>
      have hc : c < l.length := by simpa using h
      simp [ih c hc]

theorem plateaus_fill_encoded (K : jool_headers) (attrtype : Nat) (vals : List Nat) :
    ∀ out : mtu_plateaus, (∀ v ∈ vals, v < 65536) →
      out.count + vals.length ≤ K.PLATEAUS_MAX →
      out.count + vals.length ≤ out.values.length →
      plateaus_fill K (vals.map (encoded_u16 K attrtype)) out
        = some (0, mtu_plateaus.mk
            (out.values.take out.count ++ vals ++ out.values.drop (out.count + vals.length))
            (out.count + vals.length)) := by
  induction vals with
  | nil =>
    intro out _ _ _
    simp [plateaus_fill]
  | cons v rest ih =>
    intro out hv hmax hlen
    simp only [List.length_cons] at hmax hlen
    have hlt : ¬ out.count ≥ K.PLATEAUS_MAX := by omega
    have hget := nla_get_u16_encoded K attrtype v (hv v (List.mem_cons_self _ _))
    have hc : out.count < out.values.length := by omega
    simp only [List.map_cons, plateaus_fill, hlt, ↓reduceIte, hget]
    rw [ih (mtu_plateaus.mk (out.values.set out.count v) (out.count + 1))
      (fun w hw => hv w (List.mem_cons_of_mem _ hw))
      (by simp only; omega) (by simp only [List.length_set]; omega)]
    simp only [take_set_succ _ _ _ hc, List.length_cons]
    have hd : (out.values.set out.count v).drop (out.count + 1 + rest.length)
        = out.values.drop (out.count + (rest.length + 1)) := by
      rw [List.drop_set_of_lt v out.values (by omega)]
      congr 1
      omega
    rw [hd]
    have hcnt : out.count + 1 + rest.length = out.count + (rest.length + 1) := by omega
    simp [hcnt]

theorem jnla_get_plateaus_encoded (K : jool_headers) (attrtype : Nat)
    (plateaus out : mtu_plateaus) (hwf : plateaus.well_formed K)
    (hout : plateaus.count ≤ out.values.length)
    (hpol : policy_accepts K.joolnl_plateau_list_policy
      (encoded_plateaus K attrtype plateaus)) :
    jnla_get_plateaus K (some (encoded_plateaus K attrtype plateaus)) out
      = some (0, mtu_plateaus.mk
          (plateaus.values.take plateaus.count ++ out.values.drop plateaus.count)
          plateaus.count) := by
  obtain ⟨h1, hmax, hcount, hpair, hvals⟩ := hwf
  have hn : (encoded_plateaus K attrtype plateaus).nested
      = (plateaus.values.take plateaus.count).map (encoded_u16 K K.JNLAL_ENTRY) := rfl
  have hpol2 : nla_validate K.joolnl_plateau_list_policy
      ((plateaus.values.take plateaus.count).map (encoded_u16 K K.JNLAL_ENTRY)) = 0 := hpol
  have hlen : (plateaus.values.take plateaus.count).length = plateaus.count := by
    rw [List.length_take]; omega
  have hfill := plateaus_fill_encoded K K.JNLAL_ENTRY (plateaus.values.take plateaus.count)
    (mtu_plateaus.mk out.values 0) (fun v hv => (hvals v hv).2)
    (by simp only [hlen]; omega) (by simp only [hlen]; omega)
  simp only [hlen, List.take_zero, List.nil_append, zero_add] at hfill
  cases hS : plateaus.values.take plateaus.count with
  | nil => rw [hS] at hlen; simp at hlen; omega
  | cons s0 rest =>
    rw [hS] at hpair hvals hlen hfill hpol2
    have hs0 : s0 ≠ 0 := by
      have := (hvals s0 (List.mem_cons_self _ _)).1; omega
    have h0R : 0 ∉ rest := by
      intro h
      have := (hvals 0 (List.mem_cons_of_mem _ h)).1; omega
    have hsorted : (s0 :: rest).Sorted (fun a b => a ≥ b) :=
      hpair.imp (fun h => Nat.le_of_lt h)
    have htake : (s0 :: rest ++ out.values.drop plateaus.count).take plateaus.count
        = s0 :: rest := by
      rw [← hlen, List.take_left]
    have hdrop : (s0 :: rest ++ out.values.drop plateaus.count).drop plateaus.count
        = out.values.drop plateaus.count := by
      rw [← hlen, List.drop_left]
    obtain ⟨G2, hv, hG2⟩ := validate_plateaus_eq
      (mtu_plateaus.mk (s0 :: rest ++ out.values.drop plateaus.count) plateaus.count)
      s0 rest (by simp only [htake]; exact hsorted.insertionSort_eq)
      (by simp only [List.length_append, List.length_drop, ← hlen]
          simp only [hlen]; omega) hs0
    rw [squeeze_spec_fixed _ _ hpair h0R] at hv hG2
    have hG2nil : G2 = [] := List.eq_nil_of_length_eq_zero (by omega)
    simp only [hG2nil, List.nil_append, hdrop] at hv
    have hcnt : rest.length + 1 = plateaus.count := by simpa using hlen
    rw [hcnt] at hv
    simp only [jnla_get_plateaus, hn, hS, hpol2, ne_eq, not_true_eq_false, ↓reduceIte, hfill,
      on_success, hv]
    rfl

/-- C19. Decode undoes encode. With attribute types that are distinct within each family, an
`unsigned long` of at least 32 bits and policies that accept what the writers wrote, for
every well-formed value `x`: on every buffer with room for it the writer returns 0 and
appends exactly one attribute, and the matching getter applied to that attribute returns 0
and `x`, whatever the output held before. This holds for transport addresses
(`jnla_put_taddr6`/`jnla_get_taddr6`, `jnla_put_taddr4`/`jnla_get_taddr4`), EAM rows, pool4
rows, BIB rows and mapping rules that are set and pass validation. A mapping rule that is
not set comes back not set. A plateau list that is non-empty, strictly decreasing and
nonzero comes back with the same count and the same plateaus. -/
theorem decode_undoes_encode (K : jool_headers) (hK : K.ids_ok)
    (hlong : 32 ≤ K.BITS_PER_LONG) (attrtype : Nat) :
    (∀ x out : ipv6_transport_addr, x.well_formed →
      policy_accepts K.joolnl_taddr6_policy (encoded_taddr6 K attrtype x) →
      writes_all (fun skb => jnla_put_taddr6 K skb attrtype x)
        [encoded_taddr6 K attrtype x] 32 ∧
      jnla_get_taddr6 K (some (encoded_taddr6 K attrtype x)) out = some (0, x)) ∧
    (∀ x out : ipv4_transport_addr, x.well_formed →
      policy_accepts K.joolnl_taddr4_policy (encoded_taddr4 K attrtype x) →
      writes_all (fun skb => jnla_put_taddr4 K skb attrtype x)
        [encoded_taddr4 K attrtype x] 20 ∧
      jnla_get_taddr4 K (some (encoded_taddr4 K attrtype x)) out = some (0, x)) ∧
    (∀ x out : eamt_entry, x.well_formed K →
      policy_accepts K.joolnl_eam_policy (encoded_eam K attrtype x) →
      policy_accepts K.joolnl_prefix6_policy (encoded_prefix6 K K.JNLAE_PREFIX6 x.prefix6) →
      policy_accepts K.joolnl_prefix4_policy (encoded_prefix4 K K.JNLAE_PREFIX4 x.prefix4) →
      writes_all (fun skb => jnla_put_eam K skb attrtype x) [encoded_eam K attrtype x] 56 ∧
      jnla_get_eam K (some (encoded_eam K attrtype x)) out = some (0, x)) ∧
    (∀ x out : pool4_entry, x.well_formed K →
      policy_accepts K.joolnl_pool4_entry_policy (encoded_pool4 K attrtype x) →
      policy_accepts K.joolnl_prefix4_policy
        (encoded_prefix4 K K.JNLAP4_PREFIX x.range.prefix_) →
      writes_all (fun skb => jnla_put_pool4 K skb attrtype x)
        [encoded_pool4 K attrtype x] 72 ∧
      jnla_get_pool4 K (some (encoded_pool4 K attrtype x)) out = some (0, x)) ∧
    (∀ x out : bib_entry, x.well_formed →
      policy_accepts K.joolnl_bib_entry_policy (encoded_bib K attrtype x) →
      policy_accepts K.joolnl_taddr6_policy (encoded_taddr6 K K.JNLAB_SRC6 x.addr6) →
      policy_accepts K.joolnl_taddr4_policy (encoded_taddr4 K K.JNLAB_SRC4 x.addr4) →
      writes_all (fun skb => jnla_put_bib K skb attrtype x) [encoded_bib K attrtype x] 72 ∧
      jnla_get_bib K (some (encoded_bib K attrtype x)) out = some (0, x)) ∧
    (∀ (x : mapping_rule) (out : config_mapping_rule), x.well_formed K →
      policy_accepts K.joolnl_mr_policy
        (encoded_mapping_rule K attrtype (config_mapping_rule.mk true x)) →
      policy_accepts K.joolnl_prefix6_policy (encoded_prefix6 K K.JNLAMR_PREFIX6 x.prefix6) →
      policy_accepts K.joolnl_prefix4_policy (encoded_prefix4 K K.JNLAMR_PREFIX4 x.prefix4) →
      writes_all
        (fun skb => jnla_put_mapping_rule K skb attrtype (config_mapping_rule.mk true x))
        [encoded_mapping_rule K attrtype (config_mapping_rule.mk true x)] 72 ∧
      jnla_get_mapping_rule K
          (some (encoded_mapping_rule K attrtype (config_mapping_rule.mk true x))) out
        = some (0, config_mapping_rule.mk true x)) ∧
    (∀ (x : mapping_rule) (out : config_mapping_rule),
      policy_accepts K.joolnl_mr_policy
        (encoded_mapping_rule K attrtype (config_mapping_rule.mk false x)) →
      writes_all
        (fun skb => jnla_put_mapping_rule K skb attrtype (config_mapping_rule.mk false x))
        [encoded_mapping_rule K attrtype (config_mapping_rule.mk false x)] 16 ∧
      ∃ got : config_mapping_rule,
        jnla_get_mapping_rule K
            (some (encoded_mapping_rule K attrtype (config_mapping_rule.mk false x))) out
          = some (0, got) ∧ got.set = false) ∧
    (∀ x out : mtu_plateaus, x.well_formed K → x.count ≤ out.values.length →
      policy_accepts K.joolnl_plateau_list_policy (encoded_plateaus K attrtype x) →
      writes_all (fun skb => jnla_put_plateaus K skb attrtype x)
        [encoded_plateaus K attrtype x] (4 + 8 * x.count) ∧
      ∃ got : mtu_plateaus,
        jnla_get_plateaus K (some (encoded_plateaus K attrtype x)) out = some (0, got) ∧
        got.count = x.count ∧
        got.values.take got.count = x.values.take x.count) := by
  refine ⟨?_, ?_, ?_, ?_, ?_, ?_, ?_, ?_⟩
  · intro x out hwf hpol
    exact ⟨jnla_put_taddr6_writes K attrtype x,
      jnla_get_taddr6_encoded K hK hlong attrtype x out hwf.1 hwf.2 hpol⟩
  · intro x out hwf hpol
    exact ⟨jnla_put_taddr4_writes K attrtype x,
      jnla_get_taddr4_encoded K hK hlong attrtype x out hwf.1 hwf.2 hpol⟩
  · intro x out hwf hpol hpol6 hpol4
    exact ⟨jnla_put_eam_writes K attrtype x,
      jnla_get_eam_encoded K hK hlong attrtype x out hwf hpol hpol6 hpol4⟩
  · intro x out hwf hpol hpol4
    exact ⟨jnla_put_pool4_writes K attrtype x,
      jnla_get_pool4_encoded K hK hlong attrtype x out hwf hpol hpol4⟩
  · intro x out hwf hpol hpol6 hpol4
    exact ⟨jnla_put_bib_writes K attrtype x,
      jnla_get_bib_encoded K hK hlong attrtype x out hwf hpol hpol6 hpol4⟩
  · intro x out hwf hpol hpol6 hpol4
    exact ⟨jnla_put_mapping_rule_writes K attrtype (config_mapping_rule.mk true x),
      jnla_get_mapping_rule_encoded K hK hlong attrtype x out hwf hpol hpol6 hpol4⟩
  · intro x out hpol
    exact ⟨jnla_put_mapping_rule_writes K attrtype (config_mapping_rule.mk false x),
      _, jnla_get_mapping_rule_unset K hK attrtype x out hpol, rfl⟩
  · intro x out hwf hout hpol
    have hlen : (x.values.take x.count).length = x.count := by
      rw [List.length_take]; have := hwf.2.2.1; omega
    have hw := jnla_put_plateaus_writes K attrtype x
    rw [hlen] at hw
    refine ⟨hw, _, jnla_get_plateaus_encoded K attrtype x out hwf hout hpol, rfl, ?_⟩
    exact List.take_left' hlen

/-- C19, on a BIB row and on the plateaus 1500, 1492, 576: the writers fill a buffer that has
just the room, and the getters return the row and the plateaus. -/
theorem decode_undoes_encode_witness :
    ((jnla_put_bib example_headers (sk_buff.mk [] [] 72) 7 example_bib).1 = 0 ∧
      sk_buff.followed_by (sk_buff.mk [] [] 72)
        (jnla_put_bib example_headers (sk_buff.mk [] [] 72) 7 example_bib).2
        [encoded_bib example_headers 7 example_bib] 72) ∧
    jnla_get_bib example_headers (some (encoded_bib example_headers 7 example_bib))
      bib_entry_zero = some (0, example_bib) ∧
    ∃ got : mtu_plateaus,
      jnla_get_plateaus example_headers
          (some (encoded_plateaus example_headers 9 (mtu_plateaus.mk [1500, 1492, 576, 0] 3)))
          (mtu_plateaus.mk [0, 0, 0, 0] 0) = some (0, got) ∧
      got.count = 3 ∧ got.values.take got.count = [1500, 1492, 576] := by
  have hids : example_headers.ids_ok := by
    simp [jool_headers.ids_ok, attr_ids_ok, example_headers]
  have hwf : example_bib.well_formed :=
    ⟨⟨by decide, by decide⟩, ⟨by decide, by decide⟩, by decide⟩
  have hwfp : (mtu_plateaus.mk [1500, 1492, 576, 0] 3).well_formed example_headers := by
    unfold mtu_plateaus.well_formed
    decide
  have hbib := (decode_undoes_encode example_headers hids (by decide) 7).2.2.2.2.1
    example_bib bib_entry_zero hwf (by rfl) (by rfl) (by rfl)
  have hpl := (decode_undoes_encode example_headers hids (by decide) 9).2.2.2.2.2.2.2
    (mtu_plateaus.mk [1500, 1492, 576, 0] 3) (mtu_plateaus.mk [0, 0, 0, 0] 0)
    hwfp (by decide) (by rfl)
  exact ⟨hbib.1 (sk_buff.mk [] [] 72) (by decide), hbib.2, hpl.2⟩

/-! ### The codes the writers return -/

theorem append_tailroom (skb : sk_buff) (attr : nlattr) (size : Nat) :
    (skb.append attr size).tailroom = skb.tailroom := by
  rw [append_eq_append_list, append_list_tailroom]

/-- C21. The code `jnla_put_taddr6` returns, on every buffer: -EMSGSIZE when there is no room
for the header of the container (4 bytes), 0 when there is room for the container and both
children (32 bytes), and 1, the value of the `||` of the two children, when the container
fits and the address or the port does not. -/
theorem jnla_put_taddr6_code (K : jool_headers) (skb : sk_buff) (attrtype : Nat)
    (taddr : ipv6_transport_addr) :
    (jnla_put_taddr6 K skb attrtype taddr).1
      = if skb.tailroom < 4 then -EMSGSIZE else if skb.tailroom < 32 then 1 else 0 := by
  have e0 : nla_total_size 0 = 4 := rfl
  have e16 : nla_total_size 16 = 20 := rfl
  have e2 : nla_total_size 2 = 8 := rfl
  unfold jnla_put_taddr6 nla_nest_start
  rw [e0]
  by_cases h4 : skb.tailroom < 4
  · simp only [h4, ↓reduceIte]
  · simp only [h4, ↓reduceIte, lor_puts, jnla_put_addr6, nla_put_u16, nla_put, be_bytes_length,
      host_bytes_length, e16, e2]
    by_cases h24 : skb.tailroom - 4 < 20
    · have h32 : skb.tailroom < 32 := by omega
      simp [h24, h32, nest_finish, EMSGSIZE]
    · by_cases h8 : skb.tailroom - 4 - 20 < 8
      · have h32 : skb.tailroom < 32 := by omega
        simp [h24, h8, h32, nest_finish, EMSGSIZE, append_tailroom]
      · have h32 : ¬ skb.tailroom < 32 := by omega
        simp [h24, h8, h32, nest_finish, EMSGSIZE, append_tailroom]

/-- C21, on a buffer with 28 bytes of room: the container and the address fit, the port does
not, and `jnla_put_taddr6` returns 1. -/
theorem jnla_put_taddr6_code_witness :
    (jnla_put_taddr6 example_headers (sk_buff.mk [] [] 28) 1 example_session.src6).1 = 1 :=
  (jnla_put_taddr6_code example_headers (sk_buff.mk [] [] 28) 1 example_session.src6).trans
    (by decide)

/-! ### The length test of the packed session -/

/-- C27. An attribute whose header is right (`nla_len` is the 4 bytes of the header plus the
payload) and whose payload is shorter than SERIALIZED_SESSION_SIZE = 36 bytes:
`jnla_get_session_joold` returns an error without reading when the payload has fewer than
32 bytes; with a payload of 32 to 35 bytes `nla_len` is 36 to 39, the test
`attr->nla_len < SERIALIZED_SESSION_SIZE` passes, and the eight READ_RAW read 36 bytes, up to
4 of them behind the payload. -/
theorem jnla_get_session_joold_short (K : jool_headers) (jiffies : Nat) (attr : nlattr)
    (cfg : jool_globals) (se : session_entry)
    (hhdr : attr.nla_len = NLA_HDRLEN + attr.data.length)
    (hshort : attr.data.length < SERIALIZED_SESSION_SIZE) :
    jnla_get_session_joold K jiffies (some attr) cfg se
      = if attr.data.length < 32 then some (jnls_err, se) else none := by
  have e36 : SERIALIZED_SESSION_SIZE = 36 := rfl
  have e4 : NLA_HDRLEN = 4 := rfl
  rw [e36] at hshort
  rw [e4] at hhdr
  unfold jnla_get_session_joold
  simp only [hhdr, e36, nla_read]
  by_cases h : attr.data.length < 32
  · have h1 : 4 + attr.data.length < 36 := by omega
    simp only [h1, h, ↓reduceIte]
  · have h1 : ¬ 4 + attr.data.length < 36 := by omega
    have h2 : ¬ 36 ≤ attr.data.length := by omega
    simp only [h1, h, h2, ↓reduceIte]

/-- C27, on the first 32 bytes of the packed example session (`nla_len` = 36): the length
test passes and the read runs past the payload. -/
theorem jnla_get_session_joold_short_witness :
    jnla_get_session_joold example_headers 1000
        (some (nlattr.mk 36 1
          ((session_joold_buffer example_headers 1000 example_session).take 32) []))
        example_globals session_entry_zero = none :=
  (jnla_get_session_joold_short example_headers 1000
    (nlattr.mk 36 1 ((session_joold_buffer example_headers 1000 example_session).take 32) [])
    example_globals session_entry_zero (by rfl) (by decide)).trans (by rfl)

/-! ### The bits of the flags word -/

theorem flags_low_bits (f g : Nat) (h : f % 128 = g % 128) :
    (f >>> 5) &&& 3 = (g >>> 5) &&& 3 ∧ (f >>> 2) &&& 7 = (g >>> 2) &&& 7 ∧
    f &&& 3 = g &&& 3 := by
  have a3 : ∀ x : Nat, x &&& 3 = x % 4 := fun x => Nat.and_pow_two_sub_one_eq_mod x 2
  have a7 : ∀ x : Nat, x &&& 7 = x % 8 := fun x => Nat.and_pow_two_sub_one_eq_mod x 3
  simp only [a3, a7, Nat.shiftRight_eq_div_pow]
  norm_num
  omega

theorem session_flags_high_bits (proto state timer_type : Nat) (hp : proto ≤ 3)
    (hs : state ≤ 7) (ht : timer_type ≤ 3) :
    (((proto <<< 5) ||| (state <<< 2) ||| timer_type) % 65536) >>> 7 = 0 := by
  interval_cases proto <;> interval_cases state <;> interval_cases timer_type <;> decide

theorem read_body_flags (len attrtype : Nat) (body : List Nat) (f : Nat)
    (hbody : body.length = 34) (hf : f < 65536) :
    nla_read (nlattr.mk len attrtype (body ++ be_bytes 2 f) []) SERIALIZED_SESSION_SIZE
      = some (body ++ be_bytes 2 f) ∧
    (body ++ be_bytes 2 f).take 16 = body.take 16 ∧
    ((body ++ be_bytes 2 f).drop 16).take 4 = (body.drop 16).take 4 ∧
    ((body ++ be_bytes 2 f).drop 20).take 4 = (body.drop 20).take 4 ∧
    ((body ++ be_bytes 2 f).drop 24).take 4 = (body.drop 24).take 4 ∧
    ((body ++ be_bytes 2 f).drop 28).take 2 = (body.drop 28).take 2 ∧
    ((body ++ be_bytes 2 f).drop 30).take 2 = (body.drop 30).take 2 ∧
    ((body ++ be_bytes 2 f).drop 32).take 2 = (body.drop 32).take 2 ∧
    be_value (((body ++ be_bytes 2 f).drop 34).take 2) = f := by
  have hl : (body ++ be_bytes 2 f).length = 36 := by simp [hbody, be_bytes_length]
  have hmod : f % 256 ^ 2 = f := Nat.mod_eq_of_lt (by norm_num; exact hf)
  refine ⟨?_, ?_, ?_, ?_, ?_, ?_, ?_, ?_, ?_⟩
  · unfold nla_read SERIALIZED_SESSION_SIZE
    simp only [nlattr.data, hl]
    rw [List.take_of_length_le (by omega)]
    rfl
  all_goals
    simp [List.take_append_eq_append_take, List.drop_append_eq_append_drop, hbody,
      be_bytes_length, take_be_bytes, be_value_be_bytes, hmod, hf]

/-- C28 as stated fails. With state = 8, a value the three bits of the field cannot hold, the
flags word that `jnla_put_session_joold` writes is 32 and its bits 5-6 read 1, not the
protocol 0; with proto = 4 the word is 140 and the reserved bit 7 is set. -/
theorem session_flags_bits_counterexample :
    be_value (((session_joold_buffer example_headers 1000
        { example_session with state := 8 }).drop 34).take 2) = 32 ∧
    ¬ ((32 >>> 5) &&& 3 = ({ example_session with state := 8 } : session_entry).proto) ∧
    be_value (((session_joold_buffer example_headers 1000
        { example_session with proto := 4 }).drop 34).take 2) = 140 ∧
    ¬ (140 >>> 7 = 0) := by
  refine ⟨by rfl, by decide, by rfl, by decide⟩

/-- C28. For every session entry whose proto fits two bits, whose state fits three and whose
timer_type fits two, the flags word that `jnla_put_session_joold` writes at offset 34 has
zero in bits 7-15, proto in bits 5-6, state in bits 2-4 and timer_type in bits 0-1. And for
every attribute body and every two 16-bit flags words that agree on bits 0-6,
`jnla_get_session_joold` gives the same result on the body followed by the one word and on
the body followed by the other. -/
theorem session_flags_bits (K : jool_headers) (jiffies : Nat) (entry : session_entry)
    (hp : entry.proto ≤ 3) (hs : entry.state ≤ 7) (ht : entry.timer_type ≤ 3) :
    (be_value (((session_joold_buffer K jiffies entry).drop 34).take 2) = session_flags entry ∧
      session_flags entry >>> 7 = 0 ∧
      (session_flags entry >>> 5) &&& 3 = entry.proto ∧
      (session_flags entry >>> 2) &&& 7 = entry.state ∧
      session_flags entry &&& 3 = entry.timer_type) ∧
    (∀ (len attrtype : Nat) (body : List Nat) (f1 f2 : Nat) (cfg : jool_globals)
      (se : session_entry), body.length = 34 → f1 < 65536 → f2 < 65536 →
      f1 % 128 = f2 % 128 →
      jnla_get_session_joold K jiffies (some (nlattr.mk len attrtype (body ++ be_bytes 2 f1) []))
          cfg se
        = jnla_get_session_joold K jiffies
            (some (nlattr.mk len attrtype (body ++ be_bytes 2 f2) [])) cfg se) := by
  constructor
  · have hd := session_flags_decode entry.proto entry.state entry.timer_type hp hs ht
    have hh := session_flags_high_bits entry.proto entry.state entry.timer_type hp hs ht
    have hmod : session_flags entry % 256 ^ 2 = session_flags entry :=
      Nat.mod_eq_of_lt (by norm_num; exact session_flags_lt entry)
    refine ⟨?_, hh, hd.1, hd.2.1, hd.2.2⟩
    rw [(session_joold_buffer_fields K jiffies entry).2.2.2.2.2.2.2, be_value_be_bytes, hmod]
  · intro len attrtype body f1 f2 cfg se hbody h1 h2 hlow
    obtain ⟨r1, a1, b1, c1, d1, e1, g1, i1, j1⟩ := read_body_flags len attrtype body f1 hbody h1
    obtain ⟨r2, a2, b2, c2, d2, e2, g2, i2, j2⟩ := read_body_flags len attrtype body f2 hbody h2
    obtain ⟨l1, l2, l3⟩ := flags_low_bits f1 f2 hlow
    have hn1 : (nlattr.mk len attrtype (body ++ be_bytes 2 f1) []).nla_len = len := rfl
    have hn2 : (nlattr.mk len attrtype (body ++ be_bytes 2 f2) []).nla_len = len := rfl
    unfold jnla_get_session_joold
    simp only [hn1, hn2, r1, r2, a1, b1, c1, d1, e1, g1, i1, j1, a2, b2, c2, d2, e2, g2, i2, j2,
      l1, l2, l3]

/-- C28, on the scenario session (TCP, state 3, established timer): the flags word is 12. -/
theorem session_flags_bits_witness :
    be_value (((session_joold_buffer example_headers 1000 example_session).drop 34).take 2)
      = 12 ∧
    (12 : Nat) >>> 7 = 0 ∧ ((12 : Nat) >>> 5) &&& 3 = example_session.proto ∧
    ((12 : Nat) >>> 2) &&& 7 = example_session.state ∧
    (12 : Nat) &&& 3 = example_session.timer_type :=
  ⟨((session_flags_bits example_headers 1000 example_session (by decide) (by decide)
      (by decide)).1.1).trans (by rfl), by decide, by decide, by decide, by decide⟩

/-! ### The joold requests -/

/-- C22. What `handle_joold_request` does, for every request. On a SIIT translator it
responds with -EINVAL and calls no handler, whatever the operation. Otherwise: ADD calls
`joold_sync` on the memory behind the header, with the length of ATTR_DATA less the header,
and responds (with the error) only when `joold_sync` returned nonzero; TEST and ADVERTISE
call `joold_test` and `joold_advertise` and respond with what the handler returned, whatever
it is; ACK calls `joold_ack` and does not respond; every other operation calls no handler
and responds with -EINVAL. -/
theorem handle_joold_request_spec (H : joold_headers) (M : joold_module) (jool_type : Nat)
    (info : genl_info)
    (hops : [H.OP_ADD, H.OP_TEST, H.OP_ADVERTISE, H.OP_ACK].Nodup) :
    (jool_type = H.XLATOR_SIIT →
      handle_joold_request H M jool_type info
        = some (M.jnl_respond (-EINVAL), [joold_call.respond (-EINVAL)])) ∧
    (jool_type ≠ H.XLATOR_SIIT →
      (be16_to_cpu H.big_endian info.operation = H.OP_ADD →
        ∀ attr : nlattr, info.attr_data = some attr →
          handle_joold_request H M jool_type info
            = if M.joold_sync info.after_hdr
                  (H.size_t ((H.size_t (nla_len attr) : Int) - (H.sizeof_request_hdr : Int)))
                = 0 then
                some (0, [joold_call.sync info.after_hdr
                  (H.size_t ((H.size_t (nla_len attr) : Int) - (H.sizeof_request_hdr : Int)))])
              else
                some (M.jnl_respond (M.joold_sync info.after_hdr
                    (H.size_t ((H.size_t (nla_len attr) : Int) - (H.sizeof_request_hdr : Int)))),
                  [joold_call.sync info.after_hdr
                    (H.size_t ((H.size_t (nla_len attr) : Int) - (H.sizeof_request_hdr : Int))),
                   joold_call.respond (M.joold_sync info.after_hdr
                    (H.size_t
                      ((H.size_t (nla_len attr) : Int) - (H.sizeof_request_hdr : Int))))])) ∧
      (be16_to_cpu H.big_endian info.operation = H.OP_TEST →
        handle_joold_request H M jool_type info
          = some (M.jnl_respond M.joold_test,
              [joold_call.test, joold_call.respond M.joold_test])) ∧
      (be16_to_cpu H.big_endian info.operation = H.OP_ADVERTISE →
        handle_joold_request H M jool_type info
          = some (M.jnl_respond M.joold_advertise,
              [joold_call.advertise, joold_call.respond M.joold_advertise])) ∧
      (be16_to_cpu H.big_endian info.operation = H.OP_ACK →
        handle_joold_request H M jool_type info = some (0, [joold_call.ack])) ∧
      (be16_to_cpu H.big_endian info.operation
          ∉ [H.OP_ADD, H.OP_TEST, H.OP_ADVERTISE, H.OP_ACK] →
        handle_joold_request H M jool_type info
          = some (M.jnl_respond (-EINVAL), [joold_call.respond (-EINVAL)]))) := by
  simp only [List.nodup_cons, List.mem_cons, List.mem_singleton, not_or, List.not_mem_nil,
    not_false_eq_true, List.nodup_nil, and_true] at hops
  obtain ⟨⟨h12, h13, h14⟩, ⟨h23, h24⟩, h34⟩ := hops
  refine ⟨fun h => ?_, fun hs => ⟨?_, ?_, ?_, ?_, ?_⟩⟩
  · simp only [handle_joold_request, h, ↓reduceIte]
  · intro hop attr hattr
    simp only [handle_joold_request, hs, hop, hattr, ↓reduceIte]
  · intro hop
    simp only [handle_joold_request, hs, hop, Ne.symm h12, ↓reduceIte]
  · intro hop
    simp only [handle_joold_request, hs, hop, Ne.symm h13, Ne.symm h23, ↓reduceIte]
  · intro hop
    simp only [handle_joold_request, hs, hop, Ne.symm h14, Ne.symm h24, Ne.symm h34,
      ↓reduceIte]
  · intro hop
    simp only [List.mem_cons, List.mem_singleton, not_or, List.not_mem_nil, or_false] at hop
    simp only [handle_joold_request, hs, hop.1, hop.2.1, hop.2.2.1, hop.2.2.2, ↓reduceIte]

/-- C22, on a NAT64 translator (type 2) and on a SIIT one: an ADD whose ATTR_DATA holds the
header and 4 bytes is synchronised without a response, a TEST is answered with 0, an ACK is
not answered, the unknown operation 9 and every operation under SIIT are answered with
-EINVAL. -/
theorem handle_joold_request_spec_witness :
    handle_joold_request example_joold_headers example_joold_module 2
        { operation := 256, after_hdr := [1, 2, 3, 4],
          attr_data := some (nlattr.mk 24 1 (List.replicate 16 0 ++ [1, 2, 3, 4]) []) }
      = some (0, [joold_call.sync [1, 2, 3, 4] 4]) ∧
    handle_joold_request example_joold_headers example_joold_module 2
        { operation := 512, after_hdr := [], attr_data := none }
      = some (0, [joold_call.test, joold_call.respond 0]) ∧
    handle_joold_request example_joold_headers example_joold_module 2
        { operation := 1024, after_hdr := [], attr_data := none }
      = some (0, [joold_call.ack]) ∧
    handle_joold_request example_joold_headers example_joold_module 2
        { operation := 2304, after_hdr := [], attr_data := none }
      = some (-EINVAL, [joold_call.respond (-EINVAL)]) ∧
    handle_joold_request example_joold_headers example_joold_module 1
        { operation := 512, after_hdr := [], attr_data := none }
      = some (-EINVAL, [joold_call.respond (-EINVAL)]) :=
  ⟨((handle_joold_request_spec example_joold_headers example_joold_module 2
      { operation := 256, after_hdr := [1, 2, 3, 4],
        attr_data := some (nlattr.mk 24 1 (List.replicate 16 0 ++ [1, 2, 3, 4]) []) }
      (by decide)).2 (by decide)).1 (by decide) _ rfl,
    ((handle_joold_request_spec example_joold_headers example_joold_module 2
      { operation := 512, after_hdr := [], attr_data := none }
      (by decide)).2 (by decide)).2.1 (by decide),
    ((handle_joold_request_spec example_joold_headers example_joold_module 2
      { operation := 1024, after_hdr := [], attr_data := none }
      (by decide)).2 (by decide)).2.2.2.1 (by decide),
    ((handle_joold_request_spec example_joold_headers example_joold_module 2
      { operation := 2304, after_hdr := [], attr_data := none }
      (by decide)).2 (by decide)).2.2.2.2 (by decide),
    (handle_joold_request_spec example_joold_headers example_joold_module 1
      { operation := 512, after_hdr := [], attr_data := none }
      (by decide)).1 (by decide)⟩

/-! ### The three buckets -/

theorem get_ids_icmpv6 (node : pool_node) :
    get_ids node IPPROTO_ICMPV6 = get_ids node IPPROTO_ICMP := by
  unfold get_ids
  decide

theorem extract_from_node_icmpv6 (node : pool_node) (l4_id : Nat) :
    extract_from_node node IPPROTO_ICMPV6 l4_id = extract_from_node node IPPROTO_ICMP l4_id := by
  unfold extract_from_node
  rw [get_ids_icmpv6]

theorem pool4_get_any_loop_icmpv6 (cpu_port : Nat) :
    ∀ pool : List pool_node,
      pool4_get_any_loop IPPROTO_ICMPV6 cpu_port pool
        = pool4_get_any_loop IPPROTO_ICMP cpu_port pool := by
  intro pool
  induction pool with
  | nil => rfl
  | cons node rest ih =>
    unfold pool4_get_any_loop
    rw [extract_from_node_icmpv6, ih]

theorem get_section_fst (ids : Option ids_ptr) (l4_id : Nat) (r : ids_ptr × section_ptr)
    (h : get_section ids l4_id = some r) : ids = some r.1 := by
  cases ids with
  | none => simp [get_section] at h
  | some p =>
    obtain ⟨q, hq⟩ := get_section_some p l4_id
    rw [hq] at h
    simp only [Option.some.injEq] at h
    rw [← h]

theorem pool_node_ids_set_sec_ne (node : pool_node) (r : ids_ptr × section_ptr)
    (sec : addr_section) (b : ids_ptr) (h : b ≠ r.1) :
    (node.set_sec r sec).ids b = node.ids b := by
  obtain ⟨p, q⟩ := r
  cases p <;> cases b <;> first
    | exact absurd rfl h
    | rfl

theorem extract_from_node_ids (node node1 : pool_node) (l4protocol l4_id port : Nat)
    (b : ids_ptr) (h : extract_from_node node l4protocol l4_id = some (port, node1))
    (hb : get_ids node l4protocol ≠ some b) : node1.ids b = node.ids b := by
  obtain ⟨r, sec, hsel, _, hnode1⟩ := extract_from_node_some node node1 l4protocol l4_id port h
  have hfst := get_section_fst _ _ _ hsel
  rw [hnode1]
  exact pool_node_ids_set_sec_ne node r sec b (fun e => hb (by rw [hfst, e]))

theorem pool4_get_any_loop_ids (l4protocol cpu_port : Nat) (b : ids_ptr)
    (hb : ∀ node : pool_node, get_ids node l4protocol ≠ some b) :
    ∀ pool : List pool_node,
      (pool4_get_any_loop l4protocol cpu_port pool).2.map (fun node => node.ids b)
        = pool.map (fun node => node.ids b) := by
  intro pool
  induction pool with
  | nil => rfl
  | cons node rest ih =>
    unfold pool4_get_any_loop
    cases h : extract_from_node node l4protocol cpu_port with
    | none => simp only [List.map_cons, ih]
    | some res =>
      obtain ⟨port, node1⟩ := res
      simp only [List.map_cons, extract_from_node_ids node node1 l4protocol cpu_port port b h
        (hb node)]

theorem pool4_return_false (kmalloc_ok : Bool) (l4protocol : Nat)
    (address : Option ipv4_tuple_address) (pool : List pool_node) :
    (pool4_return kmalloc_ok l4protocol address pool).1 = false →
    (pool4_return kmalloc_ok l4protocol address pool).2 = pool := by
  unfold pool4_return
  split
  · intro _; rfl
  · split
    · intro _; rfl
    · split
      · intro _; rfl
      · split_ifs
        · intro _; rfl
        · intro h; simp at h

/-- C23. ICMPv4 and ICMPv6 share one bucket: on every pool, `pool4_get_any`,
`pool4_get_similar` and `pool4_return` called with IPPROTO_ICMPV6 give the same result and
the same pool as with IPPROTO_ICMP. And the buckets are independent: for every protocol
number and every bucket that `get_ids` does not select for it, the three operations leave
that bucket as it is in every node of the pool. -/
theorem icmp_bucket_shared_buckets_independent (big_endian kmalloc_ok : Bool)
    (pool : List pool_node) :
    (∀ port : Nat,
      pool4_get_any big_endian IPPROTO_ICMPV6 port pool
        = pool4_get_any big_endian IPPROTO_ICMP port pool) ∧
    (∀ address : Option ipv4_tuple_address,
      pool4_get_similar IPPROTO_ICMPV6 address pool
        = pool4_get_similar IPPROTO_ICMP address pool) ∧
    (∀ address : Option ipv4_tuple_address,
      pool4_return kmalloc_ok IPPROTO_ICMPV6 address pool
        = pool4_return kmalloc_ok IPPROTO_ICMP address pool) ∧
    (∀ (l4protocol : Nat) (b : ids_ptr),
      (∀ node : pool_node, get_ids node l4protocol ≠ some b) →
      (∀ port : Nat,
        (pool4_get_any big_endian l4protocol port pool).2.map (fun node => node.ids b)
          = pool.map (fun node => node.ids b)) ∧
      (∀ address : Option ipv4_tuple_address,
        (pool4_get_similar l4protocol address pool).2.map (fun node => node.ids b)
          = pool.map (fun node => node.ids b)) ∧
      (∀ address : Option ipv4_tuple_address,
        (pool4_return kmalloc_ok l4protocol address pool).2.map (fun node => node.ids b)
          = pool.map (fun node => node.ids b))) ∧
    (∀ node : pool_node,
      get_ids node IPPROTO_UDP = some ids_ptr.udp ∧ get_ids node IPPROTO_TCP = some ids_ptr.tcp ∧
      get_ids node IPPROTO_ICMP = some ids_ptr.icmp ∧
      get_ids node IPPROTO_ICMPV6 = some ids_ptr.icmp) := by
  refine ⟨?_, ?_, ?_, ?_, ?_⟩
  · intro port
    rw [pool4_get_any_eq_loop, pool4_get_any_eq_loop, pool4_get_any_loop_icmpv6]
  · intro address
    cases address with
    | none => rfl
    | some a =>
      unfold pool4_get_similar
      cases get_pool_node pool a.address with
      | none => rfl
      | some found =>
        obtain ⟨before, node, after⟩ := found
        simp only [extract_from_node_icmpv6]
  · intro address
    cases address with
    | none => rfl
    | some a =>
      unfold pool4_return
      cases get_pool_node pool a.address with
      | none => rfl
      | some found =>
        obtain ⟨before, node, after⟩ := found
        simp only [get_ids_icmpv6]
  · intro l4protocol b hb
    refine ⟨?_, ?_, ?_⟩
    · intro port
      rw [pool4_get_any_eq_loop]
      exact pool4_get_any_loop_ids l4protocol _ b hb pool
    · intro address
      cases address with
      | none => rfl
      | some a =>
        cases hfind : get_pool_node pool a.address with
        | none => simp only [pool4_get_similar, hfind]
        | some found =>
          obtain ⟨before, node, after⟩ := found
          rw [pool4_get_similar_found l4protocol a pool before node after hfind]
          have hpool := (get_pool_node_some a.address pool before node after hfind).1
          cases h : extract_from_node node l4protocol a.l4_id with
          | none => rfl
          | some res =>
            obtain ⟨port, node1⟩ := res
            simp only [hpool, List.map_append, List.map_cons,
              extract_from_node_ids node node1 l4protocol a.l4_id port b h (hb node)]
    · intro address
      cases address with
      | none => rfl
      | some a =>
        cases hok : (pool4_return kmalloc_ok l4protocol (some a) pool).1 with
        | false => rw [pool4_return_false kmalloc_ok l4protocol (some a) pool hok]
        | true =>
          obtain ⟨before, node, after, r, _, hfind, hsel, hpool1⟩ :=
            pool4_return_true kmalloc_ok l4protocol a pool
              (pool4_return kmalloc_ok l4protocol (some a) pool).2
              (by rw [← hok])
          have hpool := (get_pool_node_some a.address pool before node after hfind).1
          have hfst := get_section_fst _ _ _ hsel
          rw [hpool1]
          simp only [hpool, List.map_append, List.map_cons,
            pool_node_ids_set_sec_ne node r _ b (fun e => hb node (by rw [hfst, e]))]
  · intro node
    exact ⟨rfl, rfl, rfl, rfl⟩

/-- C23, on the address 192.0.2.1: a port taken under ICMP (0) is not issued again under
ICMPv6 (the next one is 2), a port returned under ICMPv6 is issued again under ICMP, and the
UDP bucket is as it was. -/
theorem icmp_bucket_shared_buckets_independent_witness :
    (pool4_get_similar IPPROTO_ICMPV6 (some { address := 3221225985, l4_id := 0 })
      (pool4_get_similar IPPROTO_ICMP (some { address := 3221225985, l4_id := 0 })
        [init_pool_node 3221225985]).2).1 = some { address := 3221225985, l4_id := 2 } ∧
    (pool4_get_similar IPPROTO_ICMP (some { address := 3221225985, l4_id := 0 })
      (pool4_return true IPPROTO_ICMPV6 (some { address := 3221225985, l4_id := 4 })
        [init_pool_node 3221225985]).2).1 = some { address := 3221225985, l4_id := 4 } ∧
    (pool4_get_similar IPPROTO_ICMP (some { address := 3221225985, l4_id := 0 })
        [init_pool_node 3221225985]).2.map (fun node => node.ids ids_ptr.udp)
      = [init_pool_node 3221225985].map (fun node => node.ids ids_ptr.udp) :=
  ⟨by rw [(icmp_bucket_shared_buckets_independent false true _).2.1]; rfl,
    by rw [(icmp_bucket_shared_buckets_independent false true _).2.2.1]; rfl,
    ((icmp_bucket_shared_buckets_independent false true [init_pool_node 3221225985]).2.2.2.1
      IPPROTO_ICMP ids_ptr.udp (fun _ h => by cases h)).2.1 _⟩

/-! ### Well-formed sections in every reachable state -/

/-- C24. In every pool state that the public operations reach from the empty pool, every
section of every node is well formed: with L the low bound of the section and `max_port` its
high bound, `L <= next_port <= max_port + 2`, `next_port` has the parity of the section and
is at most 65537, the `__u32` sum `next_port + 2` does not wrap, a port that
`extract_any_port` takes from the ladder is `next_port` itself, below 65536, and every port
of the free list has the parity of the section and lies between L and `max_port`. -/
theorem reachable_sections_well_formed (big_endian : Bool) (pool : List pool_node)
    (hreach : reachable big_endian pool) :
    ∀ node ∈ pool, ∀ r : ids_ptr × section_ptr,
      (node.sec r).max_port = r.2.high ∧ r.2.high ≤ 65535 ∧
      r.2.low ≤ (node.sec r).next_port ∧
      (node.sec r).next_port ≤ (node.sec r).max_port + 2 ∧
      (node.sec r).next_port % 2 = r.2.low % 2 ∧
      (node.sec r).next_port ≤ 65537 ∧
      ((node.sec r).next_port + 2) % 4294967296 = (node.sec r).next_port + 2 ∧
      (∀ (port : Nat) (sec1 : addr_section), (node.sec r).free_ports = [] →
        extract_any_port (some (node.sec r)) = some (port, sec1) →
        port = (node.sec r).next_port ∧ port < 65536 ∧
          sec1.next_port = (node.sec r).next_port + 2) ∧
      (∀ port ∈ (node.sec r).free_ports,
        port % 2 = r.2.low % 2 ∧ r.2.low ≤ port ∧ port ≤ (node.sec r).max_port) := by
  intro node hnode r
  obtain ⟨hmax, hlow, hnext, hpar, hfree⟩ := pool_ok_reachable big_endian pool hreach node hnode r
  have hb := (section_ptr_bounds r.2).2.1
  refine ⟨hmax, hb, hlow, by omega, hpar, by omega, by omega, ?_, ?_⟩
  · intro port sec1 hempty hext
    by_cases hle : (node.sec r).next_port ≤ (node.sec r).max_port
    · rw [extract_any_port_ladder _ hempty hle (by omega)] at hext
      simp only [Option.some.injEq, Prod.mk.injEq] at hext
      obtain ⟨h1, h2⟩ := hext
      subst h2
      exact ⟨h1.symm, by omega, rfl⟩
    · rw [extract_any_port_exhausted _ hempty (by omega)] at hext
      cases hext
  · intro port hport
    obtain ⟨h1, h2, h3⟩ := hfree port hport
    exact ⟨h3, h1, by omega⟩

/-- C24, on the state after `fifo_calls`: the UDP even_low section of 192.0.2.1 has
`next_port` = 4, within its bounds 0 and 1022 + 2, and the port 2 in its free list. -/
theorem reachable_sections_well_formed_witness :
    reachable false (pool4_run false fifo_calls []) ∧
    pool4_run false fifo_calls []
      = [(init_pool_node 3221225985).set_sec (ids_ptr.udp, section_ptr.even_low)
          (addr_section.mk 4 1022 [2])] ∧
    (addr_section.mk 4 1022 [2]).next_port ≤ (addr_section.mk 4 1022 [2]).max_port + 2 ∧
    (addr_section.mk 4 1022 [2]).next_port ≤ 65537 :=
  ⟨⟨fifo_calls, by decide, rfl⟩, by decide,
    (reachable_sections_well_formed false (pool4_run false fifo_calls [])
      ⟨fifo_calls, by decide, rfl⟩
      ((init_pool_node 3221225985).set_sec (ids_ptr.udp, section_ptr.even_low)
        (addr_section.mk 4 1022 [2]))
      (by decide) (ids_ptr.udp, section_ptr.even_low)).2.2.2.1,
    (reachable_sections_well_formed false (pool4_run false fifo_calls [])
      ⟨fifo_calls, by decide, rfl⟩
      ((init_pool_node 3221225985).set_sec (ids_ptr.udp, section_ptr.even_low)
        (addr_section.mk 4 1022 [2]))
      (by decide) (ids_ptr.udp, section_ptr.even_low)).2.2.2.2.2.1⟩

/-! ### Ports that are out -/

theorem get_ids_bucket (node : pool_node) (l4protocol : Nat) :
    get_ids node l4protocol = protocol_bucket l4protocol := rfl

theorem in_band_unique (p q : section_ptr) (port : Nat) (hp : in_band p port)
    (hq : in_band q port) : p = q := by
  unfold in_band section_ptr.low section_ptr.high at hp hq
  cases p <;> cases q <;>
    simp [init_protocol_ids, init_section, protocol_ids.sec] at hp hq ⊢ <;> omega

theorem in_band_lt (p : section_ptr) (port : Nat) (h : in_band p port) : port < 65536 := by
  have := (section_ptr_bounds p).2.1
  have := h.2.1
  omega

theorem section_accounted_congr (p : section_ptr) (sec : addr_section) (out out1 : Nat → Prop)
    (h : ∀ port, in_band p port → (out port ↔ out1 port))
    (hout1 : ∀ port, out1 port → in_band p port)
    (hacc : section_accounted p sec out) : section_accounted p sec out1 := by
  obtain ⟨h1, h2, h3, h4⟩ := hacc
  refine ⟨h1, h2, fun port ho => h3 port ((h port (hout1 port ho)).mpr ho), fun port hb hlt => ?_⟩
  rcases h4 port hb hlt with hf | ho
  · exact Or.inl hf
  · exact Or.inr ((h port hb).mp ho)

theorem section_accounted_extract (p : section_ptr) (sec sec1 : addr_section) (port : Nat)
    (out : Nat → Prop) (hok : section_ok p sec) (hacc : section_accounted p sec out)
    (h : extract_any_port (some sec) = some (port, sec1)) :
    ¬ out port ∧ section_accounted p sec1 (fun q => out q ∨ q = port) := by
  obtain ⟨h1, h2, h3, h4⟩ := hacc
  obtain ⟨hmax, hlow, hnext, hpar, hfree⟩ := hok
  have hb := (section_ptr_bounds p).2.1
  cases hf : sec.free_ports with
  | cons first rest =>
    rw [extract_any_port_reuse sec first rest hf] at h
    simp only [Option.some.injEq, Prod.mk.injEq] at h
    obtain ⟨e1, e2⟩ := h
    subst e1 e2
    rw [hf] at h1 h2
    have hnd := List.nodup_cons.mp h1
    refine ⟨fun ho => (h3 first ho).2 (by rw [hf]; exact List.mem_cons_self _ _), hnd.2,
      fun q hq => h2 q (List.mem_cons_of_mem _ hq), ?_, ?_⟩
    · intro q hq
      rcases hq with ho | e
      · have := h3 q ho
        rw [hf] at this
        exact ⟨this.1, fun hm => this.2 (List.mem_cons_of_mem _ hm)⟩
      · subst e
        exact ⟨h2 q (List.mem_cons_self _ _), hnd.1⟩
    · intro q hq hlt
      rcases h4 q hq hlt with hm | ho
      · rw [hf] at hm
        rcases List.mem_cons.mp hm with e | hm2
        · exact Or.inr (Or.inr e)
        · exact Or.inl hm2
      · exact Or.inr (Or.inl ho)
  | nil =>
    by_cases hle : sec.next_port ≤ sec.max_port
    · rw [extract_any_port_ladder sec hf hle (by omega)] at h
      simp only [Option.some.injEq, Prod.mk.injEq] at h
      obtain ⟨e1, e2⟩ := h
      subst e1 e2
      refine ⟨fun ho => Nat.lt_irrefl _ (h3 _ ho).1, ?_, ?_, ?_, ?_⟩
      · simp only [hf]
        exact List.nodup_nil
      · simp only [hf]
        intro q hq
        cases hq
      · intro q hq
        simp only [hf, List.not_mem_nil, not_false_eq_true, and_true]
        rcases hq with ho | e
        · have := (h3 q ho).1; omega
        · omega
      · intro q hq hlt
        simp only at hlt
        have hqpar := hq.2.2
        by_cases hq2 : q < sec.next_port
        · rcases h4 q hq hq2 with hm | ho
          · rw [hf] at hm; cases hm
          · exact Or.inr (Or.inl ho)
        · exact Or.inr (Or.inr (by omega))
    · rw [extract_any_port_exhausted sec hf (by omega)] at h
      cases h

theorem section_accounted_return (p : section_ptr) (sec : addr_section) (port : Nat)
    (out : Nat → Prop) (hacc : section_accounted p sec out) (hout : out port) :
    section_accounted p (add_free_port sec port) (fun q => out q ∧ q ≠ port) := by
  obtain ⟨h1, h2, h3, h4⟩ := hacc
  have hp := h3 port hout
  unfold add_free_port
  refine ⟨?_, ?_, ?_, ?_⟩
  · simp only
    rw [List.nodup_append]
    refine ⟨h1, List.nodup_singleton _, ?_⟩
    intro a ha hb
    rw [List.mem_singleton] at hb
    subst hb
    exact hp.2 ha
  · intro q hq
    simp only [List.mem_append, List.mem_singleton] at hq
    rcases hq with hq | e
    · exact h2 q hq
    · subst e; exact hp.1
  · intro q hq
    simp only [List.mem_append, List.mem_singleton, not_or]
    exact ⟨(h3 q hq.1).1, (h3 q hq.1).2, hq.2⟩
  · intro q hq hlt
    simp only [List.mem_append, List.mem_singleton]
    by_cases e : q = port
    · exact Or.inl (Or.inr e)
    · rcases h4 q hq hlt with hm | ho
      · exact Or.inl (Or.inl hm)
      · exact Or.inr ⟨ho, e⟩

theorem nodup_addresses_split (before after : List pool_node) (node : pool_node)
    (h : ((before ++ node :: after).map (fun n => n.address)).Nodup) :
    ∀ n, n ∈ before ∨ n ∈ after → n.address ≠ node.address := by
  simp only [List.map_append, List.map_cons] at h
  rw [List.nodup_append] at h
  obtain ⟨_, h2, h3⟩ := h
  have h2c := List.nodup_cons.mp h2
  intro n hn e
  rcases hn with hn | hn
  · exact h3 (List.mem_map_of_mem (fun n => n.address) hn)
      (by rw [e]; exact List.mem_cons_self _ _)
  · exact h2c.1 (by rw [← e]; exact List.mem_map_of_mem (fun n => n.address) hn)

theorem accounted_replace (before after : List pool_node) (node : pool_node)
    (r : ids_ptr × section_ptr) (sec1 : addr_section)
    (alloc alloc1 : List (Nat × ids_ptr × Nat))
    (hacc : accounted (pool4_state.mk (before ++ node :: after) alloc))
    (hok : section_ok r.2 sec1) (hnodup : alloc1.Nodup)
    (hdom : ∀ x ∈ alloc1,
      x.1 ∈ (before ++ node :: after).map (fun n => n.address) ∧ x.2.2 < 65536)
    (hframe : ∀ (a : Nat) (b : ids_ptr) (p : Nat),
      ¬ (a = node.address ∧ b = r.1 ∧ in_band r.2 p) →
      ((a, b, p) ∈ alloc1 ↔ (a, b, p) ∈ alloc))
    (hsec : section_accounted r.2 sec1
      (fun p => (node.address, r.1, p) ∈ alloc1 ∧ in_band r.2 p)) :
    accounted (pool4_state.mk (before ++ node.set_sec r sec1 :: after) alloc1) := by
  obtain ⟨hpok, haddr, hnd, hd, hsecs⟩ := hacc
  simp only at hpok haddr hnd hd hsecs
  have hmap : (before ++ node.set_sec r sec1 :: after).map (fun n => n.address)
      = (before ++ node :: after).map (fun n => n.address) := by
    simp only [List.map_append, List.map_cons, pool_node_set_sec_address]
  have hnode_ok : node_ok node := hpok node (by simp)
  refine ⟨pool_ok_replace before after node _ hpok (node_ok_set_sec node r sec1 hnode_ok hok),
    by simp only [hmap]; exact haddr, hnodup, by simp only [hmap]; exact hdom, ?_⟩
  intro n hn r1
  simp only at hn ⊢
  have hother : ∀ m : pool_node, (m ∈ before ∨ m ∈ after) →
      section_accounted r1.2 (m.sec r1)
        (fun port => (m.address, r1.1, port) ∈ alloc1 ∧ in_band r1.2 port) := by
    intro m hm
    have hne := nodup_addresses_split before after node haddr m hm
    have hmem : m ∈ before ++ node :: after := by
      rcases hm with h | h
      · exact List.mem_append_left _ h
      · exact List.mem_append_right _ (List.mem_cons_of_mem _ h)
    refine section_accounted_congr r1.2 (m.sec r1) _ _ ?_ (fun port h => h.2) (hsecs m hmem r1)
    intro port _
    rw [hframe m.address r1.1 port (fun h => hne h.1)]
  rcases List.mem_append.mp hn with h | h
  · exact hother n (Or.inl h)
  · rcases List.mem_cons.mp h with h | h
    · subst h
      rw [pool_node_set_sec_address]
      by_cases e : r1 = r
      · subst e
        rw [pool_node_sec_set_sec]
        exact hsec
      · rw [pool_node_sec_set_sec_ne node r r1 sec1 e]
        refine section_accounted_congr r1.2 (node.sec r1) _ _ ?_ (fun port h => h.2)
          (hsecs node (by simp) r1)
        intro port hband
        rw [hframe node.address r1.1 port (fun h => e (Prod.ext h.2.1
          (in_band_unique r1.2 r.2 port hband h.2.2)))]
    · exact hother n (Or.inr h)

theorem pool4_get_any_loop_some (l4protocol cpu_port : Nat) (res : ipv4_tuple_address) :
    ∀ pool pool1 : List pool_node,
      pool4_get_any_loop l4protocol cpu_port pool = (some res, pool1) →
      ∃ (before : List pool_node) (node node1 : pool_node) (after : List pool_node),
        pool = before ++ node :: after ∧ pool1 = before ++ node1 :: after ∧
        extract_from_node node l4protocol cpu_port = some (res.l4_id, node1) ∧
        res.address = node.address := by
  intro pool
  induction pool with
  | nil => intro pool1 h; simp [pool4_get_any_loop] at h
  | cons node rest ih =>
    intro pool1 h
    unfold pool4_get_any_loop at h
    cases hx : extract_from_node node l4protocol cpu_port with
    | some found =>
      obtain ⟨port, node1⟩ := found
      simp only [hx, Prod.mk.injEq, Option.some.injEq] at h
      obtain ⟨h1, h2⟩ := h
      subst h1 h2
      exact ⟨[], node, node1, rest, rfl, rfl, hx, rfl⟩
    | none =>
      simp only [hx, Prod.mk.injEq] at h
      obtain ⟨h1, h2⟩ := h
      obtain ⟨before, n, n1, after, e1, e2, e3, e4⟩ :=
        ih (pool4_get_any_loop l4protocol cpu_port rest).2 (Prod.ext h1 rfl)
      refine ⟨node :: before, n, n1, after, by rw [e1]; rfl, ?_, e3, e4⟩
      rw [← h2, e2]; rfl

theorem pool4_get_any_loop_fail (l4protocol cpu_port : Nat) :
    ∀ pool : List pool_node, (pool4_get_any_loop l4protocol cpu_port pool).1 = none →
      (pool4_get_any_loop l4protocol cpu_port pool).2 = pool := by
  intro pool
  induction pool with
  | nil => intro _; rfl
  | cons node rest ih =>
    intro h
    unfold pool4_get_any_loop at h ⊢
    cases hx : extract_from_node node l4protocol cpu_port with
    | some found =>
      obtain ⟨port, node1⟩ := found
      simp [hx] at h
    | none =>
      simp only [hx] at h ⊢
      rw [ih h]

theorem accounted_issue (before after : List pool_node) (node node1 : pool_node)
    (l4protocol hint port : Nat) (alloc : List (Nat × ids_ptr × Nat))
    (hacc : accounted (pool4_state.mk (before ++ node :: after) alloc))
    (hx : extract_from_node node l4protocol hint = some (port, node1)) :
    ∃ b : ids_ptr, protocol_bucket l4protocol = some b ∧ (node.address, b, port) ∉ alloc ∧
      accounted (pool4_state.mk (before ++ node1 :: after) ((node.address, b, port) :: alloc))
      := by
  obtain ⟨r, sec, hsel, hext, hnode1⟩ := extract_from_node_some node node1 l4protocol hint port hx
  have hb : protocol_bucket l4protocol = some r.1 := get_section_fst _ _ _ hsel
  have hacc2 := hacc
  obtain ⟨hpok, haddr, hnd, hd, hsecs⟩ := hacc2
  simp only at hpok haddr hnd hd hsecs
  have hmem : node ∈ before ++ node :: after := by simp
  obtain ⟨hok1, hband⟩ := section_ok_extract r.2 (node.sec r) sec port (hpok node hmem r) hext
  obtain ⟨hnot, hsec1⟩ := section_accounted_extract r.2 (node.sec r) sec port _
    (hpok node hmem r) (hsecs node hmem r) hext
  have hnotin : (node.address, r.1, port) ∉ alloc := fun h => hnot ⟨h, hband⟩
  refine ⟨r.1, hb, hnotin, ?_⟩
  rw [hnode1]
  refine accounted_replace before after node r sec alloc _ hacc hok1
    (List.nodup_cons.mpr ⟨hnotin, hnd⟩) ?_ ?_ ?_
  · intro x hxm
    rcases List.mem_cons.mp hxm with e | h
    · subst e
      exact ⟨List.mem_map_of_mem (fun n => n.address) hmem, in_band_lt r.2 port hband⟩
    · exact hd x h
  · intro a b p hne
    rw [List.mem_cons]
    constructor
    · rintro (e | h)
      · simp only [Prod.mk.injEq] at e
        exact absurd ⟨e.1, e.2.1, e.2.2 ▸ hband⟩ hne
      · exact h
    · exact fun h => Or.inr h
  · refine section_accounted_congr r.2 sec _ _ ?_ (fun q h => h.2) hsec1
    intro q hq
    rw [List.mem_cons]
    constructor
    · rintro (h | e)
      · exact ⟨Or.inr h.1, hq⟩
      · exact ⟨Or.inl (by rw [e]), hq⟩
    · rintro ⟨e | h, _⟩
      · simp only [Prod.mk.injEq, true_and] at e
        exact Or.inr e
      · exact Or.inl ⟨h, hq⟩

theorem accounted_give_back (before after : List pool_node) (node : pool_node)
    (r : ids_ptr × section_ptr) (port : Nat) (alloc : List (Nat × ids_ptr × Nat))
    (hacc : accounted (pool4_state.mk (before ++ node :: after) alloc))
    (hout : (node.address, r.1, port) ∈ alloc) (hband : in_band r.2 port) :
    accounted (pool4_state.mk
      (before ++ node.set_sec r (add_free_port (node.sec r) port) :: after)
      (alloc.erase (node.address, r.1, port))) := by
  have hacc2 := hacc
  obtain ⟨hpok, haddr, hnd, hd, hsecs⟩ := hacc2
  simp only at hpok haddr hnd hd hsecs
  have hmem : node ∈ before ++ node :: after := by simp
  have hsec1 := section_accounted_return r.2 (node.sec r) port _ (hsecs node hmem r)
    ⟨hout, hband⟩
  refine accounted_replace before after node r _ alloc _ hacc
    (section_ok_add_free_port r.2 (node.sec r) port (hpok node hmem r) hband)
    (hnd.erase _) ?_ ?_ ?_
  · intro x hxm
    exact hd x (List.mem_of_mem_erase hxm)
  · intro a b p hne
    rw [hnd.mem_erase_iff]
    constructor
    · exact fun h => h.2
    · intro h
      refine ⟨fun e => ?_, h⟩
      simp only [Prod.mk.injEq] at e
      exact hne ⟨e.1, e.2.1, e.2.2 ▸ hband⟩
  · refine section_accounted_congr r.2 _ _ _ ?_ (fun q h => h.2) hsec1
    intro q hq
    rw [hnd.mem_erase_iff]
    constructor
    · rintro ⟨⟨h, _⟩, hne⟩
      exact ⟨⟨fun e => hne (by simp only [Prod.mk.injEq] at e; exact e.2.2), h⟩, hq⟩
    · rintro ⟨⟨hne, h⟩, _⟩
      exact ⟨⟨h, hq⟩, fun e => hne (by rw [e])⟩

theorem init_pool_node_sec (address : Nat) (r : ids_ptr × section_ptr) :
    (init_pool_node address).sec r = init_protocol_ids.sec r.2 := by
  obtain ⟨b, q⟩ := r
  cases b <;> rfl

theorem accounted_register (kmalloc_ok : Bool) (address : Option Nat) (st : pool4_state)
    (hacc : accounted st) :
    accounted (pool4_state.mk (pool4_register kmalloc_ok address st.pool).2 st.allocated) := by
  obtain ⟨pool, alloc⟩ := st
  have hacc2 := hacc
  obtain ⟨hpok, haddr, hnd, hd, hsecs⟩ := hacc2
  simp only at hpok haddr hnd hd hsecs ⊢
  have haddr1 := registered_step_nodup _ (pool4_call.register kmalloc_ok address) haddr
  rw [← addresses_register] at haddr1
  refine ⟨pool_ok_register kmalloc_ok address pool hpok, haddr1, hnd, ?_, ?_⟩
  · intro x hx
    refine ⟨?_, (hd x hx).2⟩
    have h1 := (hd x hx).1
    unfold pool4_register
    cases address with
    | none => exact h1
    | some addr =>
      simp only
      split_ifs
      · exact h1
      · exact h1
      · simp only [List.map_append, List.mem_append]
        exact Or.inl h1
  · intro node hnode r
    unfold pool4_register at hnode
    cases address with
    | none => exact hsecs node hnode r
    | some addr =>
      simp only at hnode
      split_ifs at hnode with hk hany
      · exact hsecs node hnode r
      · exact hsecs node hnode r
      · rcases List.mem_append.mp hnode with h | h
        · exact hsecs node h r
        · rw [List.mem_singleton] at h
          subst h
          have hfresh : addr ∉ pool.map (fun node => node.address) := by
            intro hin
            rw [← pool4_contains_iff, ← pool4_contains_any] at hin
            exact hany hin
          have hno : ∀ port, ¬ ((addr, r.1, port) ∈ alloc ∧ in_band r.2 port) :=
            fun port h => hfresh (hd _ h.1).1
          obtain ⟨_, _, hnext, _, hfree⟩ := section_ptr_bounds r.2
          rw [init_pool_node_sec]
          refine ⟨by rw [hfree]; exact List.nodup_nil, ?_,
            fun port h => absurd h (hno port), ?_⟩
          · rw [hfree]
            intro p hp
            cases hp
          intro port hband hlt
          rw [hnext] at hlt
          have := hband.1
          omega

theorem accounted_remove (address : Option Nat) (st : pool4_state) (hacc : accounted st)
    (hdisc : ∀ addr, address = some addr → ∀ x ∈ st.allocated, x.1 ≠ addr) :
    accounted (pool4_state.mk (pool4_remove address st.pool).2 st.allocated) := by
  obtain ⟨pool, alloc⟩ := st
  have hacc2 := hacc
  obtain ⟨hpok, haddr, hnd, hd, hsecs⟩ := hacc2
  simp only at hpok haddr hnd hd hsecs hdisc ⊢
  have haddr1 := registered_step_nodup _ (pool4_call.remove address) haddr
  rw [← addresses_remove] at haddr1
  refine ⟨pool_ok_remove address pool hpok, haddr1, hnd, ?_, ?_⟩
  · intro x hx
    refine ⟨?_, (hd x hx).2⟩
    have h1 := (hd x hx).1
    unfold pool4_remove
    cases address with
    | none => exact h1
    | some addr =>
      simp only
      cases hfind : get_pool_node pool addr with
      | none => exact h1
      | some found =>
        obtain ⟨before, node, after⟩ := found
        obtain ⟨hpool, hnode, _⟩ := get_pool_node_some addr pool before node after hfind
        have hne := hdisc addr rfl x hx
        simp only [destroy_pool_node]
        rw [hpool] at h1
        simp only [List.map_append, List.map_cons, List.mem_append, List.mem_cons] at h1 ⊢
        rcases h1 with h | h | h
        · exact Or.inl h
        · exact absurd (h.trans hnode) hne
        · exact Or.inr h
  · intro node hnode r
    unfold pool4_remove at hnode
    cases address with
    | none => exact hsecs node hnode r
    | some addr =>
      simp only at hnode
      cases hfind : get_pool_node pool addr with
      | none =>
        rw [hfind] at hnode
        exact hsecs node hnode r
      | some found =>
        obtain ⟨before, n, after⟩ := found
        rw [hfind] at hnode
        obtain ⟨hpool, _, _⟩ := get_pool_node_some addr pool before n after hfind
        simp only [destroy_pool_node] at hnode
        refine hsecs node ?_ r
        rw [hpool]
        rcases List.mem_append.mp hnode with h | h
        · exact List.mem_append_left _ h
        · exact List.mem_append_right _ (List.mem_cons_of_mem _ h)

theorem accounted_get_any (big_endian : Bool) (l4protocol port : Nat) (st : pool4_state)
    (hacc : accounted st) :
    accounted (pool4_state.mk (pool4_get_any big_endian l4protocol port st.pool).2
      (record_issue l4protocol (pool4_get_any big_endian l4protocol port st.pool).1
        st.allocated)) ∧
    ∀ (res : ipv4_tuple_address) (b : ids_ptr),
      (pool4_get_any big_endian l4protocol port st.pool).1 = some res →
      protocol_bucket l4protocol = some b → (res.address, b, res.l4_id) ∉ st.allocated := by
  obtain ⟨pool, alloc⟩ := st
  simp only
  rw [pool4_get_any_eq_loop]
  cases hres : (pool4_get_any_loop l4protocol (be16_to_cpu big_endian port) pool).1 with
  | none =>
    rw [pool4_get_any_loop_fail _ _ pool hres]
    exact ⟨hacc, fun res b h => by cases h⟩
  | some res =>
    obtain ⟨before, node, node1, after, hpool, hpool1, hx, haddr⟩ :=
      pool4_get_any_loop_some l4protocol (be16_to_cpu big_endian port) res pool
        (pool4_get_any_loop l4protocol (be16_to_cpu big_endian port) pool).2
        (by rw [← hres])
    rw [hpool] at hacc
    obtain ⟨b, hb, hnot, hacc1⟩ := accounted_issue before after node node1 l4protocol _ _
      alloc hacc hx
    rw [hpool1]
    constructor
    · simp only [record_issue, hb, haddr]
      exact hacc1
    · intro res1 b1 h1 h2
      simp only [Option.some.injEq] at h1
      subst h1
      rw [hb] at h2
      simp only [Option.some.injEq] at h2
      subst h2
      rw [haddr]
      exact hnot

theorem accounted_get_similar (l4protocol : Nat) (address : Option ipv4_tuple_address)
    (st : pool4_state) (hacc : accounted st) :
    accounted (pool4_state.mk (pool4_get_similar l4protocol address st.pool).2
      (record_issue l4protocol (pool4_get_similar l4protocol address st.pool).1
        st.allocated)) ∧
    ∀ (res : ipv4_tuple_address) (b : ids_ptr),
      (pool4_get_similar l4protocol address st.pool).1 = some res →
      protocol_bucket l4protocol = some b → (res.address, b, res.l4_id) ∉ st.allocated := by
  obtain ⟨pool, alloc⟩ := st
  simp only
  cases address with
  | none => exact ⟨hacc, fun res b h => by cases h⟩
  | some a =>
    cases hfind : get_pool_node pool a.address with
    | none =>
      have e : pool4_get_similar l4protocol (some a) pool = (none, pool) := by
        simp only [pool4_get_similar, hfind]
      rw [e]
      exact ⟨hacc, fun res b h => by cases h⟩
    | some found =>
      obtain ⟨before, node, after⟩ := found
      rw [pool4_get_similar_found l4protocol a pool before node after hfind]
      obtain ⟨hpool, hnode, _⟩ := get_pool_node_some a.address pool before node after hfind
      cases hx : extract_from_node node l4protocol a.l4_id with
      | none => exact ⟨hacc, fun res b h => by cases h⟩
      | some found1 =>
        obtain ⟨port, node1⟩ := found1
        rw [hpool] at hacc
        obtain ⟨b, hb, hnot, hacc1⟩ := accounted_issue before after node node1 l4protocol _ _
          alloc hacc hx
        rw [hnode] at hnot hacc1
        constructor
        · simp only [record_issue, hb]
          exact hacc1
        · intro res1 b1 h1 h2
          simp only [Option.some.injEq] at h1
          subst h1
          rw [hb] at h2
          simp only [Option.some.injEq] at h2
          subst h2
          exact hnot

theorem accounted_return (kmalloc_ok : Bool) (l4protocol : Nat)
    (address : Option ipv4_tuple_address) (st : pool4_state) (hacc : accounted st)
    (hdisc : ∀ a, address = some a → ∀ b : ids_ptr, protocol_bucket l4protocol = some b →
      (a.address, b, a.l4_id) ∈ st.allocated) :
    accounted (pool4_state.mk (pool4_return kmalloc_ok l4protocol address st.pool).2
      (record_return (pool4_return kmalloc_ok l4protocol address st.pool).1 l4protocol
        address st.allocated)) := by
  obtain ⟨pool, alloc⟩ := st
  simp only at hdisc ⊢
  cases hok : (pool4_return kmalloc_ok l4protocol address pool).1 with
  | false =>
    rw [pool4_return_false kmalloc_ok l4protocol address pool hok]
    exact hacc
  | true =>
    cases address with
    | none => simp [pool4_return] at hok
    | some a =>
      obtain ⟨before, node, after, r, _, hfind, hsel, hpool1⟩ :=
        pool4_return_true kmalloc_ok l4protocol a pool
          (pool4_return kmalloc_ok l4protocol (some a) pool).2 (by rw [← hok])
      obtain ⟨hpool, hnode, _⟩ := get_pool_node_some a.address pool before node after hfind
      have hb : protocol_bucket l4protocol = some r.1 := get_section_fst _ _ _ hsel
      have hout := hdisc a rfl r.1 hb
      have hlt : a.l4_id < 65536 := (hacc.2.2.2.1 _ hout).2
      have hband := get_section_in_band _ _ r hsel hlt
      rw [hpool1]
      simp only [record_return, hb]
      rw [hpool] at hacc
      rw [← hnode] at hout ⊢
      exact accounted_give_back before after node r a.l4_id alloc hacc hout hband

theorem accounted_track (big_endian : Bool) (st : pool4_state) (c : pool4_call)
    (hacc : accounted st) (hdisc : c.disciplined st) : accounted (c.track big_endian st) := by
  cases c with
  | register kmalloc_ok address => exact accounted_register kmalloc_ok address st hacc
  | remove address =>
    refine accounted_remove address st hacc ?_
    intro addr e
    subst e
    exact hdisc
  | get_any l4protocol port => exact (accounted_get_any big_endian l4protocol port st hacc).1
  | get_similar l4protocol address => exact (accounted_get_similar l4protocol address st hacc).1
  | give_back kmalloc_ok l4protocol address =>
    refine accounted_return kmalloc_ok l4protocol address st hacc ?_
    intro a e
    subst e
    exact hdisc

theorem accounted_pool4_track (big_endian : Bool) :
    ∀ (calls : List pool4_call) (st : pool4_state), accounted st →
      disciplined big_endian st calls → accounted (pool4_track big_endian calls st) := by
  intro calls
  induction calls with
  | nil => intro st h _; exact h
  | cons c rest ih =>
    intro st hacc hdisc
    exact ih (c.track big_endian st) (accounted_track big_endian st c hacc hdisc.1) hdisc.2

theorem accounted_empty : accounted (pool4_state.mk [] []) := by
  refine ⟨fun n hn => (by cases hn), List.nodup_nil, List.nodup_nil,
    fun x hx => (by cases hx), fun n hn => (by cases hn)⟩

theorem pool4_track_pool (big_endian : Bool) :
    ∀ (calls : List pool4_call) (st : pool4_state),
      (pool4_track big_endian calls st).pool = pool4_run big_endian calls st.pool := by
  intro calls
  induction calls with
  | nil => intro st; rfl
  | cons c rest ih =>
    intro st
    have e : (c.track big_endian st).pool = pool4_call.run big_endian st.pool c := by
      cases c <;> rfl
    show (pool4_track big_endian rest (c.track big_endian st)).pool = _
    rw [ih, e]
    rfl

theorem disciplined_fifo_calls :
    disciplined false (pool4_state.mk [] []) fifo_calls := by
  refine ⟨trivial, trivial, trivial, ?_, trivial⟩
  intro b hb
  have e : protocol_bucket IPPROTO_UDP = some ids_ptr.udp := rfl
  rw [e] at hb
  simp only [Option.some.injEq] at hb
  subst hb
  decide

/-- C25 as stated fails: with the port 5 of 192.0.2.1 given back twice without having been
taken, both calls succeed, the free list of the UDP odd_low section holds 5 twice, and 5 is
at the same time in the free list and not below `next_port` = 1. -/
theorem free_list_distinct_counterexample :
    reachable false (pool4_run false double_return_calls []) ∧
    pool4_run false double_return_calls []
      = [(init_pool_node 3221225985).set_sec (ids_ptr.udp, section_ptr.odd_low)
          (addr_section.mk 1 1023 [5, 5])] ∧
    ¬ (addr_section.mk 1 1023 [5, 5]).free_ports.Nodup ∧
    (5 ∈ (addr_section.mk 1 1023 [5, 5]).free_ports ∧
      (addr_section.mk 1 1023 [5, 5]).next_port ≤ 5) :=
  ⟨⟨double_return_calls, by decide, rfl⟩, by decide, by decide, by decide, by decide⟩

/-- C25. In every pool state reached from the empty pool through a sequence of the public
operations in which every port handed to `pool4_return` is out (issued by a get and not
given back since) and no address with ports out is removed, the free list of every section
has no port twice, and every port of a free list is below `next_port`: no port is in a free
list and in the never-issued band at the same time. -/
theorem free_list_distinct (big_endian : Bool) (calls : List pool4_call)
    (hdisc : disciplined big_endian (pool4_state.mk [] []) calls) :
    ∀ node ∈ pool4_run big_endian calls [], ∀ r : ids_ptr × section_ptr,
      (node.sec r).free_ports.Nodup ∧
      ∀ port ∈ (node.sec r).free_ports, port < (node.sec r).next_port := by
  intro node hnode r
  have hacc := accounted_pool4_track big_endian calls _ accounted_empty hdisc
  have hpool := pool4_track_pool big_endian calls (pool4_state.mk [] [])
  simp only at hpool
  rw [← hpool] at hnode
  obtain ⟨h1, h2, _, _⟩ := hacc.2.2.2.2 node hnode r
  exact ⟨h1, h2⟩

/-- C25, on the state after `fifo_calls` (0 and 2 taken, 2 given back): the free list of the
UDP even_low section is the single port 2, below `next_port` = 4. -/
theorem free_list_distinct_witness :
    pool4_run false fifo_calls []
      = [(init_pool_node 3221225985).set_sec (ids_ptr.udp, section_ptr.even_low)
          (addr_section.mk 4 1022 [2])] ∧
    (addr_section.mk 4 1022 [2]).free_ports.Nodup ∧
    ∀ port ∈ (addr_section.mk 4 1022 [2]).free_ports,
      port < (addr_section.mk 4 1022 [2]).next_port :=
  ⟨by decide,
    free_list_distinct false fifo_calls disciplined_fifo_calls
      ((init_pool_node 3221225985).set_sec (ids_ptr.udp, section_ptr.even_low)
        (addr_section.mk 4 1022 [2]))
      (by decide) (ids_ptr.udp, section_ptr.even_low)⟩

/-- C26. No double allocation under caller discipline. After every sequence of the public
operations from the empty pool in which every port handed to `pool4_return` is out and no
address with ports out is removed: a port that `pool4_get_any` or `pool4_get_similar` issues
next is not out; no port is out twice; every port that is out belongs to an address of the
pool; and in every section every port of the band is in exactly one of three places: out,
in the free list, or never issued (at or above `next_port`). -/
theorem no_double_allocation (big_endian : Bool) (calls : List pool4_call)
    (hdisc : disciplined big_endian (pool4_state.mk [] []) calls) :
    (pool4_track big_endian calls (pool4_state.mk [] [])).pool
      = pool4_run big_endian calls [] ∧
    (∀ (l4protocol port : Nat) (res : ipv4_tuple_address) (b : ids_ptr),
      (pool4_get_any big_endian l4protocol port (pool4_run big_endian calls [])).1 = some res →
      protocol_bucket l4protocol = some b →
      (res.address, b, res.l4_id)
        ∉ (pool4_track big_endian calls (pool4_state.mk [] [])).allocated) ∧
    (∀ (l4protocol : Nat) (address : Option ipv4_tuple_address) (res : ipv4_tuple_address)
      (b : ids_ptr),
      (pool4_get_similar l4protocol address (pool4_run big_endian calls [])).1 = some res →
      protocol_bucket l4protocol = some b →
      (res.address, b, res.l4_id)
        ∉ (pool4_track big_endian calls (pool4_state.mk [] [])).allocated) ∧
    (pool4_track big_endian calls (pool4_state.mk [] [])).allocated.Nodup ∧
    (∀ x ∈ (pool4_track big_endian calls (pool4_state.mk [] [])).allocated,
      x.1 ∈ (pool4_run big_endian calls []).map (fun node => node.address) ∧
      x.2.2 < 65536) ∧
    (∀ node ∈ pool4_run big_endian calls [], ∀ (r : ids_ptr × section_ptr) (port : Nat),
      in_band r.2 port →
      ((node.address, r.1, port)
          ∈ (pool4_track big_endian calls (pool4_state.mk [] [])).allocated ∨
        port ∈ (node.sec r).free_ports ∨ (node.sec r).next_port ≤ port) ∧
      ¬ ((node.address, r.1, port)
          ∈ (pool4_track big_endian calls (pool4_state.mk [] [])).allocated ∧
        port ∈ (node.sec r).free_ports) ∧
      ¬ ((node.address, r.1, port)
          ∈ (pool4_track big_endian calls (pool4_state.mk [] [])).allocated ∧
        (node.sec r).next_port ≤ port) ∧
      ¬ (port ∈ (node.sec r).free_ports ∧ (node.sec r).next_port ≤ port)) := by
  have hacc := accounted_pool4_track big_endian calls _ accounted_empty hdisc
  have hpool := pool4_track_pool big_endian calls (pool4_state.mk [] [])
  simp only at hpool
  rw [← hpool]
  refine ⟨rfl, ?_, ?_, hacc.2.2.1, hacc.2.2.2.1, ?_⟩
  · intro l4protocol port res b h1 h2
    exact (accounted_get_any big_endian l4protocol port _ hacc).2 res b h1 h2
  · intro l4protocol address res b h1 h2
    exact (accounted_get_similar l4protocol address _ hacc).2 res b h1 h2
  · intro node hnode r port hband
    obtain ⟨_, h2, h3, h4⟩ := hacc.2.2.2.2 node hnode r
    refine ⟨?_, ?_, ?_, ?_⟩
    · by_cases hlt : port < (node.sec r).next_port
      · rcases h4 port hband hlt with h | h
        · exact Or.inr (Or.inl h)
        · exact Or.inl h.1
      · exact Or.inr (Or.inr (by omega))
    · intro h
      exact (h3 port ⟨h.1, hband⟩).2 h.2
    · intro h
      have := (h3 port ⟨h.1, hband⟩).1
      omega
    · intro h
      have := h2 port h.1
      omega

/-- C26, on the state after `fifo_calls`: the port 0 of 192.0.2.1 is out, the port 2 is back
in the free list, and the next get issues 2, which is not out. -/
theorem no_double_allocation_witness :
    (pool4_track false fifo_calls (pool4_state.mk [] [])).allocated
      = [(3221225985, ids_ptr.udp, 0)] ∧
    (pool4_get_similar IPPROTO_UDP (some { address := 3221225985, l4_id := 1000 })
      (pool4_run false fifo_calls [])).1 = some { address := 3221225985, l4_id := 2 } ∧
    (3221225985, ids_ptr.udp, 2)
      ∉ (pool4_track false fifo_calls (pool4_state.mk [] [])).allocated :=
  ⟨by decide, by decide,
    (no_double_allocation false fifo_calls disciplined_fifo_calls).2.2.1 IPPROTO_UDP
      (some { address := 3221225985, l4_id := 1000 }) { address := 3221225985, l4_id := 2 }
      ids_ptr.udp (by decide) rfl⟩

end NAT64
